import Mathlib

/-!
# GradientDescentOptimizer2 and StandardStochasticGradientOptimizer

A shallow embedding of

* `Components/Optimizers/StandardGradientDescent/itkGradientDescentOptimizer2.cxx`
* `Components/Optimizers/StandardStochasticGradientDescent/itkStandardStochasticGradientDescentOptimizer.cxx`

Conventions of the embedding.

* `double` is an arbitrary field `K` (exact arithmetic); `std::pow` is a parameter `pow`.
  Statements about the decay law instantiate `K := ℝ` and `pow := Real.rpow`.
* The products of `unsigned int` in `ThreadedAdvanceOneStep` are taken modulo `2 ^ 32`. The
  counters (`m_CurrentIteration`, `m_NumberOfIterations`) and the `int` values of the OpenMP and
  Eigen branch are `Nat` / `Int` without wrap-around.
* `itk::Array<double>` is `List K`. The arrays are indexed without check: an element assignment
  or an Eigen expression that reaches beyond the end of an array produces nothing (`none` for
  the update step, `Outcome.aborted` for the loop), and so does a block expression of Eigen
  whose precondition fails (`eigen_assert` in the constructor of `Eigen::Block`).
* An exception is a `Thrown`: an object that `catch ( ExceptionObject & err )` catches, or
  another one.
* The scales of the scaled cost function are the identity, so scaled and unscaled positions agree.
* The object is a `StandardStochasticGradientOptimizer`; the base class fields come first.
* `events`, `evaluations` and `stopRequests` are ghost fields: the trace of `InvokeEvent` calls,
  the number of calls of `GetScaledValueAndDerivative` made so far, and the number of calls of
  `StopOptimization` made from outside the optimizer so far.
* The timing instrumentation (`m_AdvanceOneStepTimings`) is left out.
-/

namespace itk

/-- Modelled from the spec: the enum `StopConditionType` is declared in the header
`itkGradientDescentOptimizer2.h`, which is not among the sources. The two `.cxx` files assign
only `MaximumNumberOfIterations` and `MetricError`; `ManualStop` is the third stop reason that
the specification lists. -/
inductive StopConditionType where
  | MaximumNumberOfIterations
  | MetricError
  | ManualStop
  deriving DecidableEq, Repr

/-- The events passed to `InvokeEvent`. -/
inductive Event where
  | StartEvent
  | IterationEvent
  | EndEvent
  deriving DecidableEq, Repr

/-- What a `throw` carries, as far as the handlers of the optimizer can tell.
`ExceptionObject derived what` is an object whose class is `itk::ExceptionObject` itself
(`derived = false`) or a class derived from it (`derived = true`); the handler
`catch ( ExceptionObject & err )` catches both. `other what` is an object of any other class,
which that handler lets pass. `what` is what the object says. -/
inductive Thrown (ε : Type) where
  | ExceptionObject (derived : Bool) (what : ε)
  | other (what : ε)

/-- The data members of the optimizer object. -/
structure Optimizer (K : Type) where
  m_LearningRate : K
  m_NumberOfIterations : Nat
  m_CurrentIteration : Nat
  m_Value : K
  m_StopCondition : StopConditionType
  m_Stop : Bool
  m_Gradient : List K
  m_ScaledCurrentPosition : List K
  m_InitialPosition : List K
  m_NumberOfThreads : Nat
  m_UseMultiThread : Bool
  m_UseOpenMP : Bool
  m_UseEigen : Bool
  m_Param_a : K
  m_Param_A : K
  m_Param_alpha : K
  m_Param_beta : K
  m_CurrentTime : K
  m_InitialTime : K
  events : List Event
  evaluations : Nat
  stopRequests : Nat

/-- The cost function plugged into the optimizer. `GetNumberOfParameters` throws when no cost
function has been set. `GetValueAndDerivative i p` is the result of the call number `i`
(counted from 0 over the life of the object) at position `p`: a value and a gradient, or an
exception. -/
structure CostFunction (ε K : Type) where
  GetNumberOfParameters : Except (Thrown ε) Nat
  GetValueAndDerivative : Nat → List K → Except (Thrown ε) (K × List K)

/-- What the surroundings of the optimizer do. An observer of `StartEvent` or of
`IterationEvent` may call `StopOptimization` from its callback, and it may be called while the
cost function is being evaluated; each decision may depend on the optimizer as it is at that
moment. Observers of `EndEvent` do not call `StopOptimization` again. `omp_get_thread_num i`
is the number that the OpenMP runtime gives to the thread that runs iteration `i` of the
parallel loop of the OpenMP and Eigen branch; the runtime is taken to share out the iterations
in the same way each time the loop is run. -/
structure Observer (K : Type) where
  onStartEvent : Optimizer K → Bool
  onIterationEvent : Optimizer K → Bool
  duringEvaluation : Optimizer K → Bool
  omp_get_thread_num : Nat → Nat

/-- How a member function ends: it returns, it throws `e`, or the behaviour is undefined (a
failed precondition of an Eigen block expression, or an array indexed beyond its end). In the
first two cases the object is left as `s`. -/
inductive Outcome (ε K : Type) where
  | returned (s : Optimizer K)
  | thrown (e : Thrown ε) (s : Optimizer K)
  | aborted

section Kernel

variable {K : Type} [Field K]

/-- The loop `for (j = lo; j < hi; j++) body(j)` acting on a state. -/
def forLoop {σ : Type} (lo hi : Nat) (body : Nat → σ → σ) (s : σ) : σ :=
  (List.range' lo (hi - lo)).foldl (fun acc j => body j acc) s

/-- The assignment `newPosition[j] = currentPosition[j] - learningRate * gradient[j]`, where
`newPosition` and `currentPosition` are both references to `m_ScaledCurrentPosition`. The
arrays are indexed without check: `none` when `j` is not an index of both. -/
def assignElement (learningRate : K) (gradient : List K) (j : Nat) (position : List K) :
    Option (List K) :=
  if j < position.length ∧ j < gradient.length then
    some (position.set j (position.getD j 0 - learningRate * gradient.getD j 0))
  else none

/-- The loop `for (j = lo; j < hi; j++)` over the element assignments. -/
def assignLoop (learningRate : K) (gradient : List K) (lo hi : Nat) (position : List K) :
    Option (List K) :=
  forLoop lo hi (fun j acc => acc.bind (assignElement learningRate gradient j)) (some position)

/-- An `Eigen::Map` of the first `size` entries of an array. -/
def EigenMap (data : List K) (size : Nat) : List K := data.take size

/-- The entries of `v.segment(start, n)`. -/
def segment (v : List K) (start n : Nat) : List K := (v.drop start).take n

/-- The precondition of `v.segment(start, n)` for a vector of `size` entries
(the assertion in the constructor of `Eigen::Block`). -/
def segmentValid (size : Nat) (start n : Int) : Prop :=
  0 ≤ start ∧ 0 ≤ n ∧ start ≤ (size : Int) - n

instance (size : Nat) (start n : Int) : Decidable (segmentValid size start n) := by
  unfold segmentValid; infer_instance

/-- The coefficients `start, ..., start + n - 1` of a map are entries of the array `data` that
the map has been laid over: evaluating an expression over them stays inside the array. -/
def coefficientsInArray (data : List K) (start n : Nat) : Prop :=
  n = 0 ∨ start + n ≤ data.length

instance (data : List K) (start n : Nat) : Decidable (coefficientsInArray data start n) := by
  unfold coefficientsInArray; infer_instance

/-- The vector expression `x - learningRate * g`, evaluated coefficient by coefficient. -/
def eigenExpr (learningRate : K) (x g : List K) : List K :=
  List.zipWith (fun p d => p - learningRate * d) x g

/-- Writing the coefficients `src` into `dst`, beginning at index `start`. -/
def assignBlock (dst : List K) (start : Nat) (src : List K) : List K :=
  dst.take start ++ src ++ dst.drop (start + src.length)

/-- The range of `ThreadedAdvanceOneStep`: `subSize`, the ceiling of the quotient of the two
counts taken as `double`. -/
def threadSubSize (spaceDimension numberOfThreads : Nat) : Nat :=
  ⌈(spaceDimension : ℚ) / (numberOfThreads : ℚ)⌉₊

/-- Lower bound `jmin` of the range of thread `threadId` in `ThreadedAdvanceOneStep`: a product
of `unsigned int`. -/
def threadJmin (spaceDimension numberOfThreads threadId : Nat) : Nat :=
  (threadId * threadSubSize spaceDimension numberOfThreads) % 2 ^ 32

/-- Upper bound `jmax` of the range of thread `threadId` in `ThreadedAdvanceOneStep`: a product
of `unsigned int`, cut down to `spaceDimension`. -/
def threadJmax (spaceDimension numberOfThreads threadId : Nat) : Nat :=
  let jmax := ((threadId + 1) * threadSubSize spaceDimension numberOfThreads) % 2 ^ 32
  if jmax > spaceDimension then spaceDimension else jmax

/-- The member function `ThreadedAdvanceOneStep( threadId, newPosition )`. -/
def ThreadedAdvanceOneStep (spaceDimension numberOfThreads : Nat) (learningRate : K)
    (gradient : List K) (threadId : Nat) (newPosition : List K) : Option (List K) :=
  assignLoop learningRate gradient (threadJmin spaceDimension numberOfThreads threadId)
    (threadJmax spaceDimension numberOfThreads threadId) newPosition

/-- The call `SingleMethodExecute()` of the threader: every thread id below the number of
threads runs the single method once; the calls are joined before it returns. The calls are run
one after the other, in the order of the thread ids. -/
def SingleMethodExecute {σ : Type} (numberOfThreads : Nat) (method : Nat → σ → σ) (s : σ) : σ :=
  (List.range numberOfThreads).foldl (fun acc t => method t acc) s

/-- The `int chunk` of the OpenMP and Eigen branch, computed in `unsigned int`. -/
def ompChunk (spaceDimension nthreads : Nat) : Int :=
  (((spaceDimension + nthreads - 1) / nthreads : Nat) : Int)

/-- The `int jmin` of the OpenMP and Eigen branch. -/
def ompJmin (spaceDimension nthreads threadId : Nat) : Int :=
  (threadId : Int) * ompChunk spaceDimension nthreads

/-- The `int jmax` of the OpenMP and Eigen branch. -/
def ompJmax (spaceDimension nthreads threadId : Nat) : Int :=
  if ((threadId : Int) + 1) * ompChunk spaceDimension nthreads < (spaceDimension : Int)
  then ((threadId : Int) + 1) * ompChunk spaceDimension nthreads
  else (spaceDimension : Int)

/-- The body of the `omp parallel for` of the OpenMP and Eigen branch, run by the thread number
`threadId`: the three segments are formed and the difference is assigned. `none` when a segment
violates its precondition or reaches beyond the end of an array. -/
def ompEigenBody (spaceDimension nthreads : Nat) (learningRate : K) (gradient : List K)
    (threadId : Nat) (position : List K) : Option (List K) :=
  let jmin := ompJmin spaceDimension nthreads threadId
  let jmax := ompJmax spaceDimension nthreads threadId
  let subSize := jmax - jmin
  if segmentValid spaceDimension jmin subSize ∧
      coefficientsInArray position jmin.toNat subSize.toNat ∧
      coefficientsInArray gradient jmin.toNat subSize.toNat then
    some (assignBlock position jmin.toNat
      (eigenExpr learningRate
        (segment (EigenMap position spaceDimension) jmin.toNat subSize.toNat)
        (segment (EigenMap gradient spaceDimension) jmin.toNat subSize.toNat)))
  else none

/-- The `omp parallel for` over `nthreads` iterations. The body does not look at the loop index:
in iteration `i` it works on the chunk of the thread number `threadNum i` that runs it. The
iterations are run one after the other; an iteration that produces nothing leaves no position
at all. -/
def ompParallelChunks (nthreads : Nat) (threadNum : Nat → Nat)
    (body : Nat → List K → Option (List K)) (position : List K) : Option (List K) :=
  (List.range nthreads).foldl (fun acc i => acc.bind (body (threadNum i))) (some position)

/-- The position written by `GradientDescentOptimizer2::AdvanceOneStep`, branch by branch: the
sequential loop, the `omp parallel for` over the indices (the same assignments, run in index
order), the Eigen expression over the whole vector, the OpenMP and Eigen chunks, and the
threader. -/
def advancePosition (obs : Observer K) (spaceDimension : Nat) (s : Optimizer K) :
    Option (List K) :=
  let learningRate := s.m_LearningRate
  if !s.m_UseMultiThread then
    assignLoop s.m_LearningRate s.m_Gradient 0 spaceDimension s.m_ScaledCurrentPosition
  else if s.m_UseOpenMP && !s.m_UseEigen then
    assignLoop s.m_LearningRate s.m_Gradient 0 spaceDimension s.m_ScaledCurrentPosition
  else if !s.m_UseOpenMP && s.m_UseEigen then
    if coefficientsInArray s.m_ScaledCurrentPosition 0 spaceDimension ∧
        coefficientsInArray s.m_Gradient 0 spaceDimension then
      some (assignBlock s.m_ScaledCurrentPosition 0
        (eigenExpr learningRate (EigenMap s.m_ScaledCurrentPosition spaceDimension)
          (EigenMap s.m_Gradient spaceDimension)))
    else none
  else if s.m_UseOpenMP && s.m_UseEigen then
    ompParallelChunks s.m_NumberOfThreads obs.omp_get_thread_num
      (ompEigenBody spaceDimension s.m_NumberOfThreads learningRate s.m_Gradient)
      s.m_ScaledCurrentPosition
  else
    SingleMethodExecute s.m_NumberOfThreads
      (fun threadId acc => acc.bind
        (ThreadedAdvanceOneStep spaceDimension s.m_NumberOfThreads learningRate s.m_Gradient
          threadId))
      (some s.m_ScaledCurrentPosition)

/-- The array after the assignment to element `j`, for an index inside both arrays. -/
def stepElement (learningRate : K) (gradient : List K) (j : Nat) (position : List K) : List K :=
  position.set j (position.getD j 0 - learningRate * gradient.getD j 0)

/-- The array every strategy is meant to compute: entry `i` is
`position[i] - learningRate * gradient[i]`. -/
def steppedPosition (learningRate : K) (position gradient : List K) : List K :=
  (List.range position.length).map fun i => position.getD i 0 - learningRate * gradient.getD i 0

/-- Every segment formed in the parallel loop of the OpenMP and Eigen branch satisfies its
precondition; nothing is asked of the other branches. -/
def SegmentsValid (obs : Observer K) (spaceDimension : Nat) (s : Optimizer K) : Prop :=
  s.m_UseMultiThread = true → s.m_UseOpenMP = true → s.m_UseEigen = true →
    ∀ i, i < s.m_NumberOfThreads →
      segmentValid spaceDimension
        (ompJmin spaceDimension s.m_NumberOfThreads (obs.omp_get_thread_num i))
        (ompJmax spaceDimension s.m_NumberOfThreads (obs.omp_get_thread_num i)
          - ompJmin spaceDimension s.m_NumberOfThreads (obs.omp_get_thread_num i))

/-- In the OpenMP and Eigen branch the runtime gives the team of `m_NumberOfThreads` threads
that was asked for and thread `t` runs iteration `t`; nothing is asked of the other
branches. -/
def FullTeam (obs : Observer K) (s : Optimizer K) : Prop :=
  s.m_UseMultiThread = true → s.m_UseOpenMP = true → s.m_UseEigen = true →
    ∀ i, i < s.m_NumberOfThreads → obs.omp_get_thread_num i = i

/-- In the threader branch the products of `unsigned int` that give the bounds of the threads
do not wrap around; nothing is asked of the other branches. -/
def NoWrapAround (spaceDimension : Nat) (s : Optimizer K) : Prop :=
  s.m_UseMultiThread = true → s.m_UseOpenMP = false → s.m_UseEigen = false →
    s.m_NumberOfThreads * threadSubSize spaceDimension s.m_NumberOfThreads < 2 ^ 32

end Kernel

section Loop

variable {ε K : Type} [Field K]

/-- The member function `StopOptimization`. -/
def StopOptimization (s : Optimizer K) : Optimizer K :=
  { s with m_Stop := true, events := s.events ++ [Event.EndEvent] }

/-- A call of `StopOptimization` made from outside the optimizer: it is counted and run. -/
def RequestStop (s : Optimizer K) : Optimizer K :=
  StopOptimization { s with stopRequests := s.stopRequests + 1 }

/-- The call `InvokeEvent( StartEvent() )`: the event is delivered and an observer may call
`StopOptimization` from its callback. -/
def InvokeStartEvent (obs : Observer K) (s : Optimizer K) : Optimizer K :=
  let s1 := { s with events := s.events ++ [Event.StartEvent] }
  if obs.onStartEvent s1 then RequestStop s1 else s1

/-- The call `InvokeEvent( IterationEvent() )`. -/
def InvokeIterationEvent (obs : Observer K) (s : Optimizer K) : Optimizer K :=
  let s1 := { s with events := s.events ++ [Event.IterationEvent] }
  if obs.onIterationEvent s1 then RequestStop s1 else s1

/-- The member function `GradientDescentOptimizer2::AdvanceOneStep`: the position is updated in
place and `IterationEvent` is invoked. `spaceDimension` is the number of parameters read from
the cost function. -/
def GradientDescentOptimizer2.AdvanceOneStep (obs : Observer K) (spaceDimension : Nat)
    (s : Optimizer K) : Option (Optimizer K) :=
  (advancePosition obs spaceDimension s).map fun newPosition =>
    InvokeIterationEvent obs { s with m_ScaledCurrentPosition := newPosition }

/-- The member function `Compute_a`. -/
def Compute_a (pow : K → K → K) (s : Optimizer K) (k : K) : K :=
  s.m_Param_a / pow (s.m_Param_A + k + 1) s.m_Param_alpha

/-- The member function `Compute_beta`. -/
def Compute_beta (pow : K → K → K) (s : Optimizer K) (k : K) : K :=
  s.m_Param_beta / pow (s.m_Param_A + k + 1) s.m_Param_alpha

/-- The member function `UpdateCurrentTime`. -/
def UpdateCurrentTime (s : Optimizer K) : Optimizer K :=
  { s with m_CurrentTime := s.m_CurrentTime + 1 }

/-- The member function `SetLearningRate`. -/
def SetLearningRate (learningRate : K) (s : Optimizer K) : Optimizer K :=
  { s with m_LearningRate := learningRate }

/-- The member function `StandardStochasticGradientOptimizer::AdvanceOneStep`. -/
def StandardStochasticGradientOptimizer.AdvanceOneStep (pow : K → K → K) (obs : Observer K)
    (spaceDimension : Nat) (s : Optimizer K) : Option (Optimizer K) :=
  (GradientDescentOptimizer2.AdvanceOneStep obs spaceDimension
    (SetLearningRate (Compute_a pow s s.m_CurrentTime) s)).map UpdateCurrentTime

/-- The member function `MetricErrorResponse( ExceptionObject & err )`, for a caught exception
that says `what`. The statement `throw err` throws a copy of static type `ExceptionObject`:
what a derived class added to the caught object is sliced off. -/
def MetricErrorResponse (what : ε) (s : Optimizer K) : Outcome ε K :=
  Outcome.thrown (Thrown.ExceptionObject false what)
    (StopOptimization { s with m_StopCondition := StopConditionType.MetricError })

/-- One pass through the body of the `while` loop either goes on to the next test of the loop
condition or leaves `ResumeOptimization`. -/
inductive LoopStep (ε K : Type) where
  | next (s : Optimizer K)
  | leave (o : Outcome ε K)

/-- The body of the `while` loop of `ResumeOptimization`. The handler of the `try` block catches
the objects of class `ExceptionObject` and of the classes derived from it; any other exception
leaves `ResumeOptimization` as it is. -/
def whileBody (pow : K → K → K) (cf : CostFunction ε K) (obs : Observer K)
    (spaceDimension : Nat) (s : Optimizer K) : LoopStep ε K :=
  let s0 := { s with evaluations := s.evaluations + 1 }
  let s1 := if obs.duringEvaluation s then RequestStop s0 else s0
  match cf.GetValueAndDerivative s.evaluations s.m_ScaledCurrentPosition with
  | Except.error (Thrown.ExceptionObject _ what) => LoopStep.leave (MetricErrorResponse what s1)
  | Except.error (Thrown.other what) => LoopStep.leave (Outcome.thrown (Thrown.other what) s1)
  | Except.ok (value, gradient) =>
    let s2 := { s1 with m_Value := value, m_Gradient := gradient }
    if s2.m_Stop then LoopStep.leave (Outcome.returned s2)
    else
      match StandardStochasticGradientOptimizer.AdvanceOneStep pow obs spaceDimension s2 with
      | none => LoopStep.leave Outcome.aborted
      | some s3 =>
        if s3.m_Stop then LoopStep.leave (Outcome.returned s3)
        else
          let s4 := { s3 with m_CurrentIteration := s3.m_CurrentIteration + 1 }
          if s4.m_CurrentIteration ≥ s4.m_NumberOfIterations then
            LoopStep.leave (Outcome.returned (StopOptimization
              { s4 with m_StopCondition := StopConditionType.MaximumNumberOfIterations }))
          else LoopStep.next s4

/-- The `while( ! this->m_Stop )` loop of `ResumeOptimization`. -/
def whileLoop (pow : K → K → K) (cf : CostFunction ε K) (obs : Observer K)
    (spaceDimension : Nat) (s : Optimizer K) : Outcome ε K :=
  if s.m_Stop then Outcome.returned s
  else
    match h : whileBody pow cf obs spaceDimension s with
    | LoopStep.leave o => o
    | LoopStep.next s4 => whileLoop pow cf obs spaceDimension s4
termination_by s.m_NumberOfIterations - s.m_CurrentIteration
decreasing_by
  have hnext : s4.m_NumberOfIterations = s.m_NumberOfIterations ∧
      s4.m_CurrentIteration = s.m_CurrentIteration + 1 ∧
      s4.m_CurrentIteration < s4.m_NumberOfIterations := by
    unfold whileBody at h
    dsimp only at h
    cases hev : cf.GetValueAndDerivative s.evaluations s.m_ScaledCurrentPosition with
    | error err =>
      rw [hev] at h
      cases err <;> cases h
    | ok vg =>
      rw [hev] at h
      dsimp only at h
      by_cases hstop2 : (if obs.duringEvaluation s = true then
          RequestStop { s with evaluations := s.evaluations + 1 }
          else { s with evaluations := s.evaluations + 1 }).m_Stop = true
      · rw [if_pos hstop2] at h; cases h
      · rw [if_neg hstop2] at h
        split at h
        · cases h
        · rename_i s3 h3
          by_cases hstop3 : s3.m_Stop = true
          · rw [if_pos hstop3] at h; cases h
          · rw [if_neg hstop3] at h
            by_cases hmax : s3.m_CurrentIteration + 1 ≥ s3.m_NumberOfIterations
            · rw [if_pos hmax] at h; cases h
            · rw [if_neg hmax] at h
              cases h
              unfold StandardStochasticGradientOptimizer.AdvanceOneStep
                GradientDescentOptimizer2.AdvanceOneStep at h3
              simp only [Option.map_map, Option.map_eq_some'] at h3
              obtain ⟨p, -, rfl⟩ := h3
              simp only [not_le, ge_iff_le] at hmax
              refine ⟨?_, ?_, hmax⟩
              · dsimp only [Function.comp, UpdateCurrentTime, InvokeIterationEvent,
                  SetLearningRate]
                split <;> split <;> rfl
              · dsimp only [Function.comp, UpdateCurrentTime, InvokeIterationEvent,
                  SetLearningRate]
                split <;> split <;> rfl
  omega

/-- The member function `ResumeOptimization`. The freshly allocated `m_Gradient` is taken to
hold zeros until the first evaluation fills it. -/
def ResumeOptimization (pow : K → K → K) (cf : CostFunction ε K) (obs : Observer K)
    (s : Optimizer K) : Outcome ε K :=
  let s1 := InvokeStartEvent obs { s with m_Stop := false }
  match cf.GetNumberOfParameters with
  | Except.error err => Outcome.thrown err s1
  | Except.ok spaceDimension =>
    whileLoop pow cf obs spaceDimension { s1 with m_Gradient := List.replicate spaceDimension 0 }

/-- The member function `GradientDescentOptimizer2::StartOptimization`. -/
def GradientDescentOptimizer2.StartOptimization (pow : K → K → K) (cf : CostFunction ε K)
    (obs : Observer K) (s : Optimizer K) : Outcome ε K :=
  let s1 := { s with m_CurrentIteration := 0 }
  match cf.GetNumberOfParameters with
  | Except.error err => Outcome.thrown err s1
  | Except.ok _ =>
    ResumeOptimization pow cf obs { s1 with m_ScaledCurrentPosition := s1.m_InitialPosition }

/-- The member function `StandardStochasticGradientOptimizer::StartOptimization`. -/
def StandardStochasticGradientOptimizer.StartOptimization (pow : K → K → K)
    (cf : CostFunction ε K) (obs : Observer K) (s : Optimizer K) : Outcome ε K :=
  GradientDescentOptimizer2.StartOptimization pow cf obs
    { s with m_CurrentTime := s.m_InitialTime }

/-- The object left by the two constructors. `m_Stop` and `m_Param_beta` are not initialised by
them and are arguments here; the arrays are empty. -/
def Constructor (stop : Bool) (beta : K) : Optimizer K where
  m_LearningRate := 1
  m_NumberOfIterations := 100
  m_CurrentIteration := 0
  m_Value := 0
  m_StopCondition := StopConditionType.MaximumNumberOfIterations
  m_Stop := stop
  m_Gradient := []
  m_ScaledCurrentPosition := []
  m_InitialPosition := []
  m_NumberOfThreads := 1
  m_UseMultiThread := false
  m_UseOpenMP := false
  m_UseEigen := false
  m_Param_a := 1
  m_Param_A := 1
  m_Param_alpha := 602 / 1000
  m_Param_beta := beta
  m_CurrentTime := 0
  m_InitialTime := 0
  events := []
  evaluations := 0
  stopRequests := 0

/-- The optimizer at the first test of the loop condition in `ResumeOptimization`, for a cost
function of `spaceDimension` parameters. -/
def loopEntry (obs : Observer K) (spaceDimension : Nat) (s : Optimizer K) : Optimizer K :=
  { InvokeStartEvent obs { s with m_Stop := false } with
    m_Gradient := List.replicate spaceDimension 0 }

/-- The optimizer as `StartOptimization` hands it to `ResumeOptimization`. -/
def startEntry (s : Optimizer K) : Optimizer K :=
  { s with
    m_CurrentTime := s.m_InitialTime
    m_CurrentIteration := 0
    m_ScaledCurrentPosition := s.m_InitialPosition }

/-- The optimizer after `k` passes through the loop body, each of which goes on to the next
test of the loop condition; `none` when one of them leaves the loop. -/
def completedSteps (pow : K → K → K) (cf : CostFunction ε K) (obs : Observer K)
    (spaceDimension : Nat) : Nat → Optimizer K → Option (Optimizer K)
  | 0, s => some s
  | k + 1, s =>
    match whileBody pow cf obs spaceDimension s with
    | LoopStep.next s4 => completedSteps pow cf obs spaceDimension k s4
    | LoopStep.leave _ => none

/-- The members that are set before `StartOptimization` and that the loop only reads. -/
def configuration (s : Optimizer K) :
    Nat × Nat × Bool × Bool × Bool × K × K × K × K × K × List K :=
  (s.m_NumberOfIterations, s.m_NumberOfThreads, s.m_UseMultiThread, s.m_UseOpenMP, s.m_UseEigen,
    s.m_Param_a, s.m_Param_A, s.m_Param_alpha, s.m_Param_beta, s.m_InitialTime,
    s.m_InitialPosition)

/-- The bookkeeping of `x` is that of `s` after `k` further passes in which nobody called
`StopOptimization`. -/
def Advanced (k : Nat) (s x : Optimizer K) : Prop :=
  configuration x = configuration s ∧
  x.m_CurrentIteration = s.m_CurrentIteration + k ∧
  x.m_CurrentTime = s.m_CurrentTime + (k : K) ∧
  x.evaluations = s.evaluations + k ∧
  x.events = s.events ++ List.replicate k Event.IterationEvent ∧
  x.m_Stop = false ∧
  x.m_StopCondition = s.m_StopCondition ∧
  x.stopRequests = s.stopRequests

/-- The number of `IterationEvent`s in the trace: the number of update steps made so far. -/
def iterationsNotified (s : Optimizer K) : Nat :=
  s.events.count Event.IterationEvent

/-- The optimizer in the middle of a pass: the cost function has returned `value` and
`gradient` and the learning rate has been set from the current time. -/
def evaluated (pow : K → K → K) (s : Optimizer K) (value : K) (gradient : List K) :
    Optimizer K :=
  { s with
    evaluations := s.evaluations + 1
    m_Value := value
    m_Gradient := gradient
    m_LearningRate := Compute_a pow s s.m_CurrentTime }

/-- The optimizer as the observers of `IterationEvent` see it: the position has been written and
the event has been recorded. -/
def notified (pow : K → K → K) (s : Optimizer K) (value : K) (gradient position : List K) :
    Optimizer K :=
  { evaluated pow s value gradient with
    m_ScaledCurrentPosition := position
    events := s.events ++ [Event.IterationEvent] }

/-- The optimizer after a whole pass in which nobody called `StopOptimization`. -/
def completedPass (pow : K → K → K) (s : Optimizer K) (value : K) (gradient position : List K) :
    Optimizer K :=
  { notified pow s value gradient position with
    m_CurrentTime := s.m_CurrentTime + 1
    m_CurrentIteration := s.m_CurrentIteration + 1 }

/-- A cost function of `spaceDimension` parameters that returns the value `0` and the gradient
`gradient` at every call. -/
def constantCostFunction (spaceDimension : Nat) (gradient : List K) : CostFunction String K where
  GetNumberOfParameters := Except.ok spaceDimension
  GetValueAndDerivative := fun _ _ => Except.ok (0, gradient)

/-- A cost function like `constantCostFunction` whose call number `failAt` (counted from 0)
throws `err`. -/
def failingCostFunction (spaceDimension : Nat) (gradient : List K) (failAt : Nat)
    (err : Thrown String) : CostFunction String K where
  GetNumberOfParameters := Except.ok spaceDimension
  GetValueAndDerivative := fun i _ =>
    if i = failAt then Except.error err else Except.ok (0, gradient)

/-- The position the specification gives after `n` completed steps when the successive
evaluations return the gradients `g 0, g 1, ...`: entry `i` is the initial entry minus the sum
over `j < n` of `Compute_a (m_InitialTime + j) * (g j)[i]`. -/
def closedFormPosition (pow : K → K → K) (s : Optimizer K) (g : Nat → List K) (n : Nat) :
    List K :=
  (List.range s.m_InitialPosition.length).map fun i =>
    s.m_InitialPosition.getD i 0
      - ∑ j in Finset.range n, Compute_a pow s (s.m_InitialTime + (j : K)) * (g j).getD i 0

/-- A fresh optimizer set up for the scenario of the specification: three parameters starting
at `[0, 0, 0]`, the constant schedule `a = 1`, `A = 0`, `alpha = 0`, and the iteration limit
`n`. -/
def scenarioOptimizer (n : Nat) : Optimizer K :=
  { Constructor false 0 with
    m_NumberOfIterations := n
    m_InitialPosition := [0, 0, 0]
    m_Param_a := 1
    m_Param_A := 0
    m_Param_alpha := 0 }

/-- An observer that calls `StopOptimization` from the callback of the `IterationEvent` number
`count` of the trace, and at no other moment. Thread `t` runs iteration `t` of the parallel
loop. -/
def stopAtIteration (count : Nat) : Observer K where
  onStartEvent := fun _ => false
  onIterationEvent := fun x => decide (iterationsNotified x = count)
  duringEvaluation := fun _ => false
  omp_get_thread_num := fun i => i

/-- An optimizer to which no cost function has been set: asking for the number of parameters
throws `err`, and so would an evaluation. -/
def unsetCostFunction (err : Thrown String) : CostFunction String K where
  GetNumberOfParameters := Except.error err
  GetValueAndDerivative := fun _ _ => Except.error err

/-- Surroundings that call `StopOptimization` while the cost function is being evaluated, and at
no other moment. Thread `t` runs iteration `t` of the parallel loop. -/
def stopDuringEvaluation : Observer K where
  onStartEvent := fun _ => false
  onIterationEvent := fun _ => false
  duringEvaluation := fun _ => true
  omp_get_thread_num := fun i => i

/-- The run of the loop entered at `e` has ended in `s'` by a call of `StopOptimization` made
during the update step of its last pass: after some completed passes the loop is at `x` with the
stop flag clear, the evaluation at `x` returns undisturbed, and `AdvanceOneStep` comes back in
the state `s'` with the stop flag set. -/
def StoppedInUpdateStep (pow : K → K → K) (cf : CostFunction ε K) (obs : Observer K)
    (spaceDimension : Nat) (e s' : Optimizer K) : Prop :=
  ∃ (k : Nat) (x : Optimizer K) (value : K) (gradient : List K),
    completedSteps pow cf obs spaceDimension k e = some x ∧ x.m_Stop = false ∧
    cf.GetValueAndDerivative x.evaluations x.m_ScaledCurrentPosition
      = Except.ok (value, gradient) ∧
    obs.duringEvaluation x = false ∧
    StandardStochasticGradientOptimizer.AdvanceOneStep pow obs spaceDimension
      { x with evaluations := x.evaluations + 1, m_Value := value, m_Gradient := gradient }
      = some s' ∧
    s'.m_Stop = true

/-- Surroundings in which nobody calls `StopOptimization` and thread `t` runs iteration `t` of
the parallel loop. -/
def quietObserver : Observer K where
  onStartEvent := fun _ => false
  onIterationEvent := fun _ => false
  duringEvaluation := fun _ => false
  omp_get_thread_num := fun i => i

/-- Surroundings in which nobody calls `StopOptimization` and the OpenMP runtime gives a team of
one thread: every iteration of the parallel loop is run by thread 0. -/
def singleThreadTeam : Observer K where
  onStartEvent := fun _ => false
  onIterationEvent := fun _ => false
  duringEvaluation := fun _ => false
  omp_get_thread_num := fun _ => 0

/-- An optimizer for a cost function of twelve parameters (a three-dimensional affine
transform) that uses the OpenMP and Eigen branch with eight threads: the initial position and
the current position are twelve zeros, the schedule is constant (`a = 1`, `A = 0`,
`alpha = 0`) and the iteration limit is `n`. -/
def affineOptimizer (n : Nat) : Optimizer K :=
  { Constructor false 0 with
    m_NumberOfIterations := n
    m_InitialPosition := List.replicate 12 0
    m_ScaledCurrentPosition := List.replicate 12 0
    m_NumberOfThreads := 8
    m_UseMultiThread := true
    m_UseOpenMP := true
    m_UseEigen := true
    m_Param_a := 1
    m_Param_A := 0
    m_Param_alpha := 0 }

/-- A freshly constructed optimizer with the given threading flags, number of threads, learning
rate, current position and gradient. -/
def configured (useMultiThread useOpenMP useEigen : Bool) (numberOfThreads : Nat)
    (learningRate : K) (position gradient : List K) : Optimizer K :=
  { Constructor false 0 with
    m_UseMultiThread := useMultiThread
    m_UseOpenMP := useOpenMP
    m_UseEigen := useEigen
    m_NumberOfThreads := numberOfThreads
    m_LearningRate := learningRate
    m_ScaledCurrentPosition := position
    m_Gradient := gradient }

end Loop

/-! ## Frame properties of one pass of the loop -/

section Loop

variable {ε K : Type} [Field K]

omit [Field K] in
theorem StopOptimization_counters (s : Optimizer K) :
    (StopOptimization s).m_CurrentIteration = s.m_CurrentIteration ∧
    (StopOptimization s).m_NumberOfIterations = s.m_NumberOfIterations := ⟨rfl, rfl⟩

omit [Field K] in
theorem InvokeIterationEvent_counters (obs : Observer K) (s : Optimizer K) :
    (InvokeIterationEvent obs s).m_CurrentIteration = s.m_CurrentIteration ∧
    (InvokeIterationEvent obs s).m_NumberOfIterations = s.m_NumberOfIterations := by
  dsimp only [InvokeIterationEvent]
  split <;> exact ⟨rfl, rfl⟩

theorem AdvanceOneStep_counters (pow : K → K → K) (obs : Observer K) (spaceDimension : Nat)
    (s s3 : Optimizer K)
    (h : StandardStochasticGradientOptimizer.AdvanceOneStep pow obs spaceDimension s = some s3) :
    s3.m_CurrentIteration = s.m_CurrentIteration ∧
    s3.m_NumberOfIterations = s.m_NumberOfIterations := by
  unfold StandardStochasticGradientOptimizer.AdvanceOneStep
    GradientDescentOptimizer2.AdvanceOneStep at h
  simp only [Option.map_map, Option.map_eq_some'] at h
  obtain ⟨p, -, rfl⟩ := h
  have := InvokeIterationEvent_counters obs
    { SetLearningRate (Compute_a pow s s.m_CurrentTime) s with m_ScaledCurrentPosition := p }
  exact ⟨this.1, this.2⟩

theorem whileBody_next (pow : K → K → K) (cf : CostFunction ε K) (obs : Observer K)
    (spaceDimension : Nat) (s s4 : Optimizer K)
    (h : whileBody pow cf obs spaceDimension s = LoopStep.next s4) :
    s4.m_NumberOfIterations = s.m_NumberOfIterations ∧
    s4.m_CurrentIteration = s.m_CurrentIteration + 1 ∧
    s4.m_CurrentIteration < s4.m_NumberOfIterations := by
  unfold whileBody at h
  dsimp only at h
  cases hev : cf.GetValueAndDerivative s.evaluations s.m_ScaledCurrentPosition with
  | error err =>
    rw [hev] at h
    cases err <;> cases h
  | ok vg =>
    obtain ⟨value, gradient⟩ := vg
    rw [hev] at h
    dsimp only at h
    by_cases hstop2 : (if obs.duringEvaluation s = true then
        RequestStop { s with evaluations := s.evaluations + 1 }
        else { s with evaluations := s.evaluations + 1 }).m_Stop = true
    · rw [if_pos hstop2] at h; cases h
    · rw [if_neg hstop2] at h
      split at h
      · cases h
      · rename_i s3 h3
        by_cases hstop3 : s3.m_Stop = true
        · rw [if_pos hstop3] at h; cases h
        · rw [if_neg hstop3] at h
          by_cases hmax : s3.m_CurrentIteration + 1 ≥ s3.m_NumberOfIterations
          · rw [if_pos hmax] at h; cases h
          · rw [if_neg hmax] at h
            cases h
            have hc := AdvanceOneStep_counters pow obs spaceDimension _ s3 h3
            simp only [not_le, ge_iff_le] at hmax
            refine ⟨?_, ?_, hmax⟩
            · rw [hc.2]; split <;> rfl
            · simp only [hc.1]; split <;> rfl

end Loop

/-! ## The update kernel -/

section KernelLemmas

variable {K : Type} [Field K]

theorem stepElement_length (learningRate : K) (gradient : List K) (j : Nat)
    (position : List K) :
    (stepElement learningRate gradient j position).length = position.length := by
  simp [stepElement]

theorem stepElement_getD (learningRate : K) (gradient : List K) (j i : Nat)
    (position : List K) :
    (stepElement learningRate gradient j position).getD i 0 =
      if j = i ∧ i < position.length then
        position.getD i 0 - learningRate * gradient.getD i 0
      else position.getD i 0 := by
  simp only [stepElement, List.getD_eq_getElem?_getD, List.getElem?_set]
  by_cases hji : j = i
  · subst hji
    by_cases hlt : j < position.length
    · simp [hlt]
    · have hnone : position[j]? = none := List.getElem?_eq_none (by omega)
      simp [hlt, hnone]
  · simp [hji]

/-- The effect of the element assignments at `lo, lo + 1, ..., lo + len - 1`. -/
theorem foldl_stepElement (learningRate : K) (gradient : List K) :
    ∀ (len lo : Nat) (position : List K),
      ((List.range' lo len).foldl (fun acc j => stepElement learningRate gradient j acc)
          position).length = position.length ∧
      ∀ i, ((List.range' lo len).foldl (fun acc j => stepElement learningRate gradient j acc)
          position).getD i 0 =
        if lo ≤ i ∧ i < lo + len ∧ i < position.length then
          position.getD i 0 - learningRate * gradient.getD i 0
        else position.getD i 0 := by
  intro len
  induction len with
  | zero =>
    intro lo position
    refine ⟨rfl, fun i => ?_⟩
    have : ¬ (lo ≤ i ∧ i < lo + 0 ∧ i < position.length) := by omega
    rw [if_neg this]
    rfl
  | succ len ih =>
    intro lo position
    rw [List.range'_succ, List.foldl_cons]
    obtain ⟨hlen, hget⟩ := ih (lo + 1) (stepElement learningRate gradient lo position)
    refine ⟨by rw [hlen, stepElement_length], fun i => ?_⟩
    rw [hget i, stepElement_length, stepElement_getD]
    by_cases h1 : lo + 1 ≤ i ∧ i < lo + 1 + len ∧ i < position.length
    · have h2 : ¬ (lo = i ∧ i < position.length) := by omega
      have h3 : lo ≤ i ∧ i < lo + (len + 1) ∧ i < position.length := by omega
      rw [if_pos h1, if_neg h2, if_pos h3]
    · by_cases h2 : lo = i ∧ i < position.length
      · have h3 : lo ≤ i ∧ i < lo + (len + 1) ∧ i < position.length := by omega
        rw [if_neg h1, if_pos h2, if_pos h3]
      · have h3 : ¬ (lo ≤ i ∧ i < lo + (len + 1) ∧ i < position.length) := by omega
        rw [if_neg h1, if_neg h2, if_neg h3]

theorem forLoop_stepElement_length (learningRate : K) (gradient : List K) (lo hi : Nat)
    (position : List K) :
    (forLoop lo hi (stepElement learningRate gradient) position).length = position.length :=
  (foldl_stepElement learningRate gradient (hi - lo) lo position).1

theorem forLoop_stepElement_getD (learningRate : K) (gradient : List K) (lo hi : Nat)
    (position : List K) (i : Nat) :
    (forLoop lo hi (stepElement learningRate gradient) position).getD i 0 =
      if lo ≤ i ∧ i < hi ∧ i < position.length then
        position.getD i 0 - learningRate * gradient.getD i 0
      else position.getD i 0 := by
  unfold forLoop
  rw [(foldl_stepElement learningRate gradient (hi - lo) lo position).2 i]
  by_cases h : lo ≤ i ∧ i < hi ∧ i < position.length
  · have h2 : lo ≤ i ∧ i < lo + (hi - lo) ∧ i < position.length := by omega
    rw [if_pos h, if_pos h2]
  · have h2 : ¬ (lo ≤ i ∧ i < lo + (hi - lo) ∧ i < position.length) := by omega
    rw [if_neg h, if_neg h2]

/-- An element assignment inside both arrays. -/
theorem assignElement_eq (learningRate : K) (gradient : List K) (j : Nat) (position : List K)
    (hp : j < position.length) (hg : j < gradient.length) :
    assignElement learningRate gradient j position
      = some (stepElement learningRate gradient j position) := by
  unfold assignElement stepElement
  rw [if_pos ⟨hp, hg⟩]

/-- An element assignment beyond the end of one of the arrays. -/
theorem assignElement_beyond (learningRate : K) (gradient : List K) (j : Nat)
    (position : List K) (h : position.length ≤ j ∨ gradient.length ≤ j) :
    assignElement learningRate gradient j position = none := by
  unfold assignElement
  rw [if_neg (by omega)]

/-- Element assignments at indices inside both arrays, in any order, are all defined. -/
theorem foldl_assignElement (learningRate : K) (gradient : List K) :
    ∀ (js : List Nat) (position : List K),
      (∀ j, j ∈ js → j < position.length ∧ j < gradient.length) →
      js.foldl (fun acc j => acc.bind (assignElement learningRate gradient j)) (some position)
        = some (js.foldl (fun acc j => stepElement learningRate gradient j acc) position) := by
  intro js
  induction js with
  | nil => intro position _; rfl
  | cons j js ih =>
    intro position h
    have hj := h j (List.mem_cons_self j js)
    rw [List.foldl_cons, List.foldl_cons, Option.some_bind,
      assignElement_eq learningRate gradient j position hj.1 hj.2]
    apply ih
    intro i hi
    rw [stepElement_length]
    exact h i (List.mem_cons_of_mem j hi)

/-- The loop over the element assignments below the end of both arrays. -/
theorem assignLoop_eq (learningRate : K) (gradient : List K) (lo hi : Nat) (position : List K)
    (hp : hi ≤ position.length) (hg : hi ≤ gradient.length) :
    assignLoop learningRate gradient lo hi position
      = some (forLoop lo hi (stepElement learningRate gradient) position) := by
  unfold assignLoop forLoop
  apply foldl_assignElement
  intro j hj
  rw [List.mem_range'_1] at hj
  omega

/-- Two arrays of equal length with equal entries are equal. -/
theorem list_eq_of_getD (l₁ l₂ : List K) (hlen : l₁.length = l₂.length)
    (h : ∀ i, i < l₁.length → l₁.getD i 0 = l₂.getD i 0) : l₁ = l₂ := by
  apply List.ext_getElem hlen
  intro i h₁ h₂
  have := h i h₁
  rwa [List.getD_eq_getElem l₁ 0 h₁, List.getD_eq_getElem l₂ 0 h₂] at this

theorem eigenExpr_length (learningRate : K) (x g : List K) (h : x.length = g.length) :
    (eigenExpr learningRate x g).length = x.length := by
  simp [eigenExpr, h]

theorem eigenExpr_getD (learningRate : K) (x g : List K) (i : Nat) (hx : i < x.length)
    (hg : i < g.length) :
    (eigenExpr learningRate x g).getD i 0 = x.getD i 0 - learningRate * g.getD i 0 := by
  have hz : i < (eigenExpr learningRate x g).length := by
    simp [eigenExpr]; omega
  rw [List.getD_eq_getElem _ 0 hz, List.getD_eq_getElem _ 0 hx, List.getD_eq_getElem _ 0 hg]
  simp [eigenExpr]

/-- The ceiling of the quotient of the two counts is the rounded-up integer quotient. -/
theorem threadSubSize_eq (spaceDimension numberOfThreads : Nat) (hn : 0 < numberOfThreads) :
    threadSubSize spaceDimension numberOfThreads
      = (spaceDimension + numberOfThreads - 1) / numberOfThreads := by
  unfold threadSubSize
  apply eq_of_forall_ge_iff
  intro k
  rw [Nat.ceil_le, div_le_iff₀ (by exact_mod_cast hn), ← Nat.lt_succ_iff,
    Nat.div_lt_iff_lt_mul hn]
  have hk : k.succ * numberOfThreads = k * numberOfThreads + numberOfThreads := Nat.succ_mul _ _
  constructor
  · intro h
    have h2 : spaceDimension ≤ k * numberOfThreads := by exact_mod_cast h
    omega
  · intro h
    have h2 : spaceDimension ≤ k * numberOfThreads := by omega
    exact_mod_cast h2

/-- The chunks of all threads together reach the end of the array. -/
theorem le_mul_threadSubSize (spaceDimension numberOfThreads : Nat) (hn : 0 < numberOfThreads) :
    spaceDimension ≤ numberOfThreads * threadSubSize spaceDimension numberOfThreads := by
  rw [threadSubSize_eq _ _ hn]
  have h := Nat.lt_mul_div_succ (spaceDimension + numberOfThreads - 1) hn
  rw [Nat.mul_add, Nat.mul_one] at h
  omega

theorem threadJmax_le (spaceDimension numberOfThreads threadId : Nat) :
    threadJmax spaceDimension numberOfThreads threadId ≤ spaceDimension := by
  unfold threadJmax
  dsimp only
  split
  · exact le_refl _
  · rename_i h
    exact Nat.le_of_not_lt h

/-- The lower bound of a thread whose product does not wrap around. -/
theorem threadJmin_eq (spaceDimension numberOfThreads threadId : Nat)
    (h : threadId * threadSubSize spaceDimension numberOfThreads < 2 ^ 32) :
    threadJmin spaceDimension numberOfThreads threadId
      = threadId * threadSubSize spaceDimension numberOfThreads :=
  Nat.mod_eq_of_lt h

/-- The upper bound of a thread whose product does not wrap around. -/
theorem threadJmax_eq_min (spaceDimension numberOfThreads threadId : Nat)
    (h : (threadId + 1) * threadSubSize spaceDimension numberOfThreads < 2 ^ 32) :
    threadJmax spaceDimension numberOfThreads threadId
      = min ((threadId + 1) * threadSubSize spaceDimension numberOfThreads) spaceDimension := by
  unfold threadJmax
  dsimp only
  rw [Nat.mod_eq_of_lt h]
  split <;> omega

/-- Without wrap-around, an index lies in the range of thread `t` exactly when `t` is its
quotient by `subSize`. -/
theorem mem_threadRange_iff (spaceDimension numberOfThreads t j : Nat)
    (h : (t + 1) * threadSubSize spaceDimension numberOfThreads < 2 ^ 32) :
    (threadJmin spaceDimension numberOfThreads t ≤ j ∧
      j < threadJmax spaceDimension numberOfThreads t) ↔
    (j < spaceDimension ∧ 0 < threadSubSize spaceDimension numberOfThreads ∧
      j / threadSubSize spaceDimension numberOfThreads = t) := by
  have hmul : (t + 1) * threadSubSize spaceDimension numberOfThreads
      = t * threadSubSize spaceDimension numberOfThreads
        + threadSubSize spaceDimension numberOfThreads := Nat.succ_mul _ _
  rw [threadJmax_eq_min _ _ _ h, threadJmin_eq _ _ _ (by omega)]
  generalize threadSubSize spaceDimension numberOfThreads = c
  constructor
  · rintro ⟨h1, h2⟩
    have h3 : j < (t + 1) * c := lt_of_lt_of_le h2 (min_le_left _ _)
    have h4 : j < spaceDimension := lt_of_lt_of_le h2 (min_le_right _ _)
    have hc : 0 < c := by
      rcases Nat.eq_zero_or_pos c with h0 | h0
      · subst h0; simp at h3
      · exact h0
    exact ⟨h4, hc, Nat.div_eq_of_lt_le h1 h3⟩
  · rintro ⟨h1, hc, rfl⟩
    refine ⟨Nat.div_mul_le_self j c, lt_min ?_ h1⟩
    have := Nat.lt_mul_div_succ j hc
    rwa [Nat.mul_comm] at this

/-- One thread of the threader on arrays of the right length: its loop stays inside them. -/
theorem ThreadedAdvanceOneStep_eq (spaceDimension numberOfThreads : Nat) (learningRate : K)
    (gradient position : List K) (t : Nat) (hp : position.length = spaceDimension)
    (hg : gradient.length = spaceDimension) :
    ThreadedAdvanceOneStep spaceDimension numberOfThreads learningRate gradient t position
      = some (forLoop (threadJmin spaceDimension numberOfThreads t)
          (threadJmax spaceDimension numberOfThreads t)
          (stepElement learningRate gradient) position) := by
  unfold ThreadedAdvanceOneStep
  have h := threadJmax_le spaceDimension numberOfThreads t
  exact assignLoop_eq _ _ _ _ _ (by omega) (by omega)

/-- The threads `0, ..., t - 1` of the threader on arrays of the right length are all
defined. -/
theorem foldl_ThreadedAdvanceOneStep_isSome (spaceDimension numberOfThreads : Nat)
    (learningRate : K) (gradient position : List K) (hp : position.length = spaceDimension)
    (hg : gradient.length = spaceDimension) :
    ∀ t : Nat, ∃ r,
      (List.range t).foldl (fun acc u => acc.bind
          (ThreadedAdvanceOneStep spaceDimension numberOfThreads learningRate gradient u))
          (some position) = some r ∧ r.length = spaceDimension := by
  intro t
  induction t with
  | zero => exact ⟨position, rfl, hp⟩
  | succ t ih =>
    obtain ⟨r, hr, hlen⟩ := ih
    rw [List.range_succ, List.foldl_append, List.foldl_cons, List.foldl_nil, hr,
      Option.some_bind, ThreadedAdvanceOneStep_eq _ _ _ _ _ _ hlen hg]
    exact ⟨_, rfl, by rw [forLoop_stepElement_length, hlen]⟩

/-- The effect of the threads `0, ..., t - 1` of the threader on the shared array, when their
bounds do not wrap around. -/
theorem foldl_ThreadedAdvanceOneStep (spaceDimension numberOfThreads : Nat) (learningRate : K)
    (gradient position : List K) (hp : position.length = spaceDimension)
    (hg : gradient.length = spaceDimension) :
    ∀ t : Nat, t * threadSubSize spaceDimension numberOfThreads < 2 ^ 32 →
      ∃ r, (List.range t).foldl (fun acc u => acc.bind
          (ThreadedAdvanceOneStep spaceDimension numberOfThreads learningRate gradient u))
          (some position) = some r ∧ r.length = spaceDimension ∧
        ∀ i, r.getD i 0 =
          if i < t * threadSubSize spaceDimension numberOfThreads ∧ i < spaceDimension then
            position.getD i 0 - learningRate * gradient.getD i 0
          else position.getD i 0 := by
  intro t
  induction t with
  | zero =>
    intro _
    refine ⟨position, rfl, hp, fun i => ?_⟩
    have : ¬ (i < 0 * threadSubSize spaceDimension numberOfThreads ∧ i < spaceDimension) := by
      rw [Nat.zero_mul]; omega
    rw [if_neg this]
  | succ t ih =>
    intro hwrap
    have hmul : (t + 1) * threadSubSize spaceDimension numberOfThreads
        = t * threadSubSize spaceDimension numberOfThreads
          + threadSubSize spaceDimension numberOfThreads := Nat.succ_mul _ _
    obtain ⟨r, hr, hlen, hget⟩ := ih (by omega)
    rw [List.range_succ, List.foldl_append, List.foldl_cons, List.foldl_nil, hr,
      Option.some_bind, ThreadedAdvanceOneStep_eq _ _ _ _ _ _ hlen hg]
    refine ⟨_, rfl, by rw [forLoop_stepElement_length, hlen], fun i => ?_⟩
    rw [forLoop_stepElement_getD, hlen, hget i, threadJmax_eq_min _ _ _ hwrap,
      threadJmin_eq _ _ _ (by omega)]
    generalize threadSubSize spaceDimension numberOfThreads = c at hmul ⊢
    generalize (t + 1) * c = b at hmul ⊢
    generalize t * c = a at hmul ⊢
    by_cases h1 : i < a ∧ i < spaceDimension
    · have h2 : ¬ (a ≤ i ∧ i < min b spaceDimension ∧ i < spaceDimension) := by omega
      have h3 : i < b ∧ i < spaceDimension := by omega
      rw [if_neg h2, if_pos h1, if_pos h3]
    · by_cases h2 : a ≤ i ∧ i < min b spaceDimension ∧ i < spaceDimension
      · have h3 : i < b ∧ i < spaceDimension := by
          have := h2.2.1
          rw [lt_min_iff] at this
          exact this
        rw [if_pos h2, if_neg h1, if_pos h3]
      · have h3 : ¬ (i < b ∧ i < spaceDimension) := by
          intro h3
          apply h2
          refine ⟨by omega, lt_min h3.1 h3.2, h3.2⟩
        rw [if_neg h2, if_neg h1, if_neg h3]

/-- Assigning the batched difference over the segment `[a, a + len)`. -/
theorem assignBlock_eigenExpr (spaceDimension a len : Nat) (learningRate : K)
    (gradient position : List K) (hp : position.length = spaceDimension)
    (hg : gradient.length = spaceDimension) (hal : a + len ≤ spaceDimension) :
    (assignBlock position a (eigenExpr learningRate
        (segment (EigenMap position spaceDimension) a len)
        (segment (EigenMap gradient spaceDimension) a len))).length = spaceDimension ∧
    ∀ i, (assignBlock position a (eigenExpr learningRate
        (segment (EigenMap position spaceDimension) a len)
        (segment (EigenMap gradient spaceDimension) a len))).getD i 0 =
      if a ≤ i ∧ i < a + len then position.getD i 0 - learningRate * gradient.getD i 0
      else position.getD i 0 := by
  have hsp : (segment (EigenMap position spaceDimension) a len).length = len := by
    simp [segment, EigenMap, hp]; omega
  have hsg : (segment (EigenMap gradient spaceDimension) a len).length = len := by
    simp [segment, EigenMap, hg]; omega
  have hE : (eigenExpr learningRate (segment (EigenMap position spaceDimension) a len)
      (segment (EigenMap gradient spaceDimension) a len)).length = len := by
    rw [eigenExpr_length _ _ _ (by rw [hsp, hsg]), hsp]
  refine ⟨by simp [assignBlock, hE, hp]; omega, fun i => ?_⟩
  unfold assignBlock
  rw [hE]
  by_cases h1 : a ≤ i ∧ i < a + len
  · rw [if_pos h1]
    have hi : i - a < len := by omega
    simp only [List.getD_eq_getElem?_getD]
    rw [List.getElem?_append_left (by simp [hE, hp]; omega),
      List.getElem?_append_right (by simp [hp]; omega)]
    have hta : (List.take a position).length = a := by simp [hp]; omega
    rw [hta, ← List.getD_eq_getElem?_getD,
      eigenExpr_getD _ _ _ _ (by rw [hsp]; exact hi) (by rw [hsg]; exact hi)]
    simp only [segment, EigenMap, List.getD_eq_getElem?_getD, List.getElem?_take,
      List.getElem?_drop]
    have h2 : a + (i - a) = i := by omega
    have h3 : i < spaceDimension := by omega
    simp [hi, h2, h3]
  · rw [if_neg h1]
    simp only [List.getD_eq_getElem?_getD]
    by_cases h2 : i < a
    · rw [List.getElem?_append_left (by simp [hE, hp]; omega),
        List.getElem?_append_left (by simp [hp]; omega), List.getElem?_take, if_pos h2]
    · have hta : (List.take a position).length = a := by simp [hp]; omega
      rw [List.getElem?_append_right (by simp [hE, hp]; omega), List.length_append, hta, hE,
        List.getElem?_drop]
      congr 2
      omega

theorem ompJmin_eq (spaceDimension nthreads t : Nat) :
    ompJmin spaceDimension nthreads t
      = ((t * ((spaceDimension + nthreads - 1) / nthreads) : Nat) : Int) := by
  unfold ompJmin ompChunk
  push_cast
  rfl

theorem ompJmax_eq (spaceDimension nthreads t : Nat) :
    ompJmax spaceDimension nthreads t
      = ((min ((t + 1) * ((spaceDimension + nthreads - 1) / nthreads)) spaceDimension : Nat)
          : Int) := by
  unfold ompJmax ompChunk
  have hcast : ((t : Int) + 1) * (((spaceDimension + nthreads - 1) / nthreads : Nat) : Int)
      = (((t + 1) * ((spaceDimension + nthreads - 1) / nthreads) : Nat) : Int) := by
    push_cast; rfl
  rw [hcast]
  generalize (t + 1) * ((spaceDimension + nthreads - 1) / nthreads) = b
  by_cases h : b < spaceDimension
  · have h' : (b : Int) < (spaceDimension : Int) := by exact_mod_cast h
    rw [if_pos h', Nat.min_eq_left (le_of_lt h)]
  · have h' : ¬ (b : Int) < (spaceDimension : Int) := by exact_mod_cast h
    rw [if_neg h', Nat.min_eq_right (by omega)]

/-- The segment of thread `t` satisfies its precondition exactly when its start is inside the
vector. -/
theorem segmentValid_omp_iff (spaceDimension nthreads t : Nat) :
    segmentValid spaceDimension (ompJmin spaceDimension nthreads t)
      (ompJmax spaceDimension nthreads t - ompJmin spaceDimension nthreads t) ↔
    t * ((spaceDimension + nthreads - 1) / nthreads) ≤ spaceDimension := by
  rw [ompJmin_eq, ompJmax_eq]
  unfold segmentValid
  have hmul : (t + 1) * ((spaceDimension + nthreads - 1) / nthreads)
      = t * ((spaceDimension + nthreads - 1) / nthreads)
        + (spaceDimension + nthreads - 1) / nthreads := Nat.succ_mul _ _
  generalize (spaceDimension + nthreads - 1) / nthreads = c at hmul ⊢
  generalize (t + 1) * c = b at hmul ⊢
  generalize t * c = a at hmul ⊢
  constructor
  · rintro ⟨-, h2, -⟩
    have h3 : (a : Int) ≤ ((min b spaceDimension : Nat) : Int) := by linarith
    have h4 : a ≤ min b spaceDimension := by exact_mod_cast h3
    exact le_trans h4 (min_le_right _ _)
  · intro h
    have h4 : a ≤ min b spaceDimension := le_min (by omega) h
    have h5 : min b spaceDimension ≤ spaceDimension := min_le_right _ _
    have h4' : (a : Int) ≤ ((min b spaceDimension : Nat) : Int) := by exact_mod_cast h4
    have h5' : ((min b spaceDimension : Nat) : Int) ≤ (spaceDimension : Int) := by
      exact_mod_cast h5
    refine ⟨by positivity, by linarith, by linarith⟩


/-- The body of the parallel loop for the thread number `t` on arrays of the right length, when
its segment is valid. -/
theorem ompEigenBody_valid (spaceDimension nthreads t : Nat) (learningRate : K)
    (gradient position : List K) (hp : position.length = spaceDimension)
    (hg : gradient.length = spaceDimension)
    (h : t * ((spaceDimension + nthreads - 1) / nthreads) ≤ spaceDimension) :
    ompEigenBody spaceDimension nthreads learningRate gradient t position =
      some (assignBlock position (t * ((spaceDimension + nthreads - 1) / nthreads))
        (eigenExpr learningRate
          (segment (EigenMap position spaceDimension)
            (t * ((spaceDimension + nthreads - 1) / nthreads))
            (min ((t + 1) * ((spaceDimension + nthreads - 1) / nthreads)) spaceDimension
              - t * ((spaceDimension + nthreads - 1) / nthreads)))
          (segment (EigenMap gradient spaceDimension)
            (t * ((spaceDimension + nthreads - 1) / nthreads))
            (min ((t + 1) * ((spaceDimension + nthreads - 1) / nthreads)) spaceDimension
              - t * ((spaceDimension + nthreads - 1) / nthreads))))) := by
  have hsub : (((min ((t + 1) * ((spaceDimension + nthreads - 1) / nthreads)) spaceDimension
      : Nat) : Int) - ((t * ((spaceDimension + nthreads - 1) / nthreads) : Nat) : Int)).toNat
      = min ((t + 1) * ((spaceDimension + nthreads - 1) / nthreads)) spaceDimension
        - t * ((spaceDimension + nthreads - 1) / nthreads) := by
    omega
  have hin : ∀ data : List K, data.length = spaceDimension →
      coefficientsInArray data (t * ((spaceDimension + nthreads - 1) / nthreads))
        (min ((t + 1) * ((spaceDimension + nthreads - 1) / nthreads)) spaceDimension
          - t * ((spaceDimension + nthreads - 1) / nthreads)) := by
    intro data hdata
    refine Or.inr ?_
    rw [hdata]
    have := min_le_right ((t + 1) * ((spaceDimension + nthreads - 1) / nthreads)) spaceDimension
    omega
  unfold ompEigenBody
  dsimp only
  have hvalid := (segmentValid_omp_iff spaceDimension nthreads t).2 h
  rw [ompJmin_eq, ompJmax_eq] at hvalid ⊢
  rw [hsub, Int.toNat_ofNat, if_pos ⟨hvalid, hin position hp, hin gradient hg⟩]

/-- The body of the parallel loop for the thread number `t`, when its segment is not valid. -/
theorem ompEigenBody_invalid (spaceDimension nthreads t : Nat) (learningRate : K)
    (gradient position : List K)
    (h : spaceDimension < t * ((spaceDimension + nthreads - 1) / nthreads)) :
    ompEigenBody spaceDimension nthreads learningRate gradient t position = none := by
  unfold ompEigenBody
  dsimp only
  rw [if_neg]
  rintro ⟨hvalid, -⟩
  rw [segmentValid_omp_iff] at hvalid
  omega

/-- The iterations `0, ..., t - 1` of the parallel loop on arrays of the right length are all
defined when each of the segments formed is valid, whichever threads run them. -/
theorem foldl_ompEigenBody_isSome (spaceDimension nthreads : Nat) (threadNum : Nat → Nat)
    (learningRate : K) (gradient position : List K) (hp : position.length = spaceDimension)
    (hg : gradient.length = spaceDimension) :
    ∀ t : Nat, (∀ i, i < t →
        threadNum i * ((spaceDimension + nthreads - 1) / nthreads) ≤ spaceDimension) →
      ∃ r, (List.range t).foldl (fun acc i => acc.bind
          (ompEigenBody spaceDimension nthreads learningRate gradient (threadNum i)))
          (some position) = some r ∧ r.length = spaceDimension := by
  intro t
  induction t with
  | zero => intro _; exact ⟨position, rfl, hp⟩
  | succ t ih =>
    intro hvalid
    obtain ⟨r, hr, hlen⟩ := ih (fun i hi => hvalid i (Nat.lt_succ_of_lt hi))
    have ht := hvalid t (Nat.lt_succ_self t)
    rw [List.range_succ, List.foldl_append, List.foldl_cons, List.foldl_nil, hr,
      Option.some_bind, ompEigenBody_valid _ _ _ _ _ _ hlen hg ht]
    have hmin : min ((threadNum t + 1) * ((spaceDimension + nthreads - 1) / nthreads))
        spaceDimension ≤ spaceDimension := min_le_right _ _
    exact ⟨_, rfl, (assignBlock_eigenExpr spaceDimension _ _ learningRate gradient r hlen hg
      (by omega)).1⟩

/-- An iteration of the parallel loop whose segment is not valid leaves no position. -/
theorem foldl_ompEigenBody_invalid (spaceDimension nthreads : Nat) (threadNum : Nat → Nat)
    (learningRate : K) (gradient : List K) (i : Nat)
    (h : spaceDimension < threadNum i * ((spaceDimension + nthreads - 1) / nthreads)) :
    ∀ (t : Nat) (start : Option (List K)), i < t →
      (List.range t).foldl (fun acc u => acc.bind
          (ompEigenBody spaceDimension nthreads learningRate gradient (threadNum u))) start
        = none := by
  intro t
  induction t with
  | zero => intro _ hi; omega
  | succ t ih =>
    intro start hi
    rw [List.range_succ, List.foldl_append, List.foldl_cons, List.foldl_nil]
    rcases Nat.lt_succ_iff_lt_or_eq.1 hi with hlt | heq
    · rw [ih start hlt]
      rfl
    · subst heq
      cases List.foldl (fun acc u => acc.bind
          (ompEigenBody spaceDimension nthreads learningRate gradient (threadNum u))) start
          (List.range i) with
      | none => rfl
      | some r => exact ompEigenBody_invalid _ _ _ _ _ r h

/-- The effect of the iterations `0, ..., t - 1` of the parallel loop, when thread `u` runs
iteration `u` and each of the segments is valid. -/
theorem foldl_ompEigenBody (spaceDimension nthreads : Nat) (threadNum : Nat → Nat)
    (learningRate : K) (gradient position : List K) (hp : position.length = spaceDimension)
    (hg : gradient.length = spaceDimension) :
    ∀ t : Nat, (∀ u, u < t → threadNum u = u ∧
        u * ((spaceDimension + nthreads - 1) / nthreads) ≤ spaceDimension) →
      ∃ r, (List.range t).foldl (fun acc u => acc.bind
          (ompEigenBody spaceDimension nthreads learningRate gradient (threadNum u)))
          (some position) = some r ∧ r.length = spaceDimension ∧
        ∀ i, r.getD i 0 =
          if i < t * ((spaceDimension + nthreads - 1) / nthreads) ∧ i < spaceDimension then
            position.getD i 0 - learningRate * gradient.getD i 0
          else position.getD i 0 := by
  intro t
  induction t with
  | zero =>
    intro _
    refine ⟨position, rfl, hp, fun i => ?_⟩
    have : ¬ (i < 0 * ((spaceDimension + nthreads - 1) / nthreads) ∧ i < spaceDimension) := by
      rw [Nat.zero_mul]; omega
    rw [if_neg this]
  | succ t ih =>
    intro hvalid
    obtain ⟨r, hr, hlen, hget⟩ := ih (fun u hu => hvalid u (Nat.lt_succ_of_lt hu))
    obtain ⟨hteam, ht⟩ := hvalid t (Nat.lt_succ_self t)
    rw [List.range_succ, List.foldl_append, List.foldl_cons, List.foldl_nil, hr,
      Option.some_bind, hteam, ompEigenBody_valid _ _ _ _ _ _ hlen hg ht]
    have hmul : (t + 1) * ((spaceDimension + nthreads - 1) / nthreads)
        = t * ((spaceDimension + nthreads - 1) / nthreads)
          + (spaceDimension + nthreads - 1) / nthreads := Nat.succ_mul _ _
    generalize (spaceDimension + nthreads - 1) / nthreads = c at hmul ht hget ⊢
    generalize (t + 1) * c = b at hmul ⊢
    generalize t * c = a at hmul ht hget ⊢
    have hmin : min b spaceDimension ≤ spaceDimension := min_le_right _ _
    have hamin : a ≤ min b spaceDimension := le_min (by omega) ht
    obtain ⟨hlen', hget'⟩ := assignBlock_eigenExpr spaceDimension a (min b spaceDimension - a)
      learningRate gradient r hlen hg (by omega)
    refine ⟨_, rfl, hlen', fun i => ?_⟩
    rw [hget' i, hget i]
    by_cases h1 : i < a ∧ i < spaceDimension
    · have h2 : ¬ (a ≤ i ∧ i < a + (min b spaceDimension - a)) := by omega
      have h3 : i < b ∧ i < spaceDimension := by omega
      rw [if_neg h2, if_pos h1, if_pos h3]
    · by_cases h2 : a ≤ i ∧ i < a + (min b spaceDimension - a)
      · have h4 : i < min b spaceDimension := by omega
        have h3 : i < b ∧ i < spaceDimension := by
          rw [lt_min_iff] at h4
          exact h4
        rw [if_pos h2, if_neg h1, if_pos h3]
      · have h3 : ¬ (i < b ∧ i < spaceDimension) := by
          intro h3
          apply h2
          have : i < min b spaceDimension := lt_min h3.1 h3.2
          omega
        rw [if_neg h2, if_neg h1, if_neg h3]

/-- The parallel loop when every iteration is run by thread 0: chunk 0 is stepped once per
iteration and no other entry is written. -/
theorem foldl_ompEigenBody_one_thread (spaceDimension nthreads : Nat)
    (learningRate : K) (gradient position : List K) (hp : position.length = spaceDimension)
    (hg : gradient.length = spaceDimension) :
    ∀ t : Nat,
      ∃ r, (List.range t).foldl (fun acc _ => acc.bind
          (ompEigenBody spaceDimension nthreads learningRate gradient 0))
          (some position) = some r ∧ r.length = spaceDimension ∧
        ∀ i, r.getD i 0 =
          if i < (spaceDimension + nthreads - 1) / nthreads ∧ i < spaceDimension then
            position.getD i 0 - (t : K) * (learningRate * gradient.getD i 0)
          else position.getD i 0 := by
  intro t
  induction t with
  | zero =>
    refine ⟨position, rfl, hp, fun i => ?_⟩
    split
    · rw [Nat.cast_zero, zero_mul, sub_zero]
    · rfl
  | succ t ih =>
    obtain ⟨r, hr, hlen, hget⟩ := ih
    rw [List.range_succ, List.foldl_append, List.foldl_cons, List.foldl_nil, hr,
      Option.some_bind,
      ompEigenBody_valid _ _ _ _ _ _ hlen hg (by rw [Nat.zero_mul]; exact Nat.zero_le _)]
    generalize (spaceDimension + nthreads - 1) / nthreads = c at hget ⊢
    rw [Nat.zero_mul, Nat.zero_add, Nat.one_mul, Nat.sub_zero]
    have hmin : min c spaceDimension ≤ spaceDimension := min_le_right _ _
    obtain ⟨hlen', hget'⟩ := assignBlock_eigenExpr spaceDimension 0 (min c spaceDimension)
      learningRate gradient r hlen hg (by omega)
    refine ⟨_, rfl, hlen', fun i => ?_⟩
    rw [hget' i, hget i]
    by_cases h1 : i < c ∧ i < spaceDimension
    · have h2 : 0 ≤ i ∧ i < 0 + min c spaceDimension := by
        refine ⟨Nat.zero_le _, ?_⟩
        rw [Nat.zero_add]
        exact lt_min h1.1 h1.2
      rw [if_pos h2, if_pos h1, if_pos h1, Nat.cast_succ]
      ring
    · have h2 : ¬ (0 ≤ i ∧ i < 0 + min c spaceDimension) := by
        intro h2
        apply h1
        have := h2.2
        rw [Nat.zero_add, lt_min_iff] at this
        exact this
      rw [if_neg h2, if_neg h1, if_neg h1]

theorem steppedPosition_length (learningRate : K) (position gradient : List K) :
    (steppedPosition learningRate position gradient).length = position.length := by
  simp [steppedPosition]

theorem steppedPosition_getD (learningRate : K) (position gradient : List K) (i : Nat)
    (hi : i < position.length) :
    (steppedPosition learningRate position gradient).getD i 0
      = position.getD i 0 - learningRate * gradient.getD i 0 := by
  have h : i < (steppedPosition learningRate position gradient).length := by
    rw [steppedPosition_length]; exact hi
  rw [List.getD_eq_getElem _ 0 h]
  simp [steppedPosition]

/-- An array of the right length whose entries below `spaceDimension` have been stepped is the
stepped array. -/
theorem eq_steppedPosition (spaceDimension : Nat) (learningRate : K)
    (position gradient r : List K) (hp : position.length = spaceDimension)
    (hlen : r.length = spaceDimension)
    (hget : ∀ i, i < spaceDimension →
      r.getD i 0 = position.getD i 0 - learningRate * gradient.getD i 0) :
    r = steppedPosition learningRate position gradient := by
  apply list_eq_of_getD
  · rw [hlen, steppedPosition_length, hp]
  · intro i hi
    rw [hget i (by omega), steppedPosition_getD _ _ _ _ (by omega)]


/-- Two element assignments commute: they touch different entries, or they are the same. -/
theorem stepElement_comm (learningRate : K) (gradient : List K) (j₁ j₂ : Nat)
    (position : List K) :
    stepElement learningRate gradient j₁ (stepElement learningRate gradient j₂ position)
      = stepElement learningRate gradient j₂
          (stepElement learningRate gradient j₁ position) := by
  by_cases hj : j₁ = j₂
  · rw [hj]
  · apply list_eq_of_getD
    · simp only [stepElement_length]
    · intro i _
      simp only [stepElement_getD, stepElement_length]
      by_cases h1 : j₁ = i ∧ i < position.length
      · have h2 : ¬ (j₂ = i ∧ i < position.length) := fun h => hj (h1.1.trans h.1.symm)
        rw [if_pos h1, if_neg h2, if_neg h2, if_pos h1]
      · by_cases h2 : j₂ = i ∧ i < position.length
        · rw [if_neg h1, if_pos h2, if_pos h2, if_neg h1]
        · rw [if_neg h1, if_neg h2, if_neg h2, if_neg h1]

/-- The element assignments of one update step may be run in any order, and so interleaved in
any way between threads that share the indices out among themselves: every schedule that
visits each index below `spaceDimension` once writes the stepped position. -/
theorem assignments_in_any_order (spaceDimension : Nat) (learningRate : K)
    (gradient position : List K) (hp : position.length = spaceDimension)
    (hg : gradient.length = spaceDimension)
    (schedule : List Nat) (hs : schedule.Perm (List.range spaceDimension)) :
    schedule.foldl (fun acc j => acc.bind (assignElement learningRate gradient j))
        (some position)
      = some (steppedPosition learningRate position gradient) := by
  rw [foldl_assignElement learningRate gradient schedule position (by
    intro j hj
    have := List.mem_range.1 (hs.mem_iff.1 hj)
    omega)]
  rw [List.Perm.foldl_eq' hs
    (fun x _ y _ z => (stepElement_comm learningRate gradient y x z)) position,
    List.range_eq_range']
  congr 1
  apply eq_steppedPosition spaceDimension _ _ _ _ hp
  · rw [(foldl_stepElement learningRate gradient spaceDimension 0 position).1, hp]
  · intro i hi
    rw [(foldl_stepElement learningRate gradient spaceDimension 0 position).2 i,
      if_pos ⟨Nat.zero_le _, by omega, by omega⟩]

/-- What one thread of the threader writes, on arrays of the right length: the entries of its
range `[jmin, jmax)` are stepped and every other entry is left as it was. -/
theorem ThreadedAdvanceOneStep_writes (spaceDimension numberOfThreads : Nat) (learningRate : K)
    (gradient position : List K) (t : Nat) (hp : position.length = spaceDimension)
    (hg : gradient.length = spaceDimension) :
    ∃ r, ThreadedAdvanceOneStep spaceDimension numberOfThreads learningRate gradient t position
        = some r ∧ r.length = spaceDimension ∧
      ∀ i, r.getD i 0 =
        if threadJmin spaceDimension numberOfThreads t ≤ i ∧
            i < threadJmax spaceDimension numberOfThreads t then
          position.getD i 0 - learningRate * gradient.getD i 0
        else position.getD i 0 := by
  refine ⟨_, ThreadedAdvanceOneStep_eq _ _ _ _ _ t hp hg,
    by rw [forLoop_stepElement_length, hp], fun i => ?_⟩
  rw [forLoop_stepElement_getD, hp]
  have hle := threadJmax_le spaceDimension numberOfThreads t
  by_cases h : threadJmin spaceDimension numberOfThreads t ≤ i ∧
      i < threadJmax spaceDimension numberOfThreads t
  · rw [if_pos h, if_pos ⟨h.1, h.2, by omega⟩]
  · rw [if_neg h, if_neg (fun h' => h ⟨h'.1, h'.2.1⟩)]

/-- The branches of `AdvanceOneStep`, by the threading flags. -/
theorem advancePosition_sequential (obs : Observer K) (spaceDimension : Nat) (s : Optimizer K)
    (hmt : s.m_UseMultiThread = false) :
    advancePosition obs spaceDimension s
      = assignLoop s.m_LearningRate s.m_Gradient 0 spaceDimension s.m_ScaledCurrentPosition := by
  unfold advancePosition
  simp only [hmt, Bool.not_false, if_true]

theorem advancePosition_openmp (obs : Observer K) (spaceDimension : Nat) (s : Optimizer K)
    (hmt : s.m_UseMultiThread = true) (homp : s.m_UseOpenMP = true)
    (heig : s.m_UseEigen = false) :
    advancePosition obs spaceDimension s
      = assignLoop s.m_LearningRate s.m_Gradient 0 spaceDimension s.m_ScaledCurrentPosition := by
  unfold advancePosition
  simp only [hmt, homp, heig, Bool.not_true, Bool.not_false, Bool.and_true,
    Bool.false_eq_true, if_false, if_true]

theorem advancePosition_eigen (obs : Observer K) (spaceDimension : Nat) (s : Optimizer K)
    (hmt : s.m_UseMultiThread = true) (homp : s.m_UseOpenMP = false)
    (heig : s.m_UseEigen = true) :
    advancePosition obs spaceDimension s
      = if coefficientsInArray s.m_ScaledCurrentPosition 0 spaceDimension ∧
            coefficientsInArray s.m_Gradient 0 spaceDimension then
          some (assignBlock s.m_ScaledCurrentPosition 0
            (eigenExpr s.m_LearningRate (EigenMap s.m_ScaledCurrentPosition spaceDimension)
              (EigenMap s.m_Gradient spaceDimension)))
        else none := by
  unfold advancePosition
  simp only [hmt, homp, heig, Bool.not_true, Bool.not_false, Bool.and_true, Bool.false_and,
    Bool.and_false, Bool.false_eq_true, if_false, if_true]

theorem advancePosition_openmp_eigen (obs : Observer K) (spaceDimension : Nat)
    (s : Optimizer K) (hmt : s.m_UseMultiThread = true) (homp : s.m_UseOpenMP = true)
    (heig : s.m_UseEigen = true) :
    advancePosition obs spaceDimension s
      = ompParallelChunks s.m_NumberOfThreads obs.omp_get_thread_num
          (ompEigenBody spaceDimension s.m_NumberOfThreads s.m_LearningRate s.m_Gradient)
          s.m_ScaledCurrentPosition := by
  unfold advancePosition
  simp only [hmt, homp, heig, Bool.not_true, Bool.not_false, Bool.and_true, Bool.false_and,
    Bool.and_false, Bool.and_self, Bool.false_eq_true, if_false, if_true]

theorem advancePosition_threader (obs : Observer K) (spaceDimension : Nat) (s : Optimizer K)
    (hmt : s.m_UseMultiThread = true) (homp : s.m_UseOpenMP = false)
    (heig : s.m_UseEigen = false) :
    advancePosition obs spaceDimension s
      = (List.range s.m_NumberOfThreads).foldl (fun acc u => acc.bind
          (ThreadedAdvanceOneStep spaceDimension s.m_NumberOfThreads s.m_LearningRate
            s.m_Gradient u)) (some s.m_ScaledCurrentPosition) := by
  unfold advancePosition SingleMethodExecute
  simp only [hmt, homp, heig, Bool.not_true, Bool.not_false, Bool.and_true, Bool.false_and,
    Bool.and_false, Bool.and_self, Bool.false_eq_true, if_false, if_true]

/-- The Eigen expression over the whole vector, on arrays of the right length. -/
theorem eigen_whole_vector (spaceDimension : Nat) (learningRate : K)
    (gradient position : List K) (hp : position.length = spaceDimension)
    (hg : gradient.length = spaceDimension) :
    (assignBlock position 0 (eigenExpr learningRate (EigenMap position spaceDimension)
        (EigenMap gradient spaceDimension))).length = spaceDimension ∧
    ∀ i, i < spaceDimension →
      (assignBlock position 0 (eigenExpr learningRate (EigenMap position spaceDimension)
        (EigenMap gradient spaceDimension))).getD i 0
        = position.getD i 0 - learningRate * gradient.getD i 0 := by
  have hseg : ∀ v : List K, segment (EigenMap v spaceDimension) 0 spaceDimension
      = EigenMap v spaceDimension := by
    intro v
    simp [segment, EigenMap]
  obtain ⟨hlen, hget⟩ := assignBlock_eigenExpr spaceDimension 0 spaceDimension
    learningRate gradient position hp hg (by omega)
  rw [hseg, hseg] at hlen hget
  refine ⟨hlen, fun i hi => ?_⟩
  rw [hget i, if_pos ⟨Nat.zero_le _, by omega⟩]

/-- The update step on arrays of the right length is defined, and leaves a position of that
length, as soon as the segments formed in the OpenMP and Eigen branch are valid. -/
theorem advancePosition_isSome (obs : Observer K) (spaceDimension : Nat) (s : Optimizer K)
    (hp : s.m_ScaledCurrentPosition.length = spaceDimension)
    (hg : s.m_Gradient.length = spaceDimension) (hv : SegmentsValid obs spaceDimension s) :
    ∃ position, advancePosition obs spaceDimension s = some position ∧
      position.length = spaceDimension := by
  have hseq : ∃ position,
      assignLoop s.m_LearningRate s.m_Gradient 0 spaceDimension s.m_ScaledCurrentPosition
        = some position ∧ position.length = spaceDimension :=
    ⟨_, assignLoop_eq _ _ _ _ _ (by omega) (by omega),
      by rw [forLoop_stepElement_length, hp]⟩
  cases hmt : s.m_UseMultiThread
  · rw [advancePosition_sequential obs spaceDimension s hmt]
    exact hseq
  · cases homp : s.m_UseOpenMP <;> cases heig : s.m_UseEigen
    · rw [advancePosition_threader obs spaceDimension s hmt homp heig]
      exact foldl_ThreadedAdvanceOneStep_isSome spaceDimension s.m_NumberOfThreads
        s.m_LearningRate s.m_Gradient s.m_ScaledCurrentPosition hp hg s.m_NumberOfThreads
    · rw [advancePosition_eigen obs spaceDimension s hmt homp heig,
        if_pos ⟨Or.inr (by omega), Or.inr (by omega)⟩]
      exact ⟨_, rfl, (eigen_whole_vector spaceDimension s.m_LearningRate s.m_Gradient
        s.m_ScaledCurrentPosition hp hg).1⟩
    · rw [advancePosition_openmp obs spaceDimension s hmt homp heig]
      exact hseq
    · rw [advancePosition_openmp_eigen obs spaceDimension s hmt homp heig]
      exact foldl_ompEigenBody_isSome spaceDimension s.m_NumberOfThreads
        obs.omp_get_thread_num s.m_LearningRate s.m_Gradient s.m_ScaledCurrentPosition hp hg
        s.m_NumberOfThreads
        (fun i hi => (segmentValid_omp_iff spaceDimension s.m_NumberOfThreads _).1
          (hv hmt homp heig i hi))

/-- In the OpenMP and Eigen branch, an iteration of the parallel loop whose thread forms an
invalid segment leaves the update step undefined. -/
theorem advancePosition_of_invalid_segment (obs : Observer K) (spaceDimension : Nat)
    (s : Optimizer K) (hmt : s.m_UseMultiThread = true) (homp : s.m_UseOpenMP = true)
    (heig : s.m_UseEigen = true) (i : Nat) (hi : i < s.m_NumberOfThreads)
    (h : spaceDimension < obs.omp_get_thread_num i
      * ((spaceDimension + s.m_NumberOfThreads - 1) / s.m_NumberOfThreads)) :
    advancePosition obs spaceDimension s = none := by
  rw [advancePosition_openmp_eigen obs spaceDimension s hmt homp heig]
  exact foldl_ompEigenBody_invalid spaceDimension s.m_NumberOfThreads obs.omp_get_thread_num
    s.m_LearningRate s.m_Gradient i h s.m_NumberOfThreads _ hi

/-- Whatever the strategy, a step on arrays of the right length writes the stepped position,
when in the OpenMP and Eigen branch thread `t` runs iteration `t` and every segment is valid,
and in the threader branch the bounds do not wrap around. -/
theorem advancePosition_eq (obs : Observer K) (spaceDimension : Nat) (s : Optimizer K)
    (hp : s.m_ScaledCurrentPosition.length = spaceDimension)
    (hg : s.m_Gradient.length = spaceDimension) (hn : 1 ≤ s.m_NumberOfThreads)
    (hv : SegmentsValid obs spaceDimension s) (hteam : FullTeam obs s)
    (hwrap : NoWrapAround spaceDimension s) :
    advancePosition obs spaceDimension s
      = some (steppedPosition s.m_LearningRate s.m_ScaledCurrentPosition s.m_Gradient) := by
  have hseq : assignLoop s.m_LearningRate s.m_Gradient 0 spaceDimension
      s.m_ScaledCurrentPosition
      = some (steppedPosition s.m_LearningRate s.m_ScaledCurrentPosition s.m_Gradient) := by
    rw [assignLoop_eq _ _ _ _ _ (by omega) (by omega)]
    congr 1
    apply eq_steppedPosition spaceDimension _ _ _ _ hp
    · rw [forLoop_stepElement_length, hp]
    · intro i hi
      rw [forLoop_stepElement_getD, if_pos ⟨Nat.zero_le _, hi, by omega⟩]
  cases hmt : s.m_UseMultiThread
  · rw [advancePosition_sequential obs spaceDimension s hmt]
    exact hseq
  · cases homp : s.m_UseOpenMP <;> cases heig : s.m_UseEigen
    · -- the threader
      rw [advancePosition_threader obs spaceDimension s hmt homp heig]
      obtain ⟨r, hr, hlen, hget⟩ := foldl_ThreadedAdvanceOneStep spaceDimension
        s.m_NumberOfThreads s.m_LearningRate s.m_Gradient s.m_ScaledCurrentPosition hp hg
        s.m_NumberOfThreads (hwrap hmt homp heig)
      rw [hr]
      congr 1
      apply eq_steppedPosition spaceDimension _ _ _ _ hp hlen
      intro i hi
      have hcover := le_mul_threadSubSize spaceDimension s.m_NumberOfThreads hn
      rw [hget i, if_pos ⟨by omega, hi⟩]
    · -- Eigen alone
      rw [advancePosition_eigen obs spaceDimension s hmt homp heig,
        if_pos ⟨Or.inr (by omega), Or.inr (by omega)⟩]
      congr 1
      obtain ⟨hlen, hget⟩ := eigen_whole_vector spaceDimension s.m_LearningRate s.m_Gradient
        s.m_ScaledCurrentPosition hp hg
      exact eq_steppedPosition spaceDimension _ _ _ _ hp hlen hget
    · -- OpenMP alone
      rw [advancePosition_openmp obs spaceDimension s hmt homp heig]
      exact hseq
    · -- OpenMP and Eigen
      rw [advancePosition_openmp_eigen obs spaceDimension s hmt homp heig]
      have hvalid : ∀ u, u < s.m_NumberOfThreads → obs.omp_get_thread_num u = u ∧
          u * ((spaceDimension + s.m_NumberOfThreads - 1) / s.m_NumberOfThreads)
            ≤ spaceDimension := by
        intro u hu
        have h1 := hteam hmt homp heig u hu
        have h2 := (segmentValid_omp_iff spaceDimension s.m_NumberOfThreads _).1
          (hv hmt homp heig u hu)
        rw [h1] at h2
        exact ⟨h1, h2⟩
      obtain ⟨r, hr, hlen, hget⟩ := foldl_ompEigenBody spaceDimension s.m_NumberOfThreads
        obs.omp_get_thread_num s.m_LearningRate s.m_Gradient s.m_ScaledCurrentPosition hp hg
        s.m_NumberOfThreads hvalid
      unfold ompParallelChunks
      rw [hr]
      congr 1
      apply eq_steppedPosition spaceDimension _ _ _ _ hp hlen
      intro i hi
      have hcover := le_mul_threadSubSize spaceDimension s.m_NumberOfThreads hn
      rw [threadSubSize_eq _ _ hn] at hcover
      rw [hget i, if_pos ⟨by omega, hi⟩]

end KernelLemmas

/-! ## The claims on the update kernel -/

section KernelClaims

variable {K : Type} [Field K]

/-- C1: with multi-threading off, one call of `GradientDescentOptimizer2::AdvanceOneStep` on a
position and a gradient of length `N` leaves a position of length `N` whose entry `i` is
`position[i] - learningRate * gradient[i]` for every `i < N`, and leaves the gradient as it
was. -/
theorem C1_sequential_step (obs : Observer K) (N : Nat) (s : Optimizer K)
    (hseq : s.m_UseMultiThread = false)
    (hp : s.m_ScaledCurrentPosition.length = N) (hg : s.m_Gradient.length = N) :
    ∃ s', GradientDescentOptimizer2.AdvanceOneStep obs N s = some s' ∧
      s'.m_ScaledCurrentPosition.length = N ∧
      (∀ i, i < N → s'.m_ScaledCurrentPosition.getD i 0
        = s.m_ScaledCurrentPosition.getD i 0 - s.m_LearningRate * s.m_Gradient.getD i 0) ∧
      s'.m_Gradient = s.m_Gradient := by
  have hadv : advancePosition obs N s = some (forLoop 0 N
      (stepElement s.m_LearningRate s.m_Gradient) s.m_ScaledCurrentPosition) := by
    rw [advancePosition_sequential obs N s hseq]
    exact assignLoop_eq _ _ _ _ _ (by omega) (by omega)
  have hframe : ∀ x : Optimizer K,
      (InvokeIterationEvent obs x).m_ScaledCurrentPosition = x.m_ScaledCurrentPosition ∧
      (InvokeIterationEvent obs x).m_Gradient = x.m_Gradient := by
    intro x
    dsimp only [InvokeIterationEvent]
    split <;> exact ⟨rfl, rfl⟩
  refine ⟨_, by rw [GradientDescentOptimizer2.AdvanceOneStep, hadv]; rfl, ?_, ?_, ?_⟩
  · rw [(hframe _).1]
    exact (forLoop_stepElement_length _ _ 0 N _).trans hp
  · intro i hi
    rw [(hframe _).1]
    exact (forLoop_stepElement_getD _ _ 0 N _ i).trans
      (if_pos ⟨Nat.zero_le _, hi, by omega⟩)
  · rw [(hframe _).2]

/-- C1 at the position `[0, 0, 0]`, the gradient `[1, 1, 1]` and the learning rate `1`. -/
theorem C1_sequential_step_witness :
    (configured false false false 1 (1 : ℚ) [0, 0, 0] [1, 1, 1]).m_UseMultiThread = false ∧
    (configured false false false 1 (1 : ℚ) [0, 0, 0] [1, 1, 1]).m_ScaledCurrentPosition.length
      = 3 ∧
    (configured false false false 1 (1 : ℚ) [0, 0, 0] [1, 1, 1]).m_Gradient.length = 3 ∧
    ∃ s', GradientDescentOptimizer2.AdvanceOneStep quietObserver 3
        (configured false false false 1 (1 : ℚ) [0, 0, 0] [1, 1, 1]) = some s' ∧
      s'.m_ScaledCurrentPosition.length = 3 ∧
      (∀ i, i < 3 → s'.m_ScaledCurrentPosition.getD i 0
        = (configured false false false 1 (1 : ℚ) [0, 0, 0] [1, 1, 1]).m_ScaledCurrentPosition.getD
            i 0
          - (configured false false false 1 (1 : ℚ) [0, 0, 0] [1, 1, 1]).m_LearningRate
            * (configured false false false 1 (1 : ℚ) [0, 0, 0] [1, 1, 1]).m_Gradient.getD i 0) ∧
      s'.m_Gradient = (configured false false false 1 (1 : ℚ) [0, 0, 0] [1, 1, 1]).m_Gradient :=
  ⟨rfl, rfl, rfl, C1_sequential_step quietObserver 3
    (configured false false false 1 (1 : ℚ) [0, 0, 0] [1, 1, 1]) rfl rfl rfl⟩

/-- C2, the code at `N = 12` parameters (a three-dimensional affine transform) with eight
threads, every position entry `5`, every gradient entry `2` and the learning rate `1 / 2`: the
sequential loop, the threader and the Eigen expression over the whole vector all write `4`
everywhere, while in the OpenMP and Eigen branch thread 7 has `jmin = 14` and
`subSize = 12 - 14 = -2`, forms `segment(14, -2)` on vectors of 12 entries, and no position is
produced. Thread `t` runs iteration `t` of the parallel loop. -/
theorem C2_strategies_at_twelve_parameters_eight_threads :
    advancePosition quietObserver 12 (configured false false false 8 (1 / 2 : ℚ)
      (List.replicate 12 5) (List.replicate 12 2)) = some (List.replicate 12 4) ∧
    advancePosition quietObserver 12 (configured true false false 8 (1 / 2 : ℚ)
      (List.replicate 12 5) (List.replicate 12 2)) = some (List.replicate 12 4) ∧
    advancePosition quietObserver 12 (configured true false true 8 (1 / 2 : ℚ)
      (List.replicate 12 5) (List.replicate 12 2)) = some (List.replicate 12 4) ∧
    ompJmin 12 8 7 = 14 ∧ ompJmax 12 8 7 - ompJmin 12 8 7 = -2 ∧
    ¬ segmentValid 12 (ompJmin 12 8 7) (ompJmax 12 8 7 - ompJmin 12 8 7) ∧
    advancePosition quietObserver 12 (configured true true true 8 (1 / 2 : ℚ)
      (List.replicate 12 5) (List.replicate 12 2)) = none := by
  have hstep : steppedPosition (1 / 2 : ℚ) (List.replicate 12 5) (List.replicate 12 2)
      = List.replicate 12 4 := by
    apply list_eq_of_getD
    · rw [steppedPosition_length]
      rfl
    · intro i hi
      rw [steppedPosition_length] at hi
      rw [steppedPosition_getD _ _ _ _ hi]
      simp only [List.length_replicate] at hi
      simp only [List.getD_eq_getElem?_getD, List.getElem?_replicate, hi, if_true,
        Option.getD_some]
      norm_num
  have hvalid : ∀ mt eig, SegmentsValid quietObserver 12 (configured mt false eig 8
      (1 / 2 : ℚ) (List.replicate 12 5) (List.replicate 12 2)) := by
    intro mt eig _ homp
    cases homp
  have hteam : ∀ mt eig, FullTeam quietObserver (configured mt false eig 8
      (1 / 2 : ℚ) (List.replicate 12 5) (List.replicate 12 2)) := by
    intro mt eig _ homp
    cases homp
  have hsub : threadSubSize 12 8 = 2 := by
    rw [threadSubSize_eq 12 8 (by decide)]
  refine ⟨?_, ?_, ?_, by decide, by decide, by decide, ?_⟩
  · rw [advancePosition_eq quietObserver 12 (configured false false false 8 (1 / 2 : ℚ)
      (List.replicate 12 5) (List.replicate 12 2)) rfl rfl (by decide) (hvalid false false)
      (hteam false false) (fun hmt => by cases hmt)]
    exact congrArg some hstep
  · rw [advancePosition_eq quietObserver 12 (configured true false false 8 (1 / 2 : ℚ)
      (List.replicate 12 5) (List.replicate 12 2)) rfl rfl (by decide) (hvalid true false)
      (hteam true false) (fun _ _ _ => by
        show 8 * threadSubSize 12 8 < 2 ^ 32
        rw [hsub]
        decide)]
    exact congrArg some hstep
  · rw [advancePosition_eq quietObserver 12 (configured true false true 8 (1 / 2 : ℚ)
      (List.replicate 12 5) (List.replicate 12 2)) rfl rfl (by decide) (hvalid true true)
      (hteam true true) (fun _ _ heig => by cases heig)]
    exact congrArg some hstep
  · exact advancePosition_of_invalid_segment quietObserver 12 _ rfl rfl rfl 7
      (by decide) (by decide)

/-- The partition that `ThreadedAdvanceOneStep` is meant to make: for `N` parameters and
`n ≥ 1` threads whose bounds do not wrap around, the index ranges `[jmin, jmax)` of the threads
`0, ..., n - 1` each hold at most `ceil(N / n)` indices, lie inside `[0, N)`, are pairwise
disjoint, and every index below `N` lies in the range of exactly one thread. -/
theorem thread_ranges_partition (N n : Nat) (hn : 1 ≤ n)
    (hwrap : n * threadSubSize N n < 2 ^ 32) :
    (∀ t, t < n → threadJmax N n t - threadJmin N n t ≤ ⌈(N : ℚ) / (n : ℚ)⌉₊) ∧
    (∀ t, t < n → ∀ j, threadJmin N n t ≤ j → j < threadJmax N n t → j < N) ∧
    (∀ t₁ t₂ j, t₁ < n → t₂ < n → threadJmin N n t₁ ≤ j → j < threadJmax N n t₁ →
      threadJmin N n t₂ ≤ j → j < threadJmax N n t₂ → t₁ = t₂) ∧
    (∀ j, j < N → ∃! t, t < n ∧ threadJmin N n t ≤ j ∧ j < threadJmax N n t) := by
  have hfit : ∀ t, t < n → (t + 1) * threadSubSize N n < 2 ^ 32 := by
    intro t ht
    exact lt_of_le_of_lt (Nat.mul_le_mul_right _ (by omega)) hwrap
  refine ⟨?_, ?_, ?_, ?_⟩
  · intro t ht
    show threadJmax N n t - threadJmin N n t ≤ threadSubSize N n
    have hmul : (t + 1) * threadSubSize N n = t * threadSubSize N n + threadSubSize N n :=
      Nat.succ_mul _ _
    have h := hfit t ht
    rw [threadJmax_eq_min _ _ _ h, threadJmin_eq _ _ _ (by omega)]
    have hmin : min ((t + 1) * threadSubSize N n) N ≤ (t + 1) * threadSubSize N n :=
      min_le_left _ _
    omega
  · intro t ht j h1 h2
    exact ((mem_threadRange_iff N n t j (hfit t ht)).1 ⟨h1, h2⟩).1
  · intro t₁ t₂ j ht₁ ht₂ h1 h2 h3 h4
    have e1 := ((mem_threadRange_iff N n t₁ j (hfit t₁ ht₁)).1 ⟨h1, h2⟩).2.2
    have e2 := ((mem_threadRange_iff N n t₂ j (hfit t₂ ht₂)).1 ⟨h3, h4⟩).2.2
    rw [← e1, ← e2]
  · intro j hj
    have hcover := le_mul_threadSubSize N n hn
    have hc : 0 < threadSubSize N n := by
      rcases Nat.eq_zero_or_pos (threadSubSize N n) with h0 | h0
      · rw [h0, Nat.mul_zero] at hcover; omega
      · exact h0
    have hlt : j / threadSubSize N n < n := by
      rw [Nat.div_lt_iff_lt_mul hc]
      omega
    refine ⟨j / threadSubSize N n,
      ⟨hlt, (mem_threadRange_iff N n _ j (hfit _ hlt)).2 ⟨hj, hc, rfl⟩⟩, ?_⟩
    rintro t ⟨ht, h1, h2⟩
    exact (((mem_threadRange_iff N n t j (hfit t ht)).1 ⟨h1, h2⟩).2.2).symm

/-- C7, the code at `N = 4294967295` parameters with two threads: `subSize` is `2147483648`,
thread 0 has the range `[0, 2147483648)`, and for thread 1 the product `(1 + 1) * subSize` is
`2 ^ 32`, which wraps around to `0`: its range `[2147483648, 0)` is empty, it writes nothing,
and the indices from `2147483648` on lie in the range of no thread. The two calls that the
threader makes leave every entry from `2147483648` on as it was. -/
theorem C7_ranges_at_the_largest_parameter_count :
    threadSubSize 4294967295 2 = 2147483648 ∧
    threadJmin 4294967295 2 0 = 0 ∧ threadJmax 4294967295 2 0 = 2147483648 ∧
    threadJmin 4294967295 2 1 = 2147483648 ∧ threadJmax 4294967295 2 1 = 0 ∧
    (∀ j, 2147483648 ≤ j → ∀ t, t < 2 →
      ¬ (threadJmin 4294967295 2 t ≤ j ∧ j < threadJmax 4294967295 2 t)) ∧
    (∀ (learningRate : ℚ) (gradient position : List ℚ),
      ThreadedAdvanceOneStep 4294967295 2 learningRate gradient 1 position = some position) ∧
    (∀ (learningRate : ℚ) (gradient position : List ℚ),
      position.length = 4294967295 → gradient.length = 4294967295 →
      ∃ r, SingleMethodExecute 2 (fun threadId acc => acc.bind
          (ThreadedAdvanceOneStep 4294967295 2 learningRate gradient threadId)) (some position)
          = some r ∧
        ∀ i, 2147483648 ≤ i → r.getD i 0 = position.getD i 0) := by
  have hsub : threadSubSize 4294967295 2 = 2147483648 := by
    rw [threadSubSize_eq 4294967295 2 (by decide)]
  have hmin0 : threadJmin 4294967295 2 0 = 0 := by
    unfold threadJmin
    rw [hsub]
    decide
  have hmax0 : threadJmax 4294967295 2 0 = 2147483648 := by
    unfold threadJmax
    rw [hsub]
    decide
  have hmin1 : threadJmin 4294967295 2 1 = 2147483648 := by
    unfold threadJmin
    rw [hsub]
    decide
  have hmax1 : threadJmax 4294967295 2 1 = 0 := by
    unfold threadJmax
    rw [hsub]
    decide
  have hthread1 : ∀ (learningRate : ℚ) (gradient position : List ℚ),
      ThreadedAdvanceOneStep 4294967295 2 learningRate gradient 1 position
        = some position := by
    intro learningRate gradient position
    unfold ThreadedAdvanceOneStep assignLoop forLoop
    rw [hmin1, hmax1]
    rfl
  refine ⟨hsub, hmin0, hmax0, hmin1, hmax1, ?_, hthread1, ?_⟩
  · intro j hj t ht
    have ht' : t = 0 ∨ t = 1 := by omega
    rcases ht' with rfl | rfl
    · rw [hmin0, hmax0]
      omega
    · rw [hmin1, hmax1]
      omega
  · intro learningRate gradient position hp hg
    obtain ⟨r, hr, -, hget⟩ := ThreadedAdvanceOneStep_writes 4294967295 2 learningRate
      gradient position 0 hp hg
    refine ⟨r, ?_, fun i hi => ?_⟩
    · unfold SingleMethodExecute
      rw [show List.range 2 = [0, 1] from rfl, List.foldl_cons, List.foldl_cons,
        List.foldl_nil]
      show ((some position).bind
        (ThreadedAdvanceOneStep 4294967295 2 learningRate gradient 0)).bind
        (ThreadedAdvanceOneStep 4294967295 2 learningRate gradient 1) = some r
      rw [Option.some_bind, hr, Option.some_bind]
      exact hthread1 learningRate gradient r
    · rw [hget i, hmin0, hmax0, if_neg (by omega)]

end KernelClaims

/-! ## Further claims on the update kernel -/

section ChunkClaims

variable {K : Type} [Field K]

theorem threadSubSize_zero (n : Nat) (hn : 1 ≤ n) : threadSubSize 0 n = 0 := by
  rw [threadSubSize_eq 0 n hn]
  exact Nat.div_eq_of_lt (by omega)

/-- C15: for a cost function of no parameters, with empty position and gradient, whatever the
threading flags and for every number of threads `n ≥ 1`, the update step is defined and leaves
the position empty; the index range of every thread of the threader is `[0, 0)` and the segment
of every thread of the OpenMP and Eigen branch is `segment(0, 0)`, which is valid. -/
theorem C15_empty_parameter_vector (obs : Observer K) (s : Optimizer K)
    (hp : s.m_ScaledCurrentPosition = []) (hg : s.m_Gradient = [])
    (hn : 1 ≤ s.m_NumberOfThreads) :
    (∃ s', GradientDescentOptimizer2.AdvanceOneStep obs 0 s = some s' ∧
      s'.m_ScaledCurrentPosition = []) ∧
    ∀ t, t < s.m_NumberOfThreads →
      threadJmin 0 s.m_NumberOfThreads t = 0 ∧ threadJmax 0 s.m_NumberOfThreads t = 0 ∧
      ompJmin 0 s.m_NumberOfThreads t = 0 ∧ ompJmax 0 s.m_NumberOfThreads t = 0 ∧
      segmentValid 0 (ompJmin 0 s.m_NumberOfThreads t)
        (ompJmax 0 s.m_NumberOfThreads t - ompJmin 0 s.m_NumberOfThreads t) := by
  have hchunk : (0 + s.m_NumberOfThreads - 1) / s.m_NumberOfThreads = 0 :=
    Nat.div_eq_of_lt (by omega)
  have hvalid : ∀ t, segmentValid 0 (ompJmin 0 s.m_NumberOfThreads t)
      (ompJmax 0 s.m_NumberOfThreads t - ompJmin 0 s.m_NumberOfThreads t) := by
    intro t
    rw [segmentValid_omp_iff, hchunk, Nat.mul_zero]
  have hv : SegmentsValid obs 0 s := fun _ _ _ i _ => hvalid (obs.omp_get_thread_num i)
  obtain ⟨position, hadv, hlen⟩ := advancePosition_isSome obs 0 s (by rw [hp]; rfl)
    (by rw [hg]; rfl) hv
  have hempty : position = [] := List.length_eq_zero.1 hlen
  rw [hempty] at hadv
  refine ⟨⟨_, by rw [GradientDescentOptimizer2.AdvanceOneStep, hadv]; rfl, ?_⟩, fun t _ => ?_⟩
  · dsimp only [InvokeIterationEvent]
    split <;> rfl
  · refine ⟨?_, ?_, ?_, ?_, hvalid t⟩
    · unfold threadJmin
      rw [threadSubSize_zero _ hn, Nat.mul_zero]
      rfl
    · have := threadJmax_le 0 s.m_NumberOfThreads t
      omega
    · rw [ompJmin_eq, hchunk, Nat.mul_zero]
      rfl
    · rw [ompJmax_eq, hchunk, Nat.mul_zero]
      rfl

/-- C15 for the four strategies with three threads. -/
theorem C15_empty_parameter_vector_witness :
    (configured true true true 3 (1 : ℚ) [] []).m_ScaledCurrentPosition = [] ∧
    (configured true true true 3 (1 : ℚ) [] []).m_Gradient = [] ∧
    1 ≤ (configured true true true 3 (1 : ℚ) [] []).m_NumberOfThreads ∧
    (∃ s', GradientDescentOptimizer2.AdvanceOneStep quietObserver 0
        (configured true true true 3 (1 : ℚ) [] []) = some s' ∧
      s'.m_ScaledCurrentPosition = []) ∧
    (∃ s', GradientDescentOptimizer2.AdvanceOneStep quietObserver 0
        (configured true false false 3 (1 : ℚ) [] []) = some s' ∧
      s'.m_ScaledCurrentPosition = []) ∧
    (∃ s', GradientDescentOptimizer2.AdvanceOneStep quietObserver 0
        (configured true false true 3 (1 : ℚ) [] []) = some s' ∧
      s'.m_ScaledCurrentPosition = []) ∧
    (∃ s', GradientDescentOptimizer2.AdvanceOneStep quietObserver 0
        (configured false false false 3 (1 : ℚ) [] []) = some s' ∧
      s'.m_ScaledCurrentPosition = []) :=
  ⟨rfl, rfl, by decide,
    (C15_empty_parameter_vector quietObserver (configured true true true 3 (1 : ℚ) [] [])
      rfl rfl (by decide)).1,
    (C15_empty_parameter_vector quietObserver (configured true false false 3 (1 : ℚ) [] [])
      rfl rfl (by decide)).1,
    (C15_empty_parameter_vector quietObserver (configured true false true 3 (1 : ℚ) [] [])
      rfl rfl (by decide)).1,
    (C15_empty_parameter_vector quietObserver (configured false false false 3 (1 : ℚ) [] [])
      rfl rfl (by decide)).1⟩

/-- C17, the code at `N = 12` parameters with eight threads, and at `N = 1` with three: the
last thread has `jmin = 14 > 12` and `jmax - jmin = -2` (respectively `jmin = 2 > 1` and
`jmax - jmin = -1`), its segment violates the precondition of the block, and the body of the
parallel loop produces nothing for it. -/
theorem C17_segment_of_last_thread_is_ill_formed :
    ompChunk 12 8 = 2 ∧ ompJmin 12 8 7 = 14 ∧ ompJmax 12 8 7 = 12 ∧
    ¬ (ompJmin 12 8 7 ≤ 12) ∧ ¬ (0 ≤ ompJmax 12 8 7 - ompJmin 12 8 7) ∧
    ¬ segmentValid 12 (ompJmin 12 8 7) (ompJmax 12 8 7 - ompJmin 12 8 7) ∧
    ompEigenBody 12 8 (1 / 2 : ℚ) (List.replicate 12 2) 7 (List.replicate 12 5) = none ∧
    ompChunk 1 3 = 1 ∧ ompJmin 1 3 2 = 2 ∧ ompJmax 1 3 2 = 1 ∧
    ¬ (ompJmin 1 3 2 ≤ 1) ∧ ¬ (0 ≤ ompJmax 1 3 2 - ompJmin 1 3 2) ∧
    ¬ segmentValid 1 (ompJmin 1 3 2) (ompJmax 1 3 2 - ompJmin 1 3 2) ∧
    ompEigenBody 1 3 (1 / 2 : ℚ) [2] 2 [5] = none := by
  refine ⟨by decide, by decide, by decide, by decide, by decide, by decide, ?_,
    by decide, by decide, by decide, by decide, by decide, by decide, ?_⟩
  · exact ompEigenBody_invalid 12 8 7 _ _ _ (by decide)
  · exact ompEigenBody_invalid 1 3 2 _ _ _ (by decide)

/-- C18: for `N` parameters, `n ≥ 1` threads and every thread `t`, without integer overflow
(the product `(t + 1) * chunk` fits in an `int`), the integer chunk size `(N + n - 1) / n` of
the OpenMP and Eigen branch is the ceiling of `N / n` that `ThreadedAdvanceOneStep` computes,
and the bounds `jmin` and `jmax` of the two are equal. -/
theorem C18_same_chunk_bounds (N n t : Nat) (hn : 1 ≤ n)
    (hno : (t + 1) * ((N + n - 1) / n) < 2 ^ 31) :
    (N + n - 1) / n = ⌈(N : ℚ) / (n : ℚ)⌉₊ ∧
    ompChunk N n = ((threadSubSize N n : Nat) : Int) ∧
    ompJmin N n t = ((threadJmin N n t : Nat) : Int) ∧
    ompJmax N n t = ((threadJmax N n t : Nat) : Int) := by
  have hsub : threadSubSize N n = (N + n - 1) / n := threadSubSize_eq N n hn
  have hmul : (t + 1) * ((N + n - 1) / n) = t * ((N + n - 1) / n) + (N + n - 1) / n :=
    Nat.succ_mul _ _
  have hpow : (2 : Nat) ^ 31 < 2 ^ 32 := by decide
  refine ⟨hsub.symm, ?_, ?_, ?_⟩
  · rw [hsub]
    rfl
  · rw [ompJmin_eq, threadJmin_eq _ _ _ (by rw [hsub]; omega), hsub]
  · rw [ompJmax_eq, threadJmax_eq_min _ _ _ (by rw [hsub]; omega), hsub]

/-- C18 at `N = 12`, `n = 8` and the last thread. -/
theorem C18_same_chunk_bounds_witness :
    1 ≤ 8 ∧ (7 + 1) * ((12 + 8 - 1) / 8) < 2 ^ 31 ∧
    ((12 + 8 - 1) / 8 = ⌈((12 : ℕ) : ℚ) / ((8 : ℕ) : ℚ)⌉₊ ∧
    ompChunk 12 8 = ((threadSubSize 12 8 : Nat) : Int) ∧
    ompJmin 12 8 7 = ((threadJmin 12 8 7 : Nat) : Int) ∧
    ompJmax 12 8 7 = ((threadJmax 12 8 7 : Nat) : Int)) :=
  ⟨by decide, by decide, C18_same_chunk_bounds 12 8 7 (by decide) (by decide)⟩

end ChunkClaims

/-! ## One pass of the loop -/

section Pass

variable {ε K : Type} [Field K]

theorem whileLoop_of_stop (pow : K → K → K) (cf : CostFunction ε K) (obs : Observer K)
    (spaceDimension : Nat) (s : Optimizer K) (hstop : s.m_Stop = true) :
    whileLoop pow cf obs spaceDimension s = Outcome.returned s := by
  rw [whileLoop, if_pos hstop]

theorem whileLoop_of_leave (pow : K → K → K) (cf : CostFunction ε K) (obs : Observer K)
    (spaceDimension : Nat) (s : Optimizer K) (o : Outcome ε K) (hstop : s.m_Stop = false)
    (hbody : whileBody pow cf obs spaceDimension s = LoopStep.leave o) :
    whileLoop pow cf obs spaceDimension s = o := by
  rw [whileLoop, if_neg (by rw [hstop]; exact Bool.false_ne_true)]
  split
  · rename_i o' h
    rw [hbody] at h
    cases h
    rfl
  · rename_i s4 h
    rw [hbody] at h
    cases h

theorem whileLoop_of_next (pow : K → K → K) (cf : CostFunction ε K) (obs : Observer K)
    (spaceDimension : Nat) (s s4 : Optimizer K) (hstop : s.m_Stop = false)
    (hbody : whileBody pow cf obs spaceDimension s = LoopStep.next s4) :
    whileLoop pow cf obs spaceDimension s = whileLoop pow cf obs spaceDimension s4 := by
  rw [whileLoop, if_neg (by rw [hstop]; exact Bool.false_ne_true)]
  split
  · rename_i o' h
    rw [hbody] at h
    cases h
  · rename_i s4' h
    rw [hbody] at h
    cases h
    rfl

/-- A pass whose evaluation throws an exception that the handler catches. -/
theorem whileBody_of_error (pow : K → K → K) (cf : CostFunction ε K) (obs : Observer K)
    (spaceDimension : Nat) (s : Optimizer K) (derived : Bool) (what : ε)
    (hev : cf.GetValueAndDerivative s.evaluations s.m_ScaledCurrentPosition
      = Except.error (Thrown.ExceptionObject derived what))
    (hde : obs.duringEvaluation s = false) :
    whileBody pow cf obs spaceDimension s
      = LoopStep.leave (MetricErrorResponse what { s with evaluations := s.evaluations + 1 }) := by
  unfold whileBody
  dsimp only
  rw [hev, hde]
  rfl

/-- A pass whose evaluation throws an exception that the handler catches, while
`StopOptimization` is called during the evaluation. -/
theorem whileBody_of_error_stopped (pow : K → K → K) (cf : CostFunction ε K) (obs : Observer K)
    (spaceDimension : Nat) (s : Optimizer K) (derived : Bool) (what : ε)
    (hev : cf.GetValueAndDerivative s.evaluations s.m_ScaledCurrentPosition
      = Except.error (Thrown.ExceptionObject derived what))
    (hde : obs.duringEvaluation s = true) :
    whileBody pow cf obs spaceDimension s
      = LoopStep.leave (MetricErrorResponse what
          (RequestStop { s with evaluations := s.evaluations + 1 })) := by
  unfold whileBody
  dsimp only
  rw [hev, hde]
  rfl

/-- A pass whose evaluation throws an exception that the handler does not catch: the exception
leaves the loop, and neither the stop flag nor the stop condition is touched. -/
theorem whileBody_of_uncaught (pow : K → K → K) (cf : CostFunction ε K) (obs : Observer K)
    (spaceDimension : Nat) (s : Optimizer K) (what : ε)
    (hev : cf.GetValueAndDerivative s.evaluations s.m_ScaledCurrentPosition
      = Except.error (Thrown.other what))
    (hde : obs.duringEvaluation s = false) :
    whileBody pow cf obs spaceDimension s
      = LoopStep.leave (Outcome.thrown (Thrown.other what)
          { s with evaluations := s.evaluations + 1 }) := by
  unfold whileBody
  dsimp only
  rw [hev, hde]
  rfl

/-- A pass whose evaluation throws an exception that the handler does not catch, while
`StopOptimization` is called during the evaluation. -/
theorem whileBody_of_uncaught_stopped (pow : K → K → K) (cf : CostFunction ε K)
    (obs : Observer K) (spaceDimension : Nat) (s : Optimizer K) (what : ε)
    (hev : cf.GetValueAndDerivative s.evaluations s.m_ScaledCurrentPosition
      = Except.error (Thrown.other what))
    (hde : obs.duringEvaluation s = true) :
    whileBody pow cf obs spaceDimension s
      = LoopStep.leave (Outcome.thrown (Thrown.other what)
          (RequestStop { s with evaluations := s.evaluations + 1 })) := by
  unfold whileBody
  dsimp only
  rw [hev, hde]
  rfl

/-- A pass during whose evaluation `StopOptimization` is called. -/
theorem whileBody_of_stop_during_evaluation (pow : K → K → K) (cf : CostFunction ε K)
    (obs : Observer K) (spaceDimension : Nat) (s : Optimizer K) (value : K) (gradient : List K)
    (hev : cf.GetValueAndDerivative s.evaluations s.m_ScaledCurrentPosition
      = Except.ok (value, gradient))
    (hde : obs.duringEvaluation s = true) :
    whileBody pow cf obs spaceDimension s
      = LoopStep.leave (Outcome.returned
          { RequestStop { s with evaluations := s.evaluations + 1 } with
            m_Value := value, m_Gradient := gradient }) := by
  unfold whileBody
  dsimp only
  rw [hev, hde]
  rfl

/-- A pass whose evaluation succeeds undisturbed and whose update step is defined. -/
theorem whileBody_of_ok (pow : K → K → K) (cf : CostFunction ε K) (obs : Observer K)
    (spaceDimension : Nat) (s : Optimizer K) (value : K) (gradient position : List K)
    (hstop : s.m_Stop = false)
    (hev : cf.GetValueAndDerivative s.evaluations s.m_ScaledCurrentPosition
      = Except.ok (value, gradient))
    (hde : obs.duringEvaluation s = false)
    (hadv : advancePosition obs spaceDimension (evaluated pow s value gradient) = some position) :
    whileBody pow cf obs spaceDimension s =
      if obs.onIterationEvent (notified pow s value gradient position) = true then
        LoopStep.leave (Outcome.returned
          (UpdateCurrentTime (RequestStop (notified pow s value gradient position))))
      else if s.m_CurrentIteration + 1 ≥ s.m_NumberOfIterations then
        LoopStep.leave (Outcome.returned (StopOptimization
          { completedPass pow s value gradient position with
            m_StopCondition := StopConditionType.MaximumNumberOfIterations }))
      else LoopStep.next (completedPass pow s value gradient position) := by
  have hadv' : StandardStochasticGradientOptimizer.AdvanceOneStep pow obs spaceDimension
      { s with evaluations := s.evaluations + 1, m_Value := value, m_Gradient := gradient }
      = some (UpdateCurrentTime (InvokeIterationEvent obs
          { evaluated pow s value gradient with m_ScaledCurrentPosition := position })) := by
    unfold StandardStochasticGradientOptimizer.AdvanceOneStep
      GradientDescentOptimizer2.AdvanceOneStep
    show Option.map UpdateCurrentTime (Option.map _
      (advancePosition obs spaceDimension (evaluated pow s value gradient))) = _
    rw [hadv]
    rfl
  have hns : ¬ s.m_Stop = true := by rw [hstop]; exact Bool.false_ne_true
  by_cases hit : obs.onIterationEvent (notified pow s value gradient position) = true
  · have hinv : InvokeIterationEvent obs
        { evaluated pow s value gradient with m_ScaledCurrentPosition := position }
        = RequestStop (notified pow s value gradient position) := by
      show (if obs.onIterationEvent (notified pow s value gradient position) = true then
        RequestStop (notified pow s value gradient position)
        else notified pow s value gradient position) = _
      rw [if_pos hit]
    rw [hinv] at hadv'
    unfold whileBody
    dsimp only
    rw [hev, hde]
    simp only [Bool.false_eq_true, if_false]
    rw [if_neg hns, hadv', if_pos hit]
    rfl
  · have hinv : InvokeIterationEvent obs
        { evaluated pow s value gradient with m_ScaledCurrentPosition := position }
        = notified pow s value gradient position := by
      show (if obs.onIterationEvent (notified pow s value gradient position) = true then
        RequestStop (notified pow s value gradient position)
        else notified pow s value gradient position) = _
      rw [if_neg hit]
    rw [hinv] at hadv'
    unfold whileBody
    dsimp only
    rw [hev, hde]
    simp only [Bool.false_eq_true, if_false]
    rw [if_neg hns, hadv', if_neg hit]
    show (if s.m_Stop = true then _ else _) = _
    rw [if_neg hns]
    rfl

/-- A pass whose evaluation throws ends with an exception, whether or not `StopOptimization`
was called during the evaluation. -/
theorem whileBody_of_error_any (pow : K → K → K) (cf : CostFunction ε K) (obs : Observer K)
    (spaceDimension : Nat) (s : Optimizer K) (err : Thrown ε)
    (hev : cf.GetValueAndDerivative s.evaluations s.m_ScaledCurrentPosition
      = Except.error err) :
    ∃ e s', whileBody pow cf obs spaceDimension s = LoopStep.leave (Outcome.thrown e s') := by
  unfold whileBody
  dsimp only
  rw [hev]
  cases err with
  | ExceptionObject derived what => exact ⟨_, _, rfl⟩
  | other what => exact ⟨_, _, rfl⟩

/-- A pass whose update step is undefined. -/
theorem whileBody_of_undefined (pow : K → K → K) (cf : CostFunction ε K) (obs : Observer K)
    (spaceDimension : Nat) (s : Optimizer K) (value : K) (gradient : List K)
    (hstop : s.m_Stop = false)
    (hev : cf.GetValueAndDerivative s.evaluations s.m_ScaledCurrentPosition
      = Except.ok (value, gradient))
    (hde : obs.duringEvaluation s = false)
    (hadv : advancePosition obs spaceDimension (evaluated pow s value gradient) = none) :
    whileBody pow cf obs spaceDimension s = LoopStep.leave Outcome.aborted := by
  have hns : ¬ s.m_Stop = true := by rw [hstop]; exact Bool.false_ne_true
  have hadv' : StandardStochasticGradientOptimizer.AdvanceOneStep pow obs spaceDimension
      { s with evaluations := s.evaluations + 1, m_Value := value, m_Gradient := gradient }
      = none := by
    unfold StandardStochasticGradientOptimizer.AdvanceOneStep
      GradientDescentOptimizer2.AdvanceOneStep
    show Option.map UpdateCurrentTime (Option.map _
      (advancePosition obs spaceDimension (evaluated pow s value gradient))) = _
    rw [hadv]
    rfl
  unfold whileBody
  dsimp only
  rw [hev, hde]
  simp only [Bool.false_eq_true, if_false]
  rw [if_neg hns, hadv']

/-- What one pass does to the stop condition and to the count of outside calls of
`StopOptimization`: a pass that goes on changes neither; a pass that returns either has seen
one outside call and kept the stop condition, or has seen none and has set
`MaximumNumberOfIterations`. -/
theorem whileBody_stop_condition (pow : K → K → K) (cf : CostFunction ε K) (obs : Observer K)
    (spaceDimension : Nat) (s : Optimizer K) (hstop : s.m_Stop = false) :
    (∀ y, whileBody pow cf obs spaceDimension s = LoopStep.next y →
      y.m_StopCondition = s.m_StopCondition ∧ y.stopRequests = s.stopRequests ∧
      y.m_Stop = false) ∧
    (∀ s', whileBody pow cf obs spaceDimension s = LoopStep.leave (Outcome.returned s') →
      (s'.m_StopCondition = s.m_StopCondition ∧ s'.stopRequests = s.stopRequests + 1) ∨
      (s'.m_StopCondition = StopConditionType.MaximumNumberOfIterations ∧
        s'.stopRequests = s.stopRequests)) := by
  cases hev : cf.GetValueAndDerivative s.evaluations s.m_ScaledCurrentPosition with
  | error err =>
    obtain ⟨e, t, ht⟩ := whileBody_of_error_any pow cf obs spaceDimension s err hev
    rw [ht]
    exact ⟨fun y h => (by cases h), fun s' h => (by cases h)⟩
  | ok vg =>
    obtain ⟨value, gradient⟩ := vg
    cases hde : obs.duringEvaluation s with
    | true =>
      rw [whileBody_of_stop_during_evaluation pow cf obs spaceDimension s value gradient hev hde]
      refine ⟨fun y h => (by cases h), fun s' h => ?_⟩
      cases h
      exact Or.inl ⟨rfl, rfl⟩
    | false =>
      cases hadv : advancePosition obs spaceDimension (evaluated pow s value gradient) with
      | none =>
        rw [whileBody_of_undefined pow cf obs spaceDimension s value gradient hstop hev hde hadv]
        exact ⟨fun y h => (by cases h), fun s' h => (by cases h)⟩
      | some position =>
        rw [whileBody_of_ok pow cf obs spaceDimension s value gradient position hstop hev hde
          hadv]
        by_cases hit : obs.onIterationEvent (notified pow s value gradient position) = true
        · rw [if_pos hit]
          refine ⟨fun y h => (by cases h), fun s' h => ?_⟩
          cases h
          exact Or.inl ⟨rfl, rfl⟩
        · rw [if_neg hit]
          by_cases hmax : s.m_CurrentIteration + 1 ≥ s.m_NumberOfIterations
          · rw [if_pos hmax]
            refine ⟨fun y h => (by cases h), fun s' h => ?_⟩
            cases h
            exact Or.inr ⟨rfl, rfl⟩
          · rw [if_neg hmax]
            refine ⟨fun y h => ?_, fun s' h => (by cases h)⟩
            cases h
            exact ⟨rfl, rfl, hstop⟩

/-- Over a whole run of the loop that returns: either no outside call of `StopOptimization` was
made, or the stop condition is the one the loop was entered with. -/
theorem whileLoop_stop_condition (pow : K → K → K) (cf : CostFunction ε K) (obs : Observer K)
    (spaceDimension : Nat) :
    ∀ (n : Nat) (s s' : Optimizer K), s.m_NumberOfIterations - s.m_CurrentIteration = n →
      whileLoop pow cf obs spaceDimension s = Outcome.returned s' →
      s'.stopRequests = s.stopRequests ∨ s'.m_StopCondition = s.m_StopCondition := by
  intro n
  induction n using Nat.strong_induction_on with
  | _ n ih =>
    intro s s' hn hrun
    cases hstop : s.m_Stop with
    | true =>
      rw [whileLoop_of_stop pow cf obs spaceDimension s hstop] at hrun
      cases hrun
      exact Or.inl rfl
    | false =>
      obtain ⟨hnext, hleave⟩ := whileBody_stop_condition pow cf obs spaceDimension s hstop
      cases hbody : whileBody pow cf obs spaceDimension s with
      | next y =>
        rw [whileLoop_of_next pow cf obs spaceDimension s y hstop hbody] at hrun
        have hdec := whileBody_next pow cf obs spaceDimension s y hbody
        obtain ⟨h1, h2, -⟩ := hnext y hbody
        have := ih (y.m_NumberOfIterations - y.m_CurrentIteration) (by omega) y s' rfl hrun
        rw [h1, h2] at this
        exact this
      | leave o =>
        rw [whileLoop_of_leave pow cf obs spaceDimension s o hstop hbody] at hrun
        subst hrun
        rcases hleave s' hbody with h | h
        · exact Or.inr h.1
        · exact Or.inl h.2

omit [Field K] in
theorem SegmentsValid_congr (obs : Observer K) (spaceDimension : Nat) (s x : Optimizer K)
    (h : configuration x = configuration s) (hv : SegmentsValid obs spaceDimension s) :
    SegmentsValid obs spaceDimension x := by
  simp only [configuration, Prod.mk.injEq] at h
  obtain ⟨-, h2, h3, h4, h5, -⟩ := h
  unfold SegmentsValid at hv ⊢
  rw [h2, h3, h4, h5]
  exact hv

theorem Compute_a_congr (pow : K → K → K) (s x : Optimizer K)
    (h : configuration x = configuration s) (k : K) :
    Compute_a pow x k = Compute_a pow s k := by
  simp only [configuration, Prod.mk.injEq] at h
  obtain ⟨-, -, -, -, -, h6, h7, h8, -⟩ := h
  unfold Compute_a
  rw [h6, h7, h8]

/-- One more pass that goes on extends a chain of completed steps at its end. -/
theorem completedSteps_succ (pow : K → K → K) (cf : CostFunction ε K) (obs : Observer K)
    (spaceDimension : Nat) :
    ∀ (k : Nat) (s x y : Optimizer K),
      completedSteps pow cf obs spaceDimension k s = some x →
      whileBody pow cf obs spaceDimension x = LoopStep.next y →
      completedSteps pow cf obs spaceDimension (k + 1) s = some y := by
  intro k
  induction k with
  | zero =>
    intro s x y hx hy
    simp only [completedSteps, Option.some.injEq] at hx
    subst hx
    simp only [completedSteps, hy]
  | succ k ih =>
    intro s x y hx hy
    rw [completedSteps] at hx ⊢
    cases hb : whileBody pow cf obs spaceDimension s with
    | leave o => rw [hb] at hx; cases hx
    | next s4 =>
      rw [hb] at hx
      exact ih s4 x y hx hy

theorem Advanced_zero (s : Optimizer K) (hstop : s.m_Stop = false) : Advanced 0 s s := by
  refine ⟨rfl, rfl, ?_, rfl, ?_, hstop, rfl, rfl⟩
  · simp
  · simp

theorem Advanced_succ (pow : K → K → K) (k : Nat) (s x : Optimizer K) (value : K)
    (gradient position : List K) (h : Advanced k s x) :
    Advanced (k + 1) s (completedPass pow x value gradient position) := by
  obtain ⟨h1, h2, h3, h4, h5, h6, h7, h8⟩ := h
  refine ⟨h1, ?_, ?_, ?_, ?_, h6, h7, h8⟩
  · show x.m_CurrentIteration + 1 = _
    rw [h2]; rfl
  · show x.m_CurrentTime + 1 = _
    rw [h3]; push_cast; ring
  · show x.evaluations + 1 = _
    rw [h4]; rfl
  · show x.events ++ [Event.IterationEvent] = _
    rw [h5, List.append_assoc, List.replicate_succ']

/-- Induction along the first `k` passes of the loop, none of which reaches the iteration limit:
as long as each evaluation succeeds undisturbed with a gradient of `spaceDimension` entries and
no observer of `IterationEvent` calls `StopOptimization`, the loop goes on, the bookkeeping
advances, the position keeps its `spaceDimension` entries, and every property `P` that the
passes carry forward holds. -/
theorem quiet_passes (pow : K → K → K) (cf : CostFunction ε K) (obs : Observer K)
    (spaceDimension : Nat) (P : Nat → Optimizer K → Prop) (s : Optimizer K)
    (hstop : s.m_Stop = false) (hv : SegmentsValid obs spaceDimension s)
    (hp : s.m_ScaledCurrentPosition.length = spaceDimension) (h0 : P 0 s) :
    ∀ k : Nat, k ≤ s.m_NumberOfIterations - (s.m_CurrentIteration + 1) →
      (∀ i x, i < k → completedSteps pow cf obs spaceDimension i s = some x →
        Advanced i s x → P i x →
        obs.duringEvaluation x = false ∧
        ∃ value gradient,
          cf.GetValueAndDerivative x.evaluations x.m_ScaledCurrentPosition
            = Except.ok (value, gradient) ∧
          gradient.length = spaceDimension ∧
          ∀ position,
            advancePosition obs spaceDimension (evaluated pow x value gradient)
              = some position →
            obs.onIterationEvent (notified pow x value gradient position) = false ∧
            P (i + 1) (completedPass pow x value gradient position)) →
      ∃ x, completedSteps pow cf obs spaceDimension k s = some x ∧ Advanced k s x ∧ P k x ∧
        x.m_ScaledCurrentPosition.length = spaceDimension ∧
        whileLoop pow cf obs spaceDimension s = whileLoop pow cf obs spaceDimension x := by
  intro k
  induction k with
  | zero =>
    intro _ _
    exact ⟨s, rfl, Advanced_zero s hstop, h0, hp, rfl⟩
  | succ k ih =>
    intro hk hyp
    obtain ⟨x, hx, hadv, hP, hlen, hloop⟩ := ih (by omega)
      (fun i y hi => hyp i y (Nat.lt_succ_of_lt hi))
    obtain ⟨hde, value, gradient, hev, hglen, hrest⟩ :=
      hyp k x (Nat.lt_succ_self k) hx hadv hP
    have hcfg : configuration (evaluated pow x value gradient) = configuration s := hadv.1
    obtain ⟨position, hpos, hplen⟩ := advancePosition_isSome obs spaceDimension
      (evaluated pow x value gradient) hlen hglen
      (SegmentsValid_congr obs spaceDimension s _ hcfg hv)
    obtain ⟨hit, hP'⟩ := hrest position hpos
    have hmax : x.m_NumberOfIterations = s.m_NumberOfIterations := by
      have := hadv.1
      simp only [configuration, Prod.mk.injEq] at this
      exact this.1
    have hbody := whileBody_of_ok pow cf obs spaceDimension x value gradient position
      hadv.2.2.2.2.2.1 hev hde hpos
    rw [if_neg (by rw [hit]; exact Bool.false_ne_true),
      if_neg (by rw [hmax, hadv.2.1]; omega)] at hbody
    refine ⟨_, completedSteps_succ pow cf obs spaceDimension k s x _ hx hbody,
      Advanced_succ pow k s x value gradient position hadv, hP', hplen, ?_⟩
    rw [hloop]
    exact whileLoop_of_next pow cf obs spaceDimension x _ hadv.2.2.2.2.2.1 hbody

/-- A run in which every evaluation succeeds undisturbed and no observer calls
`StopOptimization` goes on until the pass that reaches the iteration limit, and returns from
there. -/
theorem whileLoop_to_limit (pow : K → K → K) (cf : CostFunction ε K) (obs : Observer K)
    (spaceDimension : Nat) (P : Nat → Optimizer K → Prop) (s : Optimizer K)
    (hstop : s.m_Stop = false) (hv : SegmentsValid obs spaceDimension s)
    (hp : s.m_ScaledCurrentPosition.length = spaceDimension) (h0 : P 0 s)
    (hyp : ∀ i x, i ≤ s.m_NumberOfIterations - (s.m_CurrentIteration + 1) →
        completedSteps pow cf obs spaceDimension i s = some x →
        Advanced i s x → P i x →
        obs.duringEvaluation x = false ∧
        ∃ value gradient,
          cf.GetValueAndDerivative x.evaluations x.m_ScaledCurrentPosition
            = Except.ok (value, gradient) ∧
          gradient.length = spaceDimension ∧
          ∀ position,
            advancePosition obs spaceDimension (evaluated pow x value gradient)
              = some position →
            obs.onIterationEvent (notified pow x value gradient position) = false ∧
            P (i + 1) (completedPass pow x value gradient position)) :
    ∃ x value gradient position,
      completedSteps pow cf obs spaceDimension
        (s.m_NumberOfIterations - (s.m_CurrentIteration + 1)) s = some x ∧
      Advanced (s.m_NumberOfIterations - (s.m_CurrentIteration + 1)) s x ∧
      P (s.m_NumberOfIterations - (s.m_CurrentIteration + 1) + 1)
        (completedPass pow x value gradient position) ∧
      position.length = spaceDimension ∧
      whileLoop pow cf obs spaceDimension s = Outcome.returned (StopOptimization
        { completedPass pow x value gradient position with
          m_StopCondition := StopConditionType.MaximumNumberOfIterations }) := by
  obtain ⟨x, hx, hadv, hP, hlen, hloop⟩ := quiet_passes pow cf obs spaceDimension P s hstop hv
    hp h0 (s.m_NumberOfIterations - (s.m_CurrentIteration + 1)) (le_refl _)
    (fun i y hi => hyp i y (le_of_lt hi))
  obtain ⟨hde, value, gradient, hev, hglen, hrest⟩ := hyp _ x (le_refl _) hx hadv hP
  have hcfg : configuration (evaluated pow x value gradient) = configuration s := hadv.1
  obtain ⟨position, hpos, hplen⟩ := advancePosition_isSome obs spaceDimension
    (evaluated pow x value gradient) hlen hglen
    (SegmentsValid_congr obs spaceDimension s _ hcfg hv)
  obtain ⟨hit, hP'⟩ := hrest position hpos
  have hmax : x.m_NumberOfIterations = s.m_NumberOfIterations := by
    have := hadv.1
    simp only [configuration, Prod.mk.injEq] at this
    exact this.1
  have hbody := whileBody_of_ok pow cf obs spaceDimension x value gradient position
    hadv.2.2.2.2.2.1 hev hde hpos
  rw [if_neg (by rw [hit]; exact Bool.false_ne_true),
    if_pos (by rw [hmax, hadv.2.1]; omega)] at hbody
  refine ⟨x, value, gradient, position, hx, hadv, hP', hplen, ?_⟩
  rw [hloop]
  exact whileLoop_of_leave pow cf obs spaceDimension x _ hadv.2.2.2.2.2.1 hbody

end Pass

/-! ## Every pass of the loop, whatever the surroundings do -/

section AnyPass

variable {ε K : Type} [Field K]

/-- The nine ways in which a pass entered with the stop flag clear can go: the evaluation
throws an exception that the handler catches (undisturbed, or with an outside call of
`StopOptimization` during it); it throws one that the handler does not catch (likewise); the
evaluation succeeds with such a call during it; the update step is undefined; an observer of
`IterationEvent` calls `StopOptimization`; the iteration limit is reached; the loop goes on. -/
theorem whileBody_cases (pow : K → K → K) (cf : CostFunction ε K) (obs : Observer K)
    (spaceDimension : Nat) (s : Optimizer K) (hstop : s.m_Stop = false) :
    (∃ derived what, cf.GetValueAndDerivative s.evaluations s.m_ScaledCurrentPosition
        = Except.error (Thrown.ExceptionObject derived what) ∧
      obs.duringEvaluation s = false ∧
      whileBody pow cf obs spaceDimension s = LoopStep.leave
        (MetricErrorResponse what { s with evaluations := s.evaluations + 1 })) ∨
    (∃ derived what, cf.GetValueAndDerivative s.evaluations s.m_ScaledCurrentPosition
        = Except.error (Thrown.ExceptionObject derived what) ∧
      obs.duringEvaluation s = true ∧
      whileBody pow cf obs spaceDimension s = LoopStep.leave
        (MetricErrorResponse what (RequestStop { s with evaluations := s.evaluations + 1 }))) ∨
    (∃ what, cf.GetValueAndDerivative s.evaluations s.m_ScaledCurrentPosition
        = Except.error (Thrown.other what) ∧
      obs.duringEvaluation s = false ∧
      whileBody pow cf obs spaceDimension s = LoopStep.leave
        (Outcome.thrown (Thrown.other what) { s with evaluations := s.evaluations + 1 })) ∨
    (∃ what, cf.GetValueAndDerivative s.evaluations s.m_ScaledCurrentPosition
        = Except.error (Thrown.other what) ∧
      obs.duringEvaluation s = true ∧
      whileBody pow cf obs spaceDimension s = LoopStep.leave
        (Outcome.thrown (Thrown.other what)
          (RequestStop { s with evaluations := s.evaluations + 1 }))) ∨
    (∃ value gradient, cf.GetValueAndDerivative s.evaluations s.m_ScaledCurrentPosition
        = Except.ok (value, gradient) ∧ obs.duringEvaluation s = true ∧
      whileBody pow cf obs spaceDimension s = LoopStep.leave (Outcome.returned
        { RequestStop { s with evaluations := s.evaluations + 1 } with
          m_Value := value, m_Gradient := gradient })) ∨
    (∃ value gradient, cf.GetValueAndDerivative s.evaluations s.m_ScaledCurrentPosition
        = Except.ok (value, gradient) ∧ obs.duringEvaluation s = false ∧
      advancePosition obs spaceDimension (evaluated pow s value gradient) = none ∧
      whileBody pow cf obs spaceDimension s = LoopStep.leave Outcome.aborted) ∨
    (∃ value gradient position,
      cf.GetValueAndDerivative s.evaluations s.m_ScaledCurrentPosition
        = Except.ok (value, gradient) ∧ obs.duringEvaluation s = false ∧
      advancePosition obs spaceDimension (evaluated pow s value gradient) = some position ∧
      obs.onIterationEvent (notified pow s value gradient position) = true ∧
      whileBody pow cf obs spaceDimension s = LoopStep.leave (Outcome.returned
        (UpdateCurrentTime (RequestStop (notified pow s value gradient position))))) ∨
    (∃ value gradient position,
      cf.GetValueAndDerivative s.evaluations s.m_ScaledCurrentPosition
        = Except.ok (value, gradient) ∧ obs.duringEvaluation s = false ∧
      advancePosition obs spaceDimension (evaluated pow s value gradient) = some position ∧
      obs.onIterationEvent (notified pow s value gradient position) = false ∧
      s.m_NumberOfIterations ≤ s.m_CurrentIteration + 1 ∧
      whileBody pow cf obs spaceDimension s = LoopStep.leave (Outcome.returned
        (StopOptimization
          { completedPass pow s value gradient position with
            m_StopCondition := StopConditionType.MaximumNumberOfIterations }))) ∨
    (∃ value gradient position,
      cf.GetValueAndDerivative s.evaluations s.m_ScaledCurrentPosition
        = Except.ok (value, gradient) ∧ obs.duringEvaluation s = false ∧
      advancePosition obs spaceDimension (evaluated pow s value gradient) = some position ∧
      obs.onIterationEvent (notified pow s value gradient position) = false ∧
      s.m_CurrentIteration + 1 < s.m_NumberOfIterations ∧
      whileBody pow cf obs spaceDimension s
        = LoopStep.next (completedPass pow s value gradient position)) := by
  cases hev : cf.GetValueAndDerivative s.evaluations s.m_ScaledCurrentPosition with
  | error err =>
    cases err with
    | ExceptionObject derived what =>
      cases hde : obs.duringEvaluation s with
      | false =>
        exact Or.inl ⟨derived, what, rfl, rfl,
          whileBody_of_error pow cf obs spaceDimension s derived what hev hde⟩
      | true =>
        exact Or.inr (Or.inl ⟨derived, what, rfl, rfl,
          whileBody_of_error_stopped pow cf obs spaceDimension s derived what hev hde⟩)
    | other what =>
      cases hde : obs.duringEvaluation s with
      | false =>
        exact Or.inr (Or.inr (Or.inl ⟨what, rfl, rfl,
          whileBody_of_uncaught pow cf obs spaceDimension s what hev hde⟩))
      | true =>
        exact Or.inr (Or.inr (Or.inr (Or.inl ⟨what, rfl, rfl,
          whileBody_of_uncaught_stopped pow cf obs spaceDimension s what hev hde⟩)))
  | ok vg =>
    obtain ⟨value, gradient⟩ := vg
    cases hde : obs.duringEvaluation s with
    | true =>
      exact Or.inr (Or.inr (Or.inr (Or.inr (Or.inl ⟨value, gradient, rfl, rfl,
        whileBody_of_stop_during_evaluation pow cf obs spaceDimension s value gradient hev
          hde⟩))))
    | false =>
      cases hadv : advancePosition obs spaceDimension (evaluated pow s value gradient) with
      | none =>
        exact Or.inr (Or.inr (Or.inr (Or.inr (Or.inr (Or.inl ⟨value, gradient, rfl, rfl, hadv,
          whileBody_of_undefined pow cf obs spaceDimension s value gradient hstop hev hde
            hadv⟩)))))
      | some position =>
        have hbody := whileBody_of_ok pow cf obs spaceDimension s value gradient position hstop
          hev hde hadv
        cases hit : obs.onIterationEvent (notified pow s value gradient position) with
        | true =>
          rw [if_pos hit] at hbody
          exact Or.inr (Or.inr (Or.inr (Or.inr (Or.inr (Or.inr (Or.inl
            ⟨value, gradient, position, rfl, rfl, hadv, hit, hbody⟩))))))
        | false =>
          rw [if_neg (by rw [hit]; exact Bool.false_ne_true)] at hbody
          by_cases hmax : s.m_CurrentIteration + 1 ≥ s.m_NumberOfIterations
          · rw [if_pos hmax] at hbody
            exact Or.inr (Or.inr (Or.inr (Or.inr (Or.inr (Or.inr (Or.inr (Or.inl
              ⟨value, gradient, position, rfl, rfl, hadv, hit, hmax, hbody⟩)))))))
          · rw [if_neg hmax] at hbody
            exact Or.inr (Or.inr (Or.inr (Or.inr (Or.inr (Or.inr (Or.inr (Or.inr
              ⟨value, gradient, position, rfl, rfl, hadv, hit, by omega, hbody⟩)))))))

/-- A pass entered with the stop flag set leaves the loop. -/
theorem whileBody_of_stop_flag (pow : K → K → K) (cf : CostFunction ε K) (obs : Observer K)
    (spaceDimension : Nat) (s : Optimizer K) (hstop : s.m_Stop = true) :
    ∃ o, whileBody pow cf obs spaceDimension s = LoopStep.leave o := by
  cases hb : whileBody pow cf obs spaceDimension s with
  | leave o => exact ⟨o, rfl⟩
  | next y =>
    exfalso
    unfold whileBody at hb
    dsimp only at hb
    cases hev : cf.GetValueAndDerivative s.evaluations s.m_ScaledCurrentPosition with
    | error err =>
      rw [hev] at hb
      cases err <;> cases hb
    | ok vg =>
      rw [hev] at hb
      dsimp only at hb
      have hflag : (if obs.duringEvaluation s = true then
          RequestStop { s with evaluations := s.evaluations + 1 }
          else { s with evaluations := s.evaluations + 1 }).m_Stop = true := by
        split
        · rfl
        · exact hstop
      rw [if_pos hflag] at hb
      cases hb

/-- Chains of passes compose: `k` further passes after one pass are `k + 1` passes. -/
theorem Advanced_step (k : Nat) (s y x : Optimizer K) (h₁ : Advanced 1 s y)
    (h₂ : Advanced k y x) : Advanced (k + 1) s x := by
  obtain ⟨a1, a2, a3, a4, a5, -, a7, a8⟩ := h₁
  obtain ⟨b1, b2, b3, b4, b5, b6, b7, b8⟩ := h₂
  refine ⟨b1.trans a1, ?_, ?_, ?_, ?_, b6, b7.trans a7, b8.trans a8⟩
  · rw [b2, a2]; omega
  · rw [b3, a3]; push_cast; ring
  · rw [b4, a4]; omega
  · rw [b5, a5, List.append_assoc, ← List.replicate_add, Nat.add_comm 1 k]

/-- The bookkeeping after `k` completed steps, whatever the surroundings do. -/
theorem completedSteps_Advanced (pow : K → K → K) (cf : CostFunction ε K) (obs : Observer K)
    (spaceDimension : Nat) :
    ∀ (k : Nat) (s x : Optimizer K), s.m_Stop = false →
      completedSteps pow cf obs spaceDimension k s = some x → Advanced k s x := by
  intro k
  induction k with
  | zero =>
    intro s x hstop hx
    simp only [completedSteps, Option.some.injEq] at hx
    subst hx
    exact Advanced_zero s hstop
  | succ k ih =>
    intro s x hstop hx
    rw [completedSteps] at hx
    rcases whileBody_cases pow cf obs spaceDimension s hstop with
      ⟨_, _, _, _, hb⟩ | ⟨_, _, _, _, hb⟩ | ⟨_, _, _, hb⟩ | ⟨_, _, _, hb⟩ |
      ⟨_, _, _, _, hb⟩ | ⟨_, _, _, _, _, hb⟩ |
      ⟨_, _, _, _, _, _, _, hb⟩ | ⟨_, _, _, _, _, _, _, _, hb⟩ |
      ⟨value, gradient, position, _, _, _, _, _, hb⟩
    all_goals rw [hb] at hx
    · cases hx
    · cases hx
    · cases hx
    · cases hx
    · cases hx
    · cases hx
    · cases hx
    · cases hx
    · have h₁ : Advanced 1 s (completedPass pow s value gradient position) :=
        Advanced_succ pow 0 s s value gradient position (Advanced_zero s hstop)
      exact Advanced_step k s _ x h₁ (ih _ x hstop hx)

/-- Every run of the loop entered with the stop flag clear is a chain of completed steps
followed by one pass that leaves the loop. -/
theorem whileLoop_decompose (pow : K → K → K) (cf : CostFunction ε K) (obs : Observer K)
    (spaceDimension : Nat) :
    ∀ (n : Nat) (s : Optimizer K), s.m_NumberOfIterations - s.m_CurrentIteration = n →
      s.m_Stop = false →
      ∃ k x o, completedSteps pow cf obs spaceDimension k s = some x ∧ Advanced k s x ∧
        whileBody pow cf obs spaceDimension x = LoopStep.leave o ∧
        whileLoop pow cf obs spaceDimension s = o := by
  intro n
  induction n using Nat.strong_induction_on with
  | _ n ih =>
    intro s hn hstop
    cases hbody : whileBody pow cf obs spaceDimension s with
    | leave o =>
      exact ⟨0, s, o, rfl, Advanced_zero s hstop, hbody,
        whileLoop_of_leave pow cf obs spaceDimension s o hstop hbody⟩
    | next y =>
      have hdec := whileBody_next pow cf obs spaceDimension s y hbody
      have hy : y.m_Stop = false :=
        ((whileBody_stop_condition pow cf obs spaceDimension s hstop).1 y hbody).2.2
      obtain ⟨k, x, o, hx, -, hleave, hrun⟩ :=
        ih (y.m_NumberOfIterations - y.m_CurrentIteration) (by omega) y rfl hy
      have hx' : completedSteps pow cf obs spaceDimension (k + 1) s = some x := by
        rw [completedSteps, hbody]
        exact hx
      refine ⟨k + 1, x, o, hx', completedSteps_Advanced pow cf obs spaceDimension (k + 1) s x
        hstop hx', hleave, ?_⟩
      rw [whileLoop_of_next pow cf obs spaceDimension s y hstop hbody]
      exact hrun

end AnyPass

/-! ## The claims on the loop -/

section LoopClaims

variable {ε K : Type} [Field K]

theorem ResumeOptimization_eq (pow : K → K → K) (cf : CostFunction ε K) (obs : Observer K)
    (spaceDimension : Nat) (s : Optimizer K)
    (hN : cf.GetNumberOfParameters = Except.ok spaceDimension) :
    ResumeOptimization pow cf obs s
      = whileLoop pow cf obs spaceDimension (loopEntry obs spaceDimension s) := by
  unfold ResumeOptimization
  dsimp only
  rw [hN]
  rfl

theorem StartOptimization_eq (pow : K → K → K) (cf : CostFunction ε K) (obs : Observer K)
    (spaceDimension : Nat) (s : Optimizer K)
    (hN : cf.GetNumberOfParameters = Except.ok spaceDimension) :
    StandardStochasticGradientOptimizer.StartOptimization pow cf obs s
      = ResumeOptimization pow cf obs (startEntry s) := by
  unfold StandardStochasticGradientOptimizer.StartOptimization
    GradientDescentOptimizer2.StartOptimization
  dsimp only
  rw [hN]
  rfl

/-- The loop entry when no observer of `StartEvent` calls `StopOptimization`. -/
theorem loopEntry_quiet (obs : Observer K) (spaceDimension : Nat) (s : Optimizer K)
    (hq : ∀ x, obs.onStartEvent x = false) :
    loopEntry obs spaceDimension s =
      { s with
        m_Stop := false
        events := s.events ++ [Event.StartEvent]
        m_Gradient := List.replicate spaceDimension 0 } := by
  unfold loopEntry InvokeStartEvent
  dsimp only
  rw [hq]
  rfl

/-- Where the update step is defined, a run of `StartOptimization` with an iteration limit
`n ≥ 1` in which every evaluation succeeds and nobody calls `StopOptimization` returns with
`m_CurrentIteration = n`, `m_CurrentTime = m_InitialTime + n` and the stop condition
`MaximumNumberOfIterations`. The initial position and the gradients have as many entries as
the cost function has parameters, and in the OpenMP and Eigen branch every segment is valid. -/
theorem start_runs_to_the_limit (pow : K → K → K) (cf : CostFunction ε K) (obs : Observer K)
    (spaceDimension : Nat) (s : Optimizer K)
    (hn : 1 ≤ s.m_NumberOfIterations)
    (hN : cf.GetNumberOfParameters = Except.ok spaceDimension)
    (hp0 : s.m_InitialPosition.length = spaceDimension)
    (hok : ∀ i p, ∃ value gradient,
      cf.GetValueAndDerivative i p = Except.ok (value, gradient) ∧
      gradient.length = spaceDimension)
    (hquiet : ∀ x, obs.onStartEvent x = false ∧ obs.onIterationEvent x = false ∧
      obs.duringEvaluation x = false)
    (hv : SegmentsValid obs spaceDimension s) :
    ∃ s', StandardStochasticGradientOptimizer.StartOptimization pow cf obs s
        = Outcome.returned s' ∧
      s'.m_CurrentIteration = s.m_NumberOfIterations ∧
      s'.m_CurrentTime = s.m_InitialTime + (s.m_NumberOfIterations : K) ∧
      s'.m_StopCondition = StopConditionType.MaximumNumberOfIterations ∧
      s'.m_Stop = true := by
  rw [StartOptimization_eq pow cf obs spaceDimension s hN,
    ResumeOptimization_eq pow cf obs spaceDimension _ hN,
    loopEntry_quiet obs spaceDimension _ (fun x => (hquiet x).1)]
  obtain ⟨x, value, gradient, position, -, hadv, -, -, hrun⟩ :=
    whileLoop_to_limit pow cf obs spaceDimension (fun _ _ => True)
      { startEntry s with
        m_Stop := false
        events := (startEntry s).events ++ [Event.StartEvent]
        m_Gradient := List.replicate spaceDimension 0 }
      rfl (SegmentsValid_congr obs spaceDimension s _ rfl hv) hp0 trivial
      (fun i y _ _ _ _ => ⟨(hquiet y).2.2, by
        obtain ⟨value, gradient, hev, hlen⟩ := hok y.evaluations y.m_ScaledCurrentPosition
        exact ⟨value, gradient, hev, hlen, fun position _ => ⟨(hquiet _).2.1, trivial⟩⟩⟩)
  refine ⟨_, hrun, ?_, ?_, rfl, rfl⟩
  · show x.m_CurrentIteration + 1 = _
    rw [hadv.2.1]
    show 0 + (s.m_NumberOfIterations - (0 + 1)) + 1 = _
    omega
  · show x.m_CurrentTime + 1 = _
    rw [hadv.2.2.1]
    show s.m_InitialTime + ((s.m_NumberOfIterations - (0 + 1) : Nat) : K) + 1 = _
    rw [add_assoc]
    congr 1
    have : s.m_NumberOfIterations - (0 + 1) + 1 = s.m_NumberOfIterations := by omega
    rw [← Nat.cast_add_one, this]

/-- The first pass of the loop of `affineOptimizer n` (twelve parameters, eight threads, the
OpenMP and Eigen branch, every thread running its own iteration) has no defined update step:
thread 7 asks for the segment of length `-2` at offset 14. -/
theorem whileLoop_affine_aborts (pow : K → K → K) (n : Nat) (s : Optimizer K)
    (hstop : s.m_Stop = false) (hcfg : configuration s = configuration (affineOptimizer n)) :
    whileLoop pow (constantCostFunction 12 (List.replicate 12 1) : CostFunction String K)
      quietObserver 12 s = Outcome.aborted := by
  have hc := hcfg
  simp only [configuration, Prod.mk.injEq] at hc
  obtain ⟨-, hthreads, hmt, homp, heig, -⟩ := hc
  apply whileLoop_of_leave pow _ _ 12 s _ hstop
  apply whileBody_of_undefined pow _ _ 12 s 0 (List.replicate 12 1) hstop rfl rfl
  apply advancePosition_of_invalid_segment quietObserver 12
    (evaluated pow s 0 (List.replicate 12 1)) hmt homp heig 7
  · show 7 < s.m_NumberOfThreads
    rw [hthreads]
    show 7 < 8
    decide
  · show 12 < 7 * ((12 + s.m_NumberOfThreads - 1) / s.m_NumberOfThreads)
    rw [hthreads]
    show 12 < 7 * ((12 + 8 - 1) / 8)
    decide

/-- C3 fails in the OpenMP and Eigen branch. For a cost function of twelve parameters and eight
threads, with the iteration limit 5, the initial time 0 and an initial position of twelve zeros,
when every evaluation returns a gradient of twelve ones and nobody calls `StopOptimization`,
the first update step of `StartOptimization` asks thread 7 for the segment of length `-2` at
offset 14: the run does not return with 5 iterations, it ends in `Outcome.aborted`. -/
theorem C3_start_aborts_in_the_openmp_eigen_branch :
    1 ≤ (affineOptimizer 5 : Optimizer ℝ).m_NumberOfIterations ∧
    (affineOptimizer 5 : Optimizer ℝ).m_InitialPosition.length = 12 ∧
    (∀ i p, (constantCostFunction 12 (List.replicate 12 1)
        : CostFunction String ℝ).GetValueAndDerivative i p
      = Except.ok (0, List.replicate 12 1)) ∧
    ¬ segmentValid 12 (ompJmin 12 8 7) (ompJmax 12 8 7 - ompJmin 12 8 7) ∧
    StandardStochasticGradientOptimizer.StartOptimization (fun x y : ℝ => x ^ y)
      (constantCostFunction 12 (List.replicate 12 1)) quietObserver (affineOptimizer 5)
      = Outcome.aborted := by
  refine ⟨by decide, by simp [affineOptimizer], fun _ _ => rfl, by decide, ?_⟩
  rw [StartOptimization_eq _ _ _ 12 _ rfl, ResumeOptimization_eq _ _ _ 12 _ rfl,
    loopEntry_quiet _ 12 _ (fun _ => rfl)]
  exact whileLoop_affine_aborts _ 5 _ rfl rfl

/-- A run of the loop in which nobody calls `StopOptimization`, the first `m` evaluations
succeed and the next one throws an `itk::ExceptionObject`: `m` steps are completed and the
exception leaves the loop through `MetricErrorResponse`. -/
theorem whileLoop_metric_error (pow : K → K → K) (cf : CostFunction ε K) (obs : Observer K)
    (spaceDimension : Nat) (s : Optimizer K) (m : Nat) (derived : Bool) (what : ε)
    (hstop : s.m_Stop = false) (hv : SegmentsValid obs spaceDimension s)
    (hp : s.m_ScaledCurrentPosition.length = spaceDimension)
    (hm : s.m_CurrentIteration + m < s.m_NumberOfIterations)
    (hquiet : ∀ x, obs.onIterationEvent x = false ∧ obs.duringEvaluation x = false)
    (hsucc : ∀ i p, i < m → ∃ value gradient,
      cf.GetValueAndDerivative (s.evaluations + i) p = Except.ok (value, gradient) ∧
      gradient.length = spaceDimension)
    (hfail : ∀ p, cf.GetValueAndDerivative (s.evaluations + m) p
      = Except.error (Thrown.ExceptionObject derived what)) :
    ∃ x, completedSteps pow cf obs spaceDimension m s = some x ∧ Advanced m s x ∧
      whileLoop pow cf obs spaceDimension s
        = Outcome.thrown (Thrown.ExceptionObject false what) (StopOptimization
          { x with
            evaluations := x.evaluations + 1
            m_StopCondition := StopConditionType.MetricError }) := by
  obtain ⟨x, hx, hadv, -, -, hloop⟩ := quiet_passes pow cf obs spaceDimension (fun _ _ => True)
    s hstop hv hp trivial m (by omega)
    (fun i y hi _ hy _ => ⟨(hquiet y).2, by
      obtain ⟨value, gradient, hev, hlen⟩ := hsucc i y.m_ScaledCurrentPosition hi
      rw [← hy.2.2.2.1] at hev
      exact ⟨value, gradient, hev, hlen, fun position _ => ⟨(hquiet _).1, trivial⟩⟩⟩)
  refine ⟨x, hx, hadv, ?_⟩
  rw [hloop]
  apply whileLoop_of_leave pow cf obs spaceDimension x _ hadv.2.2.2.2.2.1
  have hev := hfail x.m_ScaledCurrentPosition
  rw [← hadv.2.2.2.1] at hev
  rw [whileBody_of_error pow cf obs spaceDimension x derived what hev (hquiet x).2]
  rfl

/-- A run of the loop in which nobody calls `StopOptimization`, the first `m` evaluations
succeed and the next one throws something that is not an `itk::ExceptionObject`: the handler
does not catch it, and it leaves the loop with the stop flag clear, the stop condition as it
was and no `EndEvent`. -/
theorem whileLoop_uncaught (pow : K → K → K) (cf : CostFunction ε K) (obs : Observer K)
    (spaceDimension : Nat) (s : Optimizer K) (m : Nat) (what : ε)
    (hstop : s.m_Stop = false) (hv : SegmentsValid obs spaceDimension s)
    (hp : s.m_ScaledCurrentPosition.length = spaceDimension)
    (hm : s.m_CurrentIteration + m < s.m_NumberOfIterations)
    (hquiet : ∀ x, obs.onIterationEvent x = false ∧ obs.duringEvaluation x = false)
    (hsucc : ∀ i p, i < m → ∃ value gradient,
      cf.GetValueAndDerivative (s.evaluations + i) p = Except.ok (value, gradient) ∧
      gradient.length = spaceDimension)
    (hfail : ∀ p, cf.GetValueAndDerivative (s.evaluations + m) p
      = Except.error (Thrown.other what)) :
    ∃ x, completedSteps pow cf obs spaceDimension m s = some x ∧ Advanced m s x ∧
      whileLoop pow cf obs spaceDimension s
        = Outcome.thrown (Thrown.other what) { x with evaluations := x.evaluations + 1 } := by
  obtain ⟨x, hx, hadv, -, -, hloop⟩ := quiet_passes pow cf obs spaceDimension (fun _ _ => True)
    s hstop hv hp trivial m (by omega)
    (fun i y hi _ hy _ => ⟨(hquiet y).2, by
      obtain ⟨value, gradient, hev, hlen⟩ := hsucc i y.m_ScaledCurrentPosition hi
      rw [← hy.2.2.2.1] at hev
      exact ⟨value, gradient, hev, hlen, fun position _ => ⟨(hquiet _).1, trivial⟩⟩⟩)
  refine ⟨x, hx, hadv, ?_⟩
  rw [hloop]
  apply whileLoop_of_leave pow cf obs spaceDimension x _ hadv.2.2.2.2.2.1
  have hev := hfail x.m_ScaledCurrentPosition
  rw [← hadv.2.2.2.1] at hev
  exact whileBody_of_uncaught pow cf obs spaceDimension x what hev (hquiet x).2

/-- C4, as the code has it: when nobody calls `StopOptimization`, the first `m` evaluations of a
run succeed and evaluation `m + 1` throws an `itk::ExceptionObject` (or an object of a class
derived from it) with the description `what`, with `m` below the iteration limit, then
`StartOptimization` throws to its caller an `itk::ExceptionObject` with that description, the
copy made by `throw err` of the base part of the original, and leaves the stop flag set, the stop
condition `MetricError` and `m_CurrentIteration = m`; the position and the time are those
reached after the `m` completed steps, the time being `m_InitialTime + m`. The same holds for
`ResumeOptimization`, which counts the `m` steps from the iteration and the time it starts
with. The cost function is set, the position the run starts from and the gradients have as many
entries as the cost function has parameters, and in the OpenMP and Eigen branch every segment
is valid. -/
theorem C4_metric_error_stops_the_run (pow : K → K → K) (cf : CostFunction ε K)
    (obs : Observer K) (spaceDimension : Nat) (s : Optimizer K) (m : Nat) (derived : Bool)
    (what : ε)
    (hm : m < s.m_NumberOfIterations)
    (hN : cf.GetNumberOfParameters = Except.ok spaceDimension)
    (hquiet : ∀ x, obs.onStartEvent x = false ∧ obs.onIterationEvent x = false ∧
      obs.duringEvaluation x = false)
    (hv : SegmentsValid obs spaceDimension s)
    (hsucc : ∀ i p, i < m → ∃ value gradient,
      cf.GetValueAndDerivative (s.evaluations + i) p = Except.ok (value, gradient) ∧
      gradient.length = spaceDimension)
    (hfail : ∀ p, cf.GetValueAndDerivative (s.evaluations + m) p
      = Except.error (Thrown.ExceptionObject derived what)) :
    (s.m_InitialPosition.length = spaceDimension →
      ∃ x s', completedSteps pow cf obs spaceDimension m
          (loopEntry obs spaceDimension (startEntry s)) = some x ∧
        StandardStochasticGradientOptimizer.StartOptimization pow cf obs s
          = Outcome.thrown (Thrown.ExceptionObject false what) s' ∧
        s'.m_Stop = true ∧ s'.m_StopCondition = StopConditionType.MetricError ∧
        s'.m_CurrentIteration = m ∧
        s'.m_ScaledCurrentPosition = x.m_ScaledCurrentPosition ∧
        s'.m_CurrentTime = x.m_CurrentTime ∧
        x.m_CurrentIteration = m ∧ x.m_CurrentTime = s.m_InitialTime + (m : K) ∧
        s'.evaluations = s.evaluations + m + 1) ∧
    (s.m_ScaledCurrentPosition.length = spaceDimension →
      s.m_CurrentIteration + m < s.m_NumberOfIterations →
      ∃ x s', completedSteps pow cf obs spaceDimension m
          (loopEntry obs spaceDimension s) = some x ∧
        ResumeOptimization pow cf obs s
          = Outcome.thrown (Thrown.ExceptionObject false what) s' ∧
        s'.m_Stop = true ∧ s'.m_StopCondition = StopConditionType.MetricError ∧
        s'.m_CurrentIteration = s.m_CurrentIteration + m ∧
        s'.m_ScaledCurrentPosition = x.m_ScaledCurrentPosition ∧
        s'.m_CurrentTime = x.m_CurrentTime ∧
        x.m_CurrentIteration = s.m_CurrentIteration + m ∧
        x.m_CurrentTime = s.m_CurrentTime + (m : K) ∧
        s'.evaluations = s.evaluations + m + 1) := by
  have hq : ∀ x, obs.onIterationEvent x = false ∧ obs.duringEvaluation x = false :=
    fun x => (hquiet x).2
  constructor
  · intro hp0
    rw [StartOptimization_eq pow cf obs spaceDimension s hN,
      ResumeOptimization_eq pow cf obs spaceDimension _ hN,
      loopEntry_quiet obs spaceDimension _ (fun x => (hquiet x).1)]
    obtain ⟨x, hx, hadv, hrun⟩ := whileLoop_metric_error pow cf obs spaceDimension
      { startEntry s with
        m_Stop := false
        events := (startEntry s).events ++ [Event.StartEvent]
        m_Gradient := List.replicate spaceDimension 0 } m derived what rfl
      (SegmentsValid_congr obs spaceDimension s _ rfl hv) hp0
      (by show 0 + m < s.m_NumberOfIterations; omega) hq hsucc hfail
    refine ⟨x, _, hx, hrun, rfl, rfl, ?_, rfl, rfl, ?_, ?_, ?_⟩
    · show x.m_CurrentIteration = m
      rw [hadv.2.1]
      show 0 + m = m
      omega
    · rw [hadv.2.1]
      show 0 + m = m
      omega
    · rw [hadv.2.2.1]
      rfl
    · show x.evaluations + 1 = _
      rw [hadv.2.2.2.1]
      rfl
  · intro hp hm'
    rw [ResumeOptimization_eq pow cf obs spaceDimension _ hN,
      loopEntry_quiet obs spaceDimension _ (fun x => (hquiet x).1)]
    obtain ⟨x, hx, hadv, hrun⟩ := whileLoop_metric_error pow cf obs spaceDimension
      { s with
        m_Stop := false
        events := s.events ++ [Event.StartEvent]
        m_Gradient := List.replicate spaceDimension 0 } m derived what rfl
      (SegmentsValid_congr obs spaceDimension s _ rfl hv) hp hm' hq hsucc hfail
    refine ⟨x, _, hx, hrun, rfl, rfl, ?_, rfl, rfl, ?_, ?_, ?_⟩
    · show x.m_CurrentIteration = _
      rw [hadv.2.1]
    · rw [hadv.2.1]
    · rw [hadv.2.2.1]
    · show x.evaluations + 1 = _
      rw [hadv.2.2.2.1]

/-- C4 in the scenario of the specification, for an optimizer with the iteration limit 10 and
the position `[0, 0, 0]` whose cost function of three parameters throws an
`itk::ExceptionObject` on its third evaluation: two steps are completed and the run, begun by
`StartOptimization` or by `ResumeOptimization`, ends with `m_CurrentIteration = 2`. -/
theorem C4_metric_error_stops_the_run_witness :
    2 < (startEntry (scenarioOptimizer 10) : Optimizer ℝ).m_NumberOfIterations ∧
    (startEntry (scenarioOptimizer 10) : Optimizer ℝ).m_InitialPosition.length = 3 ∧
    (startEntry (scenarioOptimizer 10) : Optimizer ℝ).m_ScaledCurrentPosition.length = 3 ∧
    (∃ x s', completedSteps (fun x y : ℝ => x ^ y)
          (failingCostFunction 3 [1, 1, 1] 2 (Thrown.ExceptionObject true "metric failed"))
          quietObserver 3 2
          (loopEntry quietObserver 3 (startEntry (startEntry (scenarioOptimizer 10))))
          = some x ∧
        StandardStochasticGradientOptimizer.StartOptimization (fun x y : ℝ => x ^ y)
          (failingCostFunction 3 [1, 1, 1] 2 (Thrown.ExceptionObject true "metric failed"))
          quietObserver (startEntry (scenarioOptimizer 10))
          = Outcome.thrown (Thrown.ExceptionObject false "metric failed") s' ∧
        s'.m_Stop = true ∧ s'.m_StopCondition = StopConditionType.MetricError ∧
        s'.m_CurrentIteration = 2 ∧
        s'.m_ScaledCurrentPosition = x.m_ScaledCurrentPosition ∧
        s'.m_CurrentTime = x.m_CurrentTime ∧
        x.m_CurrentIteration = 2 ∧ x.m_CurrentTime = 0 + ((2 : ℕ) : ℝ) ∧
        s'.evaluations = 0 + 2 + 1) ∧
    (∃ x s', completedSteps (fun x y : ℝ => x ^ y)
          (failingCostFunction 3 [1, 1, 1] 2 (Thrown.ExceptionObject true "metric failed"))
          quietObserver 3 2
          (loopEntry quietObserver 3 (startEntry (scenarioOptimizer 10))) = some x ∧
        ResumeOptimization (fun x y : ℝ => x ^ y)
          (failingCostFunction 3 [1, 1, 1] 2 (Thrown.ExceptionObject true "metric failed"))
          quietObserver (startEntry (scenarioOptimizer 10))
          = Outcome.thrown (Thrown.ExceptionObject false "metric failed") s' ∧
        s'.m_Stop = true ∧ s'.m_StopCondition = StopConditionType.MetricError ∧
        s'.m_CurrentIteration = 0 + 2 ∧
        s'.m_ScaledCurrentPosition = x.m_ScaledCurrentPosition ∧
        s'.m_CurrentTime = x.m_CurrentTime ∧
        x.m_CurrentIteration = 0 + 2 ∧
        x.m_CurrentTime = 0 + ((2 : ℕ) : ℝ) ∧
        s'.evaluations = 0 + 2 + 1) :=
  ⟨by decide, rfl, rfl,
    (C4_metric_error_stops_the_run (fun x y : ℝ => x ^ y)
      (failingCostFunction 3 [1, 1, 1] 2 (Thrown.ExceptionObject true "metric failed"))
      quietObserver 3 (startEntry (scenarioOptimizer 10)) 2 true "metric failed" (by decide) rfl
      (fun _ => ⟨rfl, rfl, rfl⟩) (fun h => by cases h)
      (fun i _ hi => ⟨0, [1, 1, 1], by
        show (if 0 + i = 2 then _ else _) = _
        rw [if_neg (by omega)], rfl⟩)
      (fun _ => rfl)).1 rfl,
    (C4_metric_error_stops_the_run (fun x y : ℝ => x ^ y)
      (failingCostFunction 3 [1, 1, 1] 2 (Thrown.ExceptionObject true "metric failed"))
      quietObserver 3 (startEntry (scenarioOptimizer 10)) 2 true "metric failed" (by decide) rfl
      (fun _ => ⟨rfl, rfl, rfl⟩) (fun h => by cases h)
      (fun i _ hi => ⟨0, [1, 1, 1], by
        show (if 0 + i = 2 then _ else _) = _
        rw [if_neg (by omega)], rfl⟩)
      (fun _ => rfl)).2 rfl (by decide)⟩

/-- C4 as stated fails twice. When the third evaluation throws something that is not an
`itk::ExceptionObject`, the handler of `ResumeOptimization` does not catch it: the exception
reaches the caller of `StartOptimization` with the stop flag clear, the stop condition still the
constructor's `MaximumNumberOfIterations` and no `EndEvent`. And when it throws an object of a
class derived from `itk::ExceptionObject`, what the caller receives is not that object but a
copy of its base part. -/
theorem C4_counterexample :
    (∃ s', StandardStochasticGradientOptimizer.StartOptimization (fun x y : ℝ => x ^ y)
        (failingCostFunction 3 [1, 1, 1] 2 (Thrown.other "bad_alloc")) quietObserver
        (scenarioOptimizer 10) = Outcome.thrown (Thrown.other "bad_alloc") s' ∧
      s'.m_CurrentIteration = 2 ∧ s'.m_Stop = false ∧
      s'.m_StopCondition ≠ StopConditionType.MetricError ∧
      Event.EndEvent ∉ s'.events) ∧
    (∃ s', StandardStochasticGradientOptimizer.StartOptimization (fun x y : ℝ => x ^ y)
        (failingCostFunction 3 [1, 1, 1] 2 (Thrown.ExceptionObject true "metric failed"))
        quietObserver (scenarioOptimizer 10)
        = Outcome.thrown (Thrown.ExceptionObject false "metric failed") s' ∧
      (Thrown.ExceptionObject false "metric failed" : Thrown String)
        ≠ Thrown.ExceptionObject true "metric failed") := by
  constructor
  · rw [StartOptimization_eq _ _ _ 3 _ rfl, ResumeOptimization_eq _ _ _ 3 _ rfl,
      loopEntry_quiet _ 3 _ (fun _ => rfl)]
    obtain ⟨x, -, hadv, hrun⟩ := whileLoop_uncaught (fun x y : ℝ => x ^ y)
      (failingCostFunction 3 [1, 1, 1] 2 (Thrown.other "bad_alloc")) quietObserver 3
      { startEntry (scenarioOptimizer 10) with
        m_Stop := false
        events := (startEntry (scenarioOptimizer 10) : Optimizer ℝ).events ++ [Event.StartEvent]
        m_Gradient := List.replicate 3 0 } 2 "bad_alloc" rfl (fun h => by cases h) rfl
      (by show 0 + 2 < 10; decide) (fun _ => ⟨rfl, rfl⟩)
      (fun i _ hi => ⟨0, [1, 1, 1], by
        show (if 0 + i = 2 then _ else _) = _
        rw [if_neg (by omega)], rfl⟩)
      (fun _ => rfl)
    refine ⟨_, hrun, hadv.2.1, hadv.2.2.2.2.2.1, ?_, ?_⟩
    · show x.m_StopCondition ≠ _
      rw [hadv.2.2.2.2.2.2.1]
      decide
    · show Event.EndEvent ∉ x.events
      rw [hadv.2.2.2.2.1]
      decide
  · obtain ⟨x, hx, hadv, hrun⟩ := whileLoop_metric_error (fun x y : ℝ => x ^ y)
      (failingCostFunction 3 [1, 1, 1] 2 (Thrown.ExceptionObject true "metric failed"))
      quietObserver 3
      { startEntry (scenarioOptimizer 10) with
        m_Stop := false
        events := (startEntry (scenarioOptimizer 10) : Optimizer ℝ).events ++ [Event.StartEvent]
        m_Gradient := List.replicate 3 0 } 2 true "metric failed" rfl (fun h => by cases h) rfl
      (by show 0 + 2 < 10; decide) (fun _ => ⟨rfl, rfl⟩)
      (fun i _ hi => ⟨0, [1, 1, 1], by
        show (if 0 + i = 2 then _ else _) = _
        rw [if_neg (by omega)], rfl⟩)
      (fun _ => rfl)
    rw [StartOptimization_eq _ _ _ 3 _ rfl, ResumeOptimization_eq _ _ _ 3 _ rfl,
      loopEntry_quiet _ 3 _ (fun _ => rfl)]
    exact ⟨_, hrun, fun h => by cases h⟩

theorem iterationsNotified_of_Advanced (k : Nat) (s x : Optimizer K) (h : Advanced k s x) :
    iterationsNotified x = iterationsNotified s + k := by
  unfold iterationsNotified
  rw [h.2.2.2.2.1, List.count_append, List.count_replicate_self]

/-- A run of the loop in which every evaluation succeeds undisturbed and the observers call
`StopOptimization` from the callback of the `j`-th update and from no other: the loop is left at
the check that follows that update, before the iteration counter is incremented. -/
theorem whileLoop_stop_in_callback (pow : K → K → K) (cf : CostFunction ε K) (obs : Observer K)
    (spaceDimension : Nat) (s : Optimizer K) (j : Nat)
    (hstop : s.m_Stop = false) (hv : SegmentsValid obs spaceDimension s)
    (hp : s.m_ScaledCurrentPosition.length = spaceDimension)
    (hj : 1 ≤ j) (hjmax : s.m_CurrentIteration + j ≤ s.m_NumberOfIterations)
    (hde : ∀ x, obs.duringEvaluation x = false)
    (hit : ∀ x, obs.onIterationEvent x
      = decide (iterationsNotified x = iterationsNotified s + j))
    (hok : ∀ i p, ∃ value gradient,
      cf.GetValueAndDerivative i p = Except.ok (value, gradient) ∧
      gradient.length = spaceDimension) :
    ∃ x value gradient position,
      completedSteps pow cf obs spaceDimension (j - 1) s = some x ∧ Advanced (j - 1) s x ∧
      whileLoop pow cf obs spaceDimension s = Outcome.returned
        (UpdateCurrentTime (RequestStop (notified pow x value gradient position))) := by
  have hcount : ∀ (i : Nat) (x : Optimizer K) (value : K) (gradient position : List K),
      Advanced i s x →
      iterationsNotified (notified pow x value gradient position)
        = iterationsNotified s + (i + 1) := by
    intro i x value gradient position hx
    have h1 := iterationsNotified_of_Advanced i s x hx
    unfold iterationsNotified at h1 ⊢
    show List.count Event.IterationEvent (x.events ++ [Event.IterationEvent]) = _
    rw [List.count_append, h1]
    simp only [List.count_singleton, beq_self_eq_true, if_true]
    omega
  obtain ⟨x, hx, hadv, -, hxlen, hloop⟩ := quiet_passes pow cf obs spaceDimension
    (fun _ _ => True) s hstop hv hp trivial (j - 1) (by omega)
    (fun i y hi _ hy _ => ⟨hde y, by
      obtain ⟨value, gradient, hev, hlen⟩ := hok y.evaluations y.m_ScaledCurrentPosition
      refine ⟨value, gradient, hev, hlen, fun position _ => ⟨?_, trivial⟩⟩
      rw [hit, hcount i y value gradient position hy]
      exact decide_eq_false (by omega)⟩)
  obtain ⟨value, gradient, hev, hlen⟩ := hok x.evaluations x.m_ScaledCurrentPosition
  have hcfg : configuration (evaluated pow x value gradient) = configuration s := hadv.1
  obtain ⟨position, hpos, -⟩ := advancePosition_isSome obs spaceDimension
    (evaluated pow x value gradient) hxlen hlen
    (SegmentsValid_congr obs spaceDimension s _ hcfg hv)
  have hbody := whileBody_of_ok pow cf obs spaceDimension x value gradient position
    hadv.2.2.2.2.2.1 hev (hde x) hpos
  rw [if_pos (by
    rw [hit, hcount (j - 1) x value gradient position hadv]
    exact decide_eq_true (by omega))] at hbody
  refine ⟨x, value, gradient, position, hx, hadv, ?_⟩
  rw [hloop]
  exact whileLoop_of_leave pow cf obs spaceDimension x _ hadv.2.2.2.2.2.1 hbody

/-- The run of `StartOptimization` when `StopOptimization` is called from the callback of the
`j`-th update and every evaluation succeeds. -/
theorem start_stop_in_callback (pow : K → K → K) (cf : CostFunction ε K) (obs : Observer K)
    (spaceDimension : Nat) (s : Optimizer K) (j : Nat)
    (hj : 1 ≤ j) (hjmax : j ≤ s.m_NumberOfIterations)
    (hN : cf.GetNumberOfParameters = Except.ok spaceDimension)
    (hp0 : s.m_InitialPosition.length = spaceDimension)
    (hv : SegmentsValid obs spaceDimension s)
    (hstart : ∀ x, obs.onStartEvent x = false)
    (hde : ∀ x, obs.duringEvaluation x = false)
    (hit : ∀ x, obs.onIterationEvent x
      = decide (iterationsNotified x = iterationsNotified s + j))
    (hok : ∀ i p, ∃ value gradient,
      cf.GetValueAndDerivative i p = Except.ok (value, gradient) ∧
      gradient.length = spaceDimension) :
    ∃ s', StandardStochasticGradientOptimizer.StartOptimization pow cf obs s
        = Outcome.returned s' ∧
      s'.m_CurrentIteration = j - 1 ∧
      s'.evaluations = s.evaluations + j ∧
      iterationsNotified s' = iterationsNotified s + j ∧
      s'.m_CurrentTime = s.m_InitialTime + (j : K) ∧
      s'.m_Stop = true ∧
      s'.m_StopCondition = s.m_StopCondition ∧
      s'.stopRequests = s.stopRequests + 1 := by
  rw [StartOptimization_eq pow cf obs spaceDimension s hN,
    ResumeOptimization_eq pow cf obs spaceDimension _ hN,
    loopEntry_quiet obs spaceDimension _ hstart]
  have hentry : iterationsNotified
      ({ startEntry s with
        m_Stop := false
        events := (startEntry s).events ++ [Event.StartEvent]
        m_Gradient := List.replicate spaceDimension 0 } : Optimizer K)
      = iterationsNotified s := by
    show List.count Event.IterationEvent (s.events ++ [Event.StartEvent]) = _
    rw [List.count_append]
    rfl
  obtain ⟨x, value, gradient, position, -, hadv, hrun⟩ :=
    whileLoop_stop_in_callback pow cf obs spaceDimension
      { startEntry s with
        m_Stop := false
        events := (startEntry s).events ++ [Event.StartEvent]
        m_Gradient := List.replicate spaceDimension 0 } j rfl
      (SegmentsValid_congr obs spaceDimension s _ rfl hv) hp0 hj
      (by show 0 + j ≤ s.m_NumberOfIterations; omega) hde
      (by rw [hentry]; exact hit) hok
  refine ⟨_, hrun, ?_, ?_, ?_, ?_, rfl, ?_, ?_⟩
  · show x.m_CurrentIteration = _
    rw [hadv.2.1]
    show 0 + (j - 1) = j - 1
    omega
  · show x.evaluations + 1 = _
    rw [hadv.2.2.2.1]
    show s.evaluations + (j - 1) + 1 = _
    omega
  · show List.count Event.IterationEvent (x.events ++ [Event.IterationEvent] ++ [Event.EndEvent])
      = _
    have h1 := iterationsNotified_of_Advanced (j - 1) _ x hadv
    rw [hentry] at h1
    unfold iterationsNotified at h1 ⊢
    rw [List.count_append, List.count_append, h1]
    simp only [List.count_singleton, beq_self_eq_true, if_true]
    show _ + 1 + 0 = _
    omega
  · show x.m_CurrentTime + 1 = _
    rw [hadv.2.2.1]
    show s.m_InitialTime + ((j - 1 : Nat) : K) + 1 = _
    rw [add_assoc, ← Nat.cast_add_one]
    congr 2
    omega
  · show x.m_StopCondition = _
    rw [hadv.2.2.2.2.2.2.1]
    rfl
  · show x.stopRequests + 1 = _
    rw [hadv.2.2.2.2.2.2.2]
    rfl

/-- C5, as the code has it: with an iteration limit of at least 2 and `1 ≤ j` below the limit,
when every evaluation succeeds and `StopOptimization` is called from the callback of the `j`-th
update (and at no other moment), `StartOptimization` returns after exactly `j` evaluations and
`j` updates, and with `m_CurrentIteration = j - 1`: the check that follows the update comes
before the increment of the counter. The time has advanced `j` times. The cost function is set,
the initial position and the gradients have as many entries as the cost function has
parameters, and in the OpenMP and Eigen branch every segment is valid. -/
theorem C5_stop_in_iteration_callback (pow : K → K → K) (cf : CostFunction ε K)
    (obs : Observer K) (spaceDimension : Nat) (s : Optimizer K) (j : Nat)
    (hmax : 2 ≤ s.m_NumberOfIterations) (hj : 1 ≤ j) (hjmax : j < s.m_NumberOfIterations)
    (hN : cf.GetNumberOfParameters = Except.ok spaceDimension)
    (hp0 : s.m_InitialPosition.length = spaceDimension)
    (hv : SegmentsValid obs spaceDimension s)
    (hstart : ∀ x, obs.onStartEvent x = false)
    (hde : ∀ x, obs.duringEvaluation x = false)
    (hit : ∀ x, obs.onIterationEvent x
      = decide (iterationsNotified x = iterationsNotified s + j))
    (hok : ∀ i p, ∃ value gradient,
      cf.GetValueAndDerivative i p = Except.ok (value, gradient) ∧
      gradient.length = spaceDimension) :
    ∃ s', StandardStochasticGradientOptimizer.StartOptimization pow cf obs s
        = Outcome.returned s' ∧
      s'.m_CurrentIteration = j - 1 ∧
      s'.evaluations = s.evaluations + j ∧
      iterationsNotified s' = iterationsNotified s + j ∧
      s'.m_CurrentTime = s.m_InitialTime + (j : K) ∧
      s'.m_Stop = true := by
  have _ := hmax
  obtain ⟨s', h1, h2, h3, h4, h5, h6, -⟩ := start_stop_in_callback pow cf obs spaceDimension s j
    hj (le_of_lt hjmax) hN hp0 hv hstart hde hit hok
  exact ⟨s', h1, h2, h3, h4, h5, h6⟩

/-- C5 in the scenario of the specification: the iteration limit 10, the initial position
`[0, 0, 0]`, a cost function of three parameters and a stop requested in the callback of the
first update. -/
theorem C5_stop_in_iteration_callback_witness :
    2 ≤ (scenarioOptimizer 10 : Optimizer ℝ).m_NumberOfIterations
    ∧ 1 ≤ 1 ∧
    1 < (scenarioOptimizer 10 : Optimizer ℝ).m_NumberOfIterations
    ∧ ∃ s', StandardStochasticGradientOptimizer.StartOptimization (fun x y : ℝ => x ^ y)
        (constantCostFunction 3 [1, 1, 1]) (stopAtIteration 1)
        (scenarioOptimizer 10) = Outcome.returned s' ∧
      s'.m_CurrentIteration = 1 - 1 ∧
      s'.evaluations = 0 + 1 ∧
      iterationsNotified s' = 0 + 1 ∧
      s'.m_CurrentTime = 0 + ((1 : ℕ) : ℝ) ∧
      s'.m_Stop = true :=
  ⟨by decide, by decide, by decide, C5_stop_in_iteration_callback (fun x y : ℝ => x ^ y)
    (constantCostFunction 3 [1, 1, 1]) (stopAtIteration 1) 3
    (scenarioOptimizer 10) 1 (by decide) (by decide)
    (by decide) rfl rfl (fun h => by cases h) (fun _ => rfl) (fun _ => rfl) (fun _ => rfl)
    (fun _ _ => ⟨_, _, rfl, rfl⟩)⟩

/-- C5 as stated fails: with the iteration limit 10, the initial position `[0, 0, 0]`, a cost
function of three parameters and a stop requested in the callback of the first update, the run
ends with `m_CurrentIteration = 0`, not `1`. -/
theorem C5_counterexample :
    ∃ s', StandardStochasticGradientOptimizer.StartOptimization (fun x y : ℝ => x ^ y)
        (constantCostFunction 3 [1, 1, 1]) (stopAtIteration 1)
        (scenarioOptimizer 10) = Outcome.returned s' ∧
      s'.evaluations = 1 ∧ iterationsNotified s' = 1 ∧
      s'.m_CurrentIteration = 0 ∧ s'.m_CurrentIteration ≠ 1 := by
  obtain ⟨s', h1, h2, h3, h4, -⟩ := start_stop_in_callback (fun x y : ℝ => x ^ y)
    (constantCostFunction 3 [1, 1, 1]) (stopAtIteration 1) 3
    (scenarioOptimizer 10) 1 (by decide) (by decide)
    rfl rfl (fun h => by cases h) (fun _ => rfl) (fun _ => rfl) (fun _ => rfl)
    (fun _ _ => ⟨_, _, rfl, rfl⟩)
  refine ⟨s', h1, h3, h4, h2, ?_⟩
  rw [h2]
  decide

/-- Over a run of `ResumeOptimization` that returns: either no outside call of
`StopOptimization` was made, or the stop condition is the one the run began with. -/
theorem resume_stop_condition (pow : K → K → K) (cf : CostFunction ε K) (obs : Observer K)
    (s s' : Optimizer K) (hrun : ResumeOptimization pow cf obs s = Outcome.returned s') :
    s'.stopRequests = s.stopRequests ∨ s'.m_StopCondition = s.m_StopCondition := by
  cases hN : cf.GetNumberOfParameters with
  | error err =>
    unfold ResumeOptimization at hrun
    dsimp only at hrun
    rw [hN] at hrun
    cases hrun
  | ok spaceDimension =>
    rw [ResumeOptimization_eq pow cf obs spaceDimension s hN] at hrun
    cases hstart : obs.onStartEvent
      { s with m_Stop := false, events := s.events ++ [Event.StartEvent] } with
    | true =>
      have hentry : loopEntry obs spaceDimension s =
          { RequestStop { s with m_Stop := false, events := s.events ++ [Event.StartEvent] } with
            m_Gradient := List.replicate spaceDimension 0 } := by
        unfold loopEntry InvokeStartEvent
        dsimp only
        rw [hstart]
        rfl
      rw [hentry, whileLoop_of_stop pow cf obs spaceDimension _ rfl] at hrun
      cases hrun
      exact Or.inr rfl
    | false =>
      have hentry : loopEntry obs spaceDimension s =
          { s with
            m_Stop := false
            events := s.events ++ [Event.StartEvent]
            m_Gradient := List.replicate spaceDimension 0 } := by
        unfold loopEntry InvokeStartEvent
        dsimp only
        rw [hstart]
        rfl
      rw [hentry] at hrun
      have h := whileLoop_stop_condition pow cf obs spaceDimension _ _ s' rfl hrun
      exact h

/-- C6, as the code has it: when a run of `ResumeOptimization` or of `StartOptimization` returns
and an outside call of `StopOptimization` was made during it (so that the run was ended by that
request), the stop condition at the end is the one the optimizer had before the run:
`StopOptimization` does not assign `m_StopCondition`, and no manual-stop reason is ever
assigned. -/
theorem C6_stop_request_keeps_stop_condition (pow : K → K → K) (cf : CostFunction ε K)
    (obs : Observer K) (s s' : Optimizer K)
    (hrun : ResumeOptimization pow cf obs s = Outcome.returned s' ∨
      StandardStochasticGradientOptimizer.StartOptimization pow cf obs s = Outcome.returned s')
    (hreq : s'.stopRequests ≠ s.stopRequests) :
    s'.m_StopCondition = s.m_StopCondition := by
  rcases hrun with hrun | hrun
  · rcases resume_stop_condition pow cf obs s s' hrun with h | h
    · exact absurd h hreq
    · exact h
  · cases hN : cf.GetNumberOfParameters with
    | error err =>
      unfold StandardStochasticGradientOptimizer.StartOptimization
        GradientDescentOptimizer2.StartOptimization at hrun
      dsimp only at hrun
      rw [hN] at hrun
      cases hrun
    | ok spaceDimension =>
      rw [StartOptimization_eq pow cf obs spaceDimension s hN] at hrun
      rcases resume_stop_condition pow cf obs (startEntry s) s' hrun with h | h
      · exact absurd h hreq
      · exact h

/-- C6 in the scenario of the specification: an optimizer with the iteration limit 10 and a cost
function of three parameters, initialised to the position `[0, 0, 0]`, is run with a stop
requested in the callback of the first update. The run returns after one outside call of
`StopOptimization`, and the stop condition is still the `MaximumNumberOfIterations` the
constructor had set. -/
theorem C6_stop_request_keeps_stop_condition_witness :
    ∃ s', (ResumeOptimization (fun x y : ℝ => x ^ y)
          (constantCostFunction 3 [1, 1, 1]) (stopAtIteration 1)
          (startEntry (scenarioOptimizer 10)) = Outcome.returned s' ∨
        StandardStochasticGradientOptimizer.StartOptimization (fun x y : ℝ => x ^ y)
          (constantCostFunction 3 [1, 1, 1]) (stopAtIteration 1)
          (startEntry (scenarioOptimizer 10)) = Outcome.returned s') ∧
      s'.stopRequests
        ≠ (startEntry (scenarioOptimizer 10) : Optimizer ℝ).stopRequests ∧
      s'.m_StopCondition
        = (startEntry (scenarioOptimizer 10) : Optimizer ℝ).m_StopCondition
    := by
  obtain ⟨s', h1, -, -, -, -, -, -, h8⟩ := start_stop_in_callback (fun x y : ℝ => x ^ y)
    (constantCostFunction 3 [1, 1, 1]) (stopAtIteration 1) 3
    (scenarioOptimizer 10) 1 (by decide) (by decide)
    rfl rfl (fun h => by cases h) (fun _ => rfl) (fun _ => rfl) (fun _ => rfl)
    (fun _ _ => ⟨_, _, rfl, rfl⟩)
  rw [StartOptimization_eq _ _ _ 3 _ rfl] at h1
  have hreq : s'.stopRequests
      ≠ (startEntry (scenarioOptimizer 10) : Optimizer ℝ).stopRequests := by
    rw [h8]
    exact Nat.succ_ne_self _
  exact ⟨s', Or.inl h1, hreq, C6_stop_request_keeps_stop_condition (fun x y : ℝ => x ^ y)
    (constantCostFunction 3 [1, 1, 1]) (stopAtIteration 1)
    (startEntry (scenarioOptimizer 10)) s' (Or.inl h1) hreq⟩

/-- C6 as stated fails: with the iteration limit 10, the initial position `[0, 0, 0]` and a cost
function of three parameters, a run ended by a stop requested in the callback of the first
update returns with the stop condition `MaximumNumberOfIterations`, not `ManualStop`. -/
theorem C6_counterexample :
    ∃ s', StandardStochasticGradientOptimizer.StartOptimization (fun x y : ℝ => x ^ y)
        (constantCostFunction 3 [1, 1, 1]) (stopAtIteration 1)
        (scenarioOptimizer 10) = Outcome.returned s' ∧
      s'.stopRequests = 1 ∧ s'.m_Stop = true ∧
      s'.m_StopCondition = StopConditionType.MaximumNumberOfIterations ∧
      s'.m_StopCondition ≠ StopConditionType.ManualStop := by
  obtain ⟨s', h1, -, -, -, -, h6, h7, h8⟩ := start_stop_in_callback (fun x y : ℝ => x ^ y)
    (constantCostFunction 3 [1, 1, 1]) (stopAtIteration 1) 3
    (scenarioOptimizer 10) 1 (by decide) (by decide)
    rfl rfl (fun h => by cases h) (fun _ => rfl) (fun _ => rfl) (fun _ => rfl)
    (fun _ _ => ⟨_, _, rfl, rfl⟩)
  refine ⟨s', h1, h8, h6, h7, ?_⟩
  rw [h7]
  decide


theorem closedFormPosition_length (pow : K → K → K) (s : Optimizer K) (g : Nat → List K)
    (n : Nat) : (closedFormPosition pow s g n).length = s.m_InitialPosition.length := by
  simp [closedFormPosition]

theorem closedFormPosition_getD (pow : K → K → K) (s : Optimizer K) (g : Nat → List K)
    (n i : Nat) (hi : i < s.m_InitialPosition.length) :
    (closedFormPosition pow s g n).getD i 0 = s.m_InitialPosition.getD i 0
      - ∑ j in Finset.range n, Compute_a pow s (s.m_InitialTime + (j : K)) * (g j).getD i 0 := by
  have h : i < (closedFormPosition pow s g n).length := by
    rw [closedFormPosition_length]; exact hi
  rw [List.getD_eq_getElem _ 0 h]
  simp [closedFormPosition]

theorem closedFormPosition_zero (pow : K → K → K) (s : Optimizer K) (g : Nat → List K) :
    closedFormPosition pow s g 0 = s.m_InitialPosition := by
  apply list_eq_of_getD
  · rw [closedFormPosition_length]
  · intro i hi
    rw [closedFormPosition_length] at hi
    rw [closedFormPosition_getD pow s g 0 i hi]
    simp

theorem closedFormPosition_succ (pow : K → K → K) (s : Optimizer K) (g : Nat → List K)
    (n : Nat) (hg : (g n).length = s.m_InitialPosition.length) :
    steppedPosition (Compute_a pow s (s.m_InitialTime + (n : K)))
        (closedFormPosition pow s g n) (g n)
      = closedFormPosition pow s g (n + 1) := by
  apply list_eq_of_getD
  · rw [steppedPosition_length, closedFormPosition_length, closedFormPosition_length]
  · intro i hi
    rw [steppedPosition_length, closedFormPosition_length] at hi
    rw [steppedPosition_getD _ _ _ _ (by rw [closedFormPosition_length]; exact hi),
      closedFormPosition_getD pow s g n i hi, closedFormPosition_getD pow s g (n + 1) i hi,
      Finset.sum_range_succ]
    have _ := hg
    ring

/-- Where the update step does what the sequential loop does: with identity scaling, when nobody
calls `StopOptimization` and the `j`-th evaluation of a run of `StartOptimization` with
iteration limit `n ≥ 1` returns the gradient `g j` (at the position reached by then), the run
returns with the position whose entry `i` is `m_InitialPosition[i]` minus the sum over `j < n`
of `Compute_a (m_InitialTime + j) * (g j)[i]`; the position after `k < n` completed steps is
given by the same formula with `k` for `n`. The arrays have the length the cost function
reports and there is at least one thread; in the OpenMP and Eigen branch every segment is valid
and thread `t` runs iteration `t`; in the threader branch the bounds do not wrap around. -/
theorem position_after_n_steps (pow : K → K → K) (cf : CostFunction ε K)
    (obs : Observer K) (spaceDimension : Nat) (s : Optimizer K) (g : Nat → List K)
    (hn : 1 ≤ s.m_NumberOfIterations)
    (hN : cf.GetNumberOfParameters = Except.ok spaceDimension)
    (hquiet : ∀ x, obs.onStartEvent x = false ∧ obs.onIterationEvent x = false ∧
      obs.duringEvaluation x = false)
    (hv : SegmentsValid obs spaceDimension s) (hteam : FullTeam obs s)
    (hwrap : NoWrapAround spaceDimension s) (hthreads : 1 ≤ s.m_NumberOfThreads)
    (hp0 : s.m_InitialPosition.length = spaceDimension)
    (hg : ∀ j, j < s.m_NumberOfIterations → (g j).length = spaceDimension)
    (hev : ∀ j, j < s.m_NumberOfIterations → ∃ value,
      cf.GetValueAndDerivative (s.evaluations + j) (closedFormPosition pow s g j)
        = Except.ok (value, g j)) :
    (∃ s', StandardStochasticGradientOptimizer.StartOptimization pow cf obs s
        = Outcome.returned s' ∧
      s'.m_ScaledCurrentPosition.length = spaceDimension ∧
      ∀ i, i < spaceDimension → s'.m_ScaledCurrentPosition.getD i 0
        = s.m_InitialPosition.getD i 0
          - ∑ j in Finset.range s.m_NumberOfIterations,
              Compute_a pow s (s.m_InitialTime + (j : K)) * (g j).getD i 0) ∧
    (∀ k, k < s.m_NumberOfIterations →
      ∃ x, completedSteps pow cf obs spaceDimension k
          (loopEntry obs spaceDimension (startEntry s)) = some x ∧
        x.m_ScaledCurrentPosition.length = spaceDimension ∧
        ∀ i, i < spaceDimension → x.m_ScaledCurrentPosition.getD i 0
          = s.m_InitialPosition.getD i 0
            - ∑ j in Finset.range k,
                Compute_a pow s (s.m_InitialTime + (j : K)) * (g j).getD i 0) := by
  rw [StartOptimization_eq pow cf obs spaceDimension s hN,
    ResumeOptimization_eq pow cf obs spaceDimension _ hN,
    loopEntry_quiet obs spaceDimension _ (fun x => (hquiet x).1)]
  have hyp : ∀ i x, i ≤ s.m_NumberOfIterations - (0 + 1) →
      Advanced i
        ({ startEntry s with
          m_Stop := false
          events := (startEntry s).events ++ [Event.StartEvent]
          m_Gradient := List.replicate spaceDimension 0 } : Optimizer K) x →
      x.m_ScaledCurrentPosition = closedFormPosition pow s g i →
      obs.duringEvaluation x = false ∧
      ∃ value gradient,
        cf.GetValueAndDerivative x.evaluations x.m_ScaledCurrentPosition
          = Except.ok (value, gradient) ∧
        gradient.length = spaceDimension ∧
        ∀ position,
          advancePosition obs spaceDimension (evaluated pow x value gradient) = some position →
          obs.onIterationEvent (notified pow x value gradient position) = false ∧
          (completedPass pow x value gradient position).m_ScaledCurrentPosition
            = closedFormPosition pow s g (i + 1) := by
    intro i x hi hadv hpos
    refine ⟨(hquiet x).2.2, ?_⟩
    obtain ⟨value, hvalue⟩ := hev i (by omega)
    refine ⟨value, g i, ?_, hg i (by omega), fun position hposition => ⟨(hquiet _).2.1, ?_⟩⟩
    · rw [hadv.2.2.2.1, hpos]
      exact hvalue
    · have hcfg : configuration (evaluated pow x value (g i)) = configuration s := hadv.1
      have hthreads' : 1 ≤ (evaluated pow x value (g i)).m_NumberOfThreads := by
        have := hadv.1
        simp only [configuration, Prod.mk.injEq] at this
        show 1 ≤ x.m_NumberOfThreads
        rw [this.2.1]
        exact hthreads
      have hc := hadv.1
      simp only [configuration, Prod.mk.injEq] at hc
      have hteam' : FullTeam obs (evaluated pow x value (g i)) := by
        intro hmt homp heig u hu
        have hmt' : x.m_UseMultiThread = true := hmt
        have homp' : x.m_UseOpenMP = true := homp
        have heig' : x.m_UseEigen = true := heig
        have hu' : u < x.m_NumberOfThreads := hu
        rw [hc.2.2.1] at hmt'
        rw [hc.2.2.2.1] at homp'
        rw [hc.2.2.2.2.1] at heig'
        rw [hc.2.1] at hu'
        exact hteam hmt' homp' heig' u hu'
      have hwrap' : NoWrapAround spaceDimension (evaluated pow x value (g i)) := by
        intro hmt homp heig
        have hmt' : x.m_UseMultiThread = true := hmt
        have homp' : x.m_UseOpenMP = false := homp
        have heig' : x.m_UseEigen = false := heig
        rw [hc.2.2.1] at hmt'
        rw [hc.2.2.2.1] at homp'
        rw [hc.2.2.2.2.1] at heig'
        show x.m_NumberOfThreads * threadSubSize spaceDimension x.m_NumberOfThreads < 2 ^ 32
        rw [hc.2.1]
        exact hwrap hmt' homp' heig'
      have heq := advancePosition_eq obs spaceDimension (evaluated pow x value (g i))
        (by
          show x.m_ScaledCurrentPosition.length = spaceDimension
          rw [hpos, closedFormPosition_length, hp0])
        (hg i (by omega)) hthreads'
        (SegmentsValid_congr obs spaceDimension s _ hcfg hv) hteam' hwrap'
      rw [heq] at hposition
      cases hposition
      show steppedPosition (Compute_a pow x x.m_CurrentTime) x.m_ScaledCurrentPosition (g i) = _
      rw [Compute_a_congr pow s x hadv.1, hadv.2.2.1, hpos]
      exact closedFormPosition_succ pow s g i (by rw [hg i (by omega), hp0])
  have hentry : ({ startEntry s with
      m_Stop := false
      events := (startEntry s).events ++ [Event.StartEvent]
      m_Gradient := List.replicate spaceDimension 0 } : Optimizer K).m_ScaledCurrentPosition
      = closedFormPosition pow s g 0 := by
    rw [closedFormPosition_zero]
    rfl
  have hformula : ∀ (k : Nat) (position : List K), position = closedFormPosition pow s g k →
      position.length = spaceDimension ∧
      ∀ i, i < spaceDimension → position.getD i 0 = s.m_InitialPosition.getD i 0
        - ∑ j in Finset.range k,
            Compute_a pow s (s.m_InitialTime + (j : K)) * (g j).getD i 0 := by
    intro k position hposition
    subst hposition
    refine ⟨by rw [closedFormPosition_length, hp0], fun i hi => ?_⟩
    exact closedFormPosition_getD pow s g k i (by rw [hp0]; exact hi)
  constructor
  · obtain ⟨x, value, gradient, position, -, -, hfinal, -, hrun⟩ :=
      whileLoop_to_limit pow cf obs spaceDimension
        (fun i x => x.m_ScaledCurrentPosition = closedFormPosition pow s g i)
        { startEntry s with
          m_Stop := false
          events := (startEntry s).events ++ [Event.StartEvent]
          m_Gradient := List.replicate spaceDimension 0 }
        rfl (SegmentsValid_congr obs spaceDimension s _ rfl hv) hp0 hentry
        (fun i y hi _ hy hP => hyp i y hi hy hP)
    have hlast : s.m_NumberOfIterations - (0 + 1) + 1 = s.m_NumberOfIterations := by omega
    refine ⟨_, hrun, ?_⟩
    have hfinal' : (completedPass pow x value gradient position).m_ScaledCurrentPosition
        = closedFormPosition pow s g s.m_NumberOfIterations := by
      rw [← hlast]
      exact hfinal
    exact hformula _ _ hfinal'
  · intro k hk
    obtain ⟨x, hx, -, hP, -, -⟩ :=
      quiet_passes pow cf obs spaceDimension
        (fun i x => x.m_ScaledCurrentPosition = closedFormPosition pow s g i)
        { startEntry s with
          m_Stop := false
          events := (startEntry s).events ++ [Event.StartEvent]
          m_Gradient := List.replicate spaceDimension 0 }
        rfl (SegmentsValid_congr obs spaceDimension s _ rfl hv) hp0 hentry k
        (by show k ≤ s.m_NumberOfIterations - (0 + 1); omega)
        (fun i y hi _ hy hP => hyp i y (by omega) hy hP)
    exact ⟨x, hx, hformula k _ hP⟩

/-- The scenario of the specification, where the update step is the sequential loop: from
`[0, 0, 0]` with the constant gradient `[1, 1, 1]` and the constant rate 1, the position is
`[-1, -1, -1]` after one step and `[-2, -2, -2]` after two. -/
theorem position_after_n_steps_scenario :
    (∃ s', StandardStochasticGradientOptimizer.StartOptimization (fun x y : ℝ => x ^ y)
        (constantCostFunction 3 [1, 1, 1]) quietObserver (scenarioOptimizer 2)
        = Outcome.returned s' ∧
      s'.m_ScaledCurrentPosition = [-2, -2, -2]) ∧
    (∃ x, completedSteps (fun x y : ℝ => x ^ y) (constantCostFunction 3 [1, 1, 1])
        quietObserver 3 1 (loopEntry quietObserver 3 (startEntry (scenarioOptimizer 2)))
        = some x ∧
      x.m_ScaledCurrentPosition = [-1, -1, -1]) := by
  obtain ⟨⟨s', hrun, hlen, hget⟩, hsteps⟩ := position_after_n_steps (fun x y : ℝ => x ^ y)
    (constantCostFunction 3 [1, 1, 1]) quietObserver 3 (scenarioOptimizer 2)
    (fun _ => [1, 1, 1]) (by decide) rfl (fun _ => ⟨rfl, rfl, rfl⟩) (fun h => by cases h)
    (fun h => by cases h) (fun h => by cases h)
    (by decide) rfl (fun _ _ => rfl) (fun _ _ => ⟨0, rfl⟩)
  obtain ⟨x, hx, hxlen, hxget⟩ := hsteps 1 (by decide)
  have hrate : ∀ k : ℝ, Compute_a (fun x y : ℝ => x ^ y) (scenarioOptimizer 2) k = 1 := by
    intro k
    simp [Compute_a, scenarioOptimizer]
  refine ⟨⟨s', hrun, ?_⟩, ⟨x, hx, ?_⟩⟩
  · apply list_eq_of_getD _ [-2, -2, -2] hlen
    intro i hi
    rw [hlen] at hi
    rw [hget i hi]
    simp only [hrate, Finset.sum_range_succ, Finset.sum_range_zero]
    interval_cases i <;> simp [scenarioOptimizer, Constructor]
  · apply list_eq_of_getD _ [-1, -1, -1] hxlen
    intro i hi
    rw [hxlen] at hi
    rw [hxget i hi]
    simp only [hrate, Finset.sum_range_succ, Finset.sum_range_zero]
    interval_cases i <;> simp [scenarioOptimizer, Constructor]

/-- C8 fails in the OpenMP and Eigen branch. For a cost function of twelve parameters and eight
threads, from twelve zeros with the constant gradient of twelve ones and the constant rate 1:
when the OpenMP runtime gives a team of one thread, every one of the eight iterations of the
parallel loop steps chunk 0, and the position after the one step of a run with iteration limit
1 is `[-8, -8, 0, ..., 0]`, where the closed form gives twelve times `-1`; and when each of
eight threads runs its own iteration, thread 7 asks for the segment of length `-2` at offset 14
and the run has no position at all. -/
theorem C8_openmp_eigen_branch_misses_the_closed_form :
    SegmentsValid singleThreadTeam 12 (affineOptimizer 1 : Optimizer ℝ) ∧
    (∃ s', StandardStochasticGradientOptimizer.StartOptimization (fun x y : ℝ => x ^ y)
        (constantCostFunction 12 (List.replicate 12 1)) singleThreadTeam (affineOptimizer 1)
        = Outcome.returned s' ∧
      s'.m_ScaledCurrentPosition = [-8, -8, 0, 0, 0, 0, 0, 0, 0, 0, 0, 0]) ∧
    closedFormPosition (fun x y : ℝ => x ^ y) (affineOptimizer 1)
      (fun _ => List.replicate 12 1) 1 = List.replicate 12 (-1) ∧
    StandardStochasticGradientOptimizer.StartOptimization (fun x y : ℝ => x ^ y)
      (constantCostFunction 12 (List.replicate 12 1)) quietObserver (affineOptimizer 1)
      = Outcome.aborted := by
  have hrate : ∀ (s : Optimizer ℝ) (k : ℝ), s.m_Param_a = 1 → s.m_Param_alpha = 0 →
      Compute_a (fun x y : ℝ => x ^ y) s k = 1 := by
    intro s k ha halpha
    simp [Compute_a, ha, halpha]
  refine ⟨?_, ?_, ?_, ?_⟩
  · intro _ _ _ i _
    show segmentValid 12 (ompJmin 12 8 0) (ompJmax 12 8 0 - ompJmin 12 8 0)
    decide
  · rw [StartOptimization_eq _ _ _ 12 _ rfl, ResumeOptimization_eq _ _ _ 12 _ rfl,
      loopEntry_quiet _ 12 _ (fun _ => rfl)]
    obtain ⟨r, hr, hlen, hget⟩ := foldl_ompEigenBody_one_thread 12 8 (1 : ℝ)
      (List.replicate 12 1) (List.replicate 12 0) (by simp) (by simp) 8
    have hadv : advancePosition singleThreadTeam 12
        (evaluated (fun x y : ℝ => x ^ y)
          ({ startEntry (affineOptimizer 1) with
            m_Stop := false
            events := (startEntry (affineOptimizer 1) : Optimizer ℝ).events ++ [Event.StartEvent]
            m_Gradient := List.replicate 12 0 } : Optimizer ℝ) 0 (List.replicate 12 1))
        = some r := by
      have hlr : (evaluated (fun x y : ℝ => x ^ y)
          ({ startEntry (affineOptimizer 1) with
            m_Stop := false
            events := (startEntry (affineOptimizer 1) : Optimizer ℝ).events ++ [Event.StartEvent]
            m_Gradient := List.replicate 12 0 } : Optimizer ℝ) 0
          (List.replicate 12 1)).m_LearningRate = 1 := hrate _ _ rfl rfl
      rw [advancePosition_openmp_eigen singleThreadTeam 12 _ rfl rfl rfl]
      unfold ompParallelChunks
      rw [hlr]
      exact hr
    have hbody := whileBody_of_ok (fun x y : ℝ => x ^ y)
      (constantCostFunction 12 (List.replicate 12 1)) singleThreadTeam 12 _ 0
      (List.replicate 12 1) r rfl rfl rfl hadv
    rw [if_neg (by intro h; cases h), if_pos (by show 0 + 1 ≥ 1; decide)] at hbody
    refine ⟨_, whileLoop_of_leave _ _ _ 12 _ _ rfl hbody, ?_⟩
    show r = _
    apply list_eq_of_getD _ _ (by rw [hlen]; rfl)
    intro i hi
    rw [hlen] at hi
    rw [hget i]
    interval_cases i <;> norm_num
  · apply list_eq_of_getD
    · rw [closedFormPosition_length]
      simp [affineOptimizer]
    · intro i hi
      rw [closedFormPosition_length] at hi
      rw [closedFormPosition_getD _ _ _ _ _ hi, Finset.sum_range_one, hrate _ _ rfl rfl]
      have hi' : i < 12 := by simpa [affineOptimizer] using hi
      interval_cases i <;> simp [affineOptimizer, Constructor]
  · rw [StartOptimization_eq _ _ _ 12 _ rfl, ResumeOptimization_eq _ _ _ 12 _ rfl,
      loopEntry_quiet _ 12 _ (fun _ => rfl)]
    exact whileLoop_affine_aborts _ 1 _ rfl rfl

end LoopClaims

/-! ## The claims on the step size -/

section ScheduleClaims

/-- The decay law over the reals, for the default schedule and any other with `a > 0`,
`alpha > 0` and `A ≥ 0`: the step size strictly decreases along `k ≥ 0`. -/
theorem Compute_a_strictly_decreasing (s : Optimizer ℝ) (ha : 0 < s.m_Param_a)
    (halpha : 0 < s.m_Param_alpha) (hA : 0 ≤ s.m_Param_A) (k₁ k₂ : ℝ) (hk₁ : 0 ≤ k₁)
    (hk : k₁ < k₂) :
    Compute_a (fun x y : ℝ => x ^ y) s k₂ < Compute_a (fun x y : ℝ => x ^ y) s k₁ := by
  unfold Compute_a
  have hb₁ : 0 < s.m_Param_A + k₁ + 1 := by linarith
  have hpow : (s.m_Param_A + k₁ + 1) ^ s.m_Param_alpha
      < (s.m_Param_A + k₂ + 1) ^ s.m_Param_alpha :=
    Real.rpow_lt_rpow (le_of_lt hb₁) (by linarith) halpha
  have hpos : 0 < (s.m_Param_A + k₁ + 1) ^ s.m_Param_alpha := Real.rpow_pos_of_pos hb₁ _
  exact div_lt_div_of_pos_left ha hpos hpow

/-- C9, as the code has it: for `a > 0`, `alpha > 0` and `A ≥ 0` the step size
`Compute_a k = a / (A + k + 1) ^ alpha` is strictly decreasing in `k`: for `0 ≤ k₁ < k₂`,
`Compute_a k₂ < Compute_a k₁`. -/
theorem C9_step_size_strictly_decreasing (s : Optimizer ℝ) (ha : 0 < s.m_Param_a)
    (halpha : 0 < s.m_Param_alpha) (hA : 0 ≤ s.m_Param_A) (k₁ k₂ : ℝ) (hk₁ : 0 ≤ k₁)
    (hk : k₁ < k₂) :
    Compute_a (fun x y : ℝ => x ^ y) s k₂ < Compute_a (fun x y : ℝ => x ^ y) s k₁ := by
  show s.m_Param_a / (s.m_Param_A + k₂ + 1) ^ s.m_Param_alpha
    < s.m_Param_a / (s.m_Param_A + k₁ + 1) ^ s.m_Param_alpha
  have hbase : 0 < s.m_Param_A + k₁ + 1 := by linarith
  have hstep : s.m_Param_A + k₁ + 1 < s.m_Param_A + k₂ + 1 := by linarith
  have hden : (s.m_Param_A + k₁ + 1) ^ s.m_Param_alpha
      < (s.m_Param_A + k₂ + 1) ^ s.m_Param_alpha :=
    Real.rpow_lt_rpow (le_of_lt hbase) hstep halpha
  exact div_lt_div_of_pos_left ha (Real.rpow_pos_of_pos hbase _) hden

/-- C9 at `a = 2`, `A = 0`, `alpha = 1` between the times 0 and 1. -/
theorem C9_step_size_strictly_decreasing_witness :
    0 < ({ Constructor false 0 with m_Param_a := 2, m_Param_A := 0, m_Param_alpha := 1 }
      : Optimizer ℝ).m_Param_a ∧
    0 < ({ Constructor false 0 with m_Param_a := 2, m_Param_A := 0, m_Param_alpha := 1 }
      : Optimizer ℝ).m_Param_alpha ∧
    0 ≤ ({ Constructor false 0 with m_Param_a := 2, m_Param_A := 0, m_Param_alpha := 1 }
      : Optimizer ℝ).m_Param_A ∧
    (0 : ℝ) ≤ 0 ∧ (0 : ℝ) < 1 ∧
    Compute_a (fun x y : ℝ => x ^ y)
        { Constructor false 0 with m_Param_a := 2, m_Param_A := 0, m_Param_alpha := 1 } 1
      < Compute_a (fun x y : ℝ => x ^ y)
        { Constructor false 0 with m_Param_a := 2, m_Param_A := 0, m_Param_alpha := 1 } 0 :=
  ⟨by norm_num, by norm_num, by norm_num, le_refl 0, zero_lt_one,
    C9_step_size_strictly_decreasing
      { Constructor false 0 with m_Param_a := 2, m_Param_A := 0, m_Param_alpha := 1 }
      (by norm_num) (by norm_num) (by norm_num) 0 1 (le_refl 0) zero_lt_one⟩

/-- C9 as stated fails: with `a = -1`, `A = 0` and `alpha = 1` the step size is `-1` at time 0
and `-1 / 2` at time 1, so it does not decrease. -/
theorem C9_counterexample :
    0 < ({ Constructor false 0 with m_Param_a := -1, m_Param_A := 0, m_Param_alpha := 1 }
      : Optimizer ℝ).m_Param_alpha ∧
    0 ≤ ({ Constructor false 0 with m_Param_a := -1, m_Param_A := 0, m_Param_alpha := 1 }
      : Optimizer ℝ).m_Param_A ∧
    Compute_a (fun x y : ℝ => x ^ y)
        { Constructor false 0 with m_Param_a := -1, m_Param_A := 0, m_Param_alpha := 1 } 0
      = -1 ∧
    Compute_a (fun x y : ℝ => x ^ y)
        { Constructor false 0 with m_Param_a := -1, m_Param_A := 0, m_Param_alpha := 1 } 1
      = -1 / 2 ∧
    ¬ (Compute_a (fun x y : ℝ => x ^ y)
        { Constructor false 0 with m_Param_a := -1, m_Param_A := 0, m_Param_alpha := 1 } 1
      < Compute_a (fun x y : ℝ => x ^ y)
        { Constructor false 0 with m_Param_a := -1, m_Param_A := 0, m_Param_alpha := 1 } 0) := by
  have h0 : Compute_a (fun x y : ℝ => x ^ y)
      { Constructor false 0 with m_Param_a := -1, m_Param_A := 0, m_Param_alpha := 1 } 0
      = -1 := by
    simp [Compute_a]
  have h1 : Compute_a (fun x y : ℝ => x ^ y)
      { Constructor false 0 with m_Param_a := -1, m_Param_A := 0, m_Param_alpha := 1 } 1
      = -1 / 2 := by
    simp [Compute_a]
    norm_num
  refine ⟨by norm_num, by norm_num, h0, h1, ?_⟩
  rw [h0, h1]
  norm_num

/-- C10: for the optimizer left by the constructor (`a = 1`, `A = 1`, `alpha = 0.602`),
`Compute_a 0 = a / (A + 1) ^ alpha = 1 / 2 ^ 0.602`, and `Compute_a` is strictly decreasing
along `k ≥ 0`. -/
theorem C10_default_schedule (stop : Bool) (beta : ℝ) :
    Compute_a (fun x y : ℝ => x ^ y) (Constructor stop beta) 0
      = (Constructor stop beta).m_Param_a
        / ((Constructor stop beta).m_Param_A + 1) ^ (Constructor stop beta).m_Param_alpha ∧
    Compute_a (fun x y : ℝ => x ^ y) (Constructor stop beta) 0 = 1 / (2 : ℝ) ^ (0.602 : ℝ) ∧
    ∀ k₁ k₂ : ℝ, 0 ≤ k₁ → k₁ < k₂ →
      Compute_a (fun x y : ℝ => x ^ y) (Constructor stop beta) k₂
        < Compute_a (fun x y : ℝ => x ^ y) (Constructor stop beta) k₁ := by
  refine ⟨?_, ?_, fun k₁ k₂ hk₁ hk => ?_⟩
  · simp [Compute_a]
  · simp only [Compute_a, Constructor]
    norm_num
  · exact Compute_a_strictly_decreasing (Constructor stop beta)
      (by simp [Constructor]) (by simp [Constructor]) (by simp [Constructor]) k₁ k₂ hk₁ hk

/-- C10 between the times 0 and 1. -/
theorem C10_default_schedule_witness :
    Compute_a (fun x y : ℝ => x ^ y) (Constructor false 0) 1
      < Compute_a (fun x y : ℝ => x ^ y) (Constructor false 0) 0 :=
  (C10_default_schedule false 0).2.2 0 1 (le_refl 0) zero_lt_one

/-- C11: with `alpha = 0` the schedule is constant: for every `a`, every `A` and every time
`k`, also one with `A + k + 1 ≤ 0`, `Compute_a k = a`. -/
theorem C11_constant_schedule (s : Optimizer ℝ) (halpha : s.m_Param_alpha = 0) (k : ℝ) :
    Compute_a (fun x y : ℝ => x ^ y) s k = s.m_Param_a := by
  show s.m_Param_a / (s.m_Param_A + k + 1) ^ s.m_Param_alpha = s.m_Param_a
  rw [halpha, Real.rpow_zero, div_one]

/-- C11 for `a = 1`, `A = 0`, `alpha = 0` at the time `-5`, where `A + k + 1 = -4`: the rate
is 1. -/
theorem C11_constant_schedule_witness :
    (scenarioOptimizer 2 : Optimizer ℝ).m_Param_alpha = 0 ∧
    Compute_a (fun x y : ℝ => x ^ y) (scenarioOptimizer 2) (-5) = 1 :=
  ⟨rfl, C11_constant_schedule (scenarioOptimizer 2) rfl (-5)⟩

end ScheduleClaims


/-! ## Further claims on the loop -/

section ResumeClaims

variable {ε K : Type} [Field K]

/-- Where the update step is defined, a run of `ResumeOptimization` in which every evaluation
succeeds and nobody calls `StopOptimization`: from the iteration `c` and the limit `n` it makes
`max 1 (n - c)` passes, each with one evaluation and one update, and returns at the iteration
limit. The position and the gradients have as many entries as the cost function has
parameters, and in the OpenMP and Eigen branch every segment is valid. -/
theorem resume_to_limit (pow : K → K → K) (cf : CostFunction ε K) (obs : Observer K)
    (spaceDimension : Nat) (s : Optimizer K)
    (hN : cf.GetNumberOfParameters = Except.ok spaceDimension)
    (hp : s.m_ScaledCurrentPosition.length = spaceDimension)
    (hok : ∀ i p, ∃ value gradient,
      cf.GetValueAndDerivative i p = Except.ok (value, gradient) ∧
      gradient.length = spaceDimension)
    (hquiet : ∀ x, obs.onStartEvent x = false ∧ obs.onIterationEvent x = false ∧
      obs.duringEvaluation x = false)
    (hv : SegmentsValid obs spaceDimension s) :
    ∃ s', ResumeOptimization pow cf obs s = Outcome.returned s' ∧
      configuration s' = configuration s ∧
      s'.m_CurrentIteration = max (s.m_CurrentIteration + 1) s.m_NumberOfIterations ∧
      s'.evaluations
        = s.evaluations + max 1 (s.m_NumberOfIterations - s.m_CurrentIteration) ∧
      iterationsNotified s'
        = iterationsNotified s + max 1 (s.m_NumberOfIterations - s.m_CurrentIteration) ∧
      s'.m_CurrentTime = s.m_CurrentTime
        + ((max 1 (s.m_NumberOfIterations - s.m_CurrentIteration) : Nat) : K) ∧
      s'.m_StopCondition = StopConditionType.MaximumNumberOfIterations ∧
      s'.m_Stop = true ∧ s'.stopRequests = s.stopRequests ∧
      s'.m_ScaledCurrentPosition.length = spaceDimension := by
  rw [ResumeOptimization_eq pow cf obs spaceDimension _ hN,
    loopEntry_quiet obs spaceDimension _ (fun x => (hquiet x).1)]
  obtain ⟨x, value, gradient, position, -, hadv, -, hposlen, hrun⟩ :=
    whileLoop_to_limit pow cf obs spaceDimension (fun _ _ => True)
      { s with
        m_Stop := false
        events := s.events ++ [Event.StartEvent]
        m_Gradient := List.replicate spaceDimension 0 }
      rfl (SegmentsValid_congr obs spaceDimension s _ rfl hv) hp trivial
      (fun i y _ _ _ _ => ⟨(hquiet y).2.2, by
        obtain ⟨value, gradient, hev, hlen⟩ := hok y.evaluations y.m_ScaledCurrentPosition
        exact ⟨value, gradient, hev, hlen, fun position _ => ⟨(hquiet _).2.1, trivial⟩⟩⟩)
  have hpasses : s.m_NumberOfIterations - (s.m_CurrentIteration + 1) + 1
      = max 1 (s.m_NumberOfIterations - s.m_CurrentIteration) := by omega
  obtain ⟨h1, h2, h3, h4, h5, -, -, h8⟩ := hadv
  refine ⟨_, hrun, h1, ?_, ?_, ?_, ?_, rfl, rfl, h8, hposlen⟩
  · show x.m_CurrentIteration + 1 = _
    rw [h2]
    show s.m_CurrentIteration + (s.m_NumberOfIterations - (s.m_CurrentIteration + 1)) + 1 = _
    omega
  · show x.evaluations + 1 = _
    rw [h4]
    show s.evaluations + (s.m_NumberOfIterations - (s.m_CurrentIteration + 1)) + 1 = _
    omega
  · show List.count Event.IterationEvent
      (x.events ++ [Event.IterationEvent] ++ [Event.EndEvent]) = _
    rw [h5]
    show List.count Event.IterationEvent
      (s.events ++ [Event.StartEvent] ++ List.replicate
        (s.m_NumberOfIterations - (s.m_CurrentIteration + 1)) Event.IterationEvent
        ++ [Event.IterationEvent] ++ [Event.EndEvent]) = _
    simp only [List.count_append, List.count_replicate_self, List.count_singleton,
      iterationsNotified]
    rw [← hpasses]
    have e1 : (if (Event.StartEvent == Event.IterationEvent) = true then 1 else 0) = 0 := rfl
    have e2 : (if (Event.EndEvent == Event.IterationEvent) = true then 1 else 0) = 0 := rfl
    have e3 : (if (Event.IterationEvent == Event.IterationEvent) = true then 1 else 0) = 1 :=
      rfl
    rw [e1, e2, e3]
    omega
  · show x.m_CurrentTime + 1 = _
    rw [h3, ← hpasses, Nat.cast_add_one, add_assoc]

/-- Where the update step is defined, `ResumeOptimization` called at the iteration `c` with the
limit `n`, when every evaluation succeeds and nobody calls `StopOptimization`, returns after
exactly `max 1 (n - c)` evaluations and as many update steps, with
`m_CurrentIteration = max (c + 1) n` and the stop condition `MaximumNumberOfIterations`;
`StartOptimization` with the limit 0 still makes one evaluation and one update and ends with
`m_CurrentIteration = 1`. -/
theorem resume_makes_at_least_one_pass (pow : K → K → K) (cf : CostFunction ε K)
    (obs : Observer K) (spaceDimension : Nat) (s : Optimizer K)
    (hN : cf.GetNumberOfParameters = Except.ok spaceDimension)
    (hok : ∀ i p, ∃ value gradient,
      cf.GetValueAndDerivative i p = Except.ok (value, gradient) ∧
      gradient.length = spaceDimension)
    (hquiet : ∀ x, obs.onStartEvent x = false ∧ obs.onIterationEvent x = false ∧
      obs.duringEvaluation x = false)
    (hv : SegmentsValid obs spaceDimension s) :
    (s.m_ScaledCurrentPosition.length = spaceDimension →
      ∃ s', ResumeOptimization pow cf obs s = Outcome.returned s' ∧
        s'.evaluations
          = s.evaluations + max 1 (s.m_NumberOfIterations - s.m_CurrentIteration) ∧
        iterationsNotified s'
          = iterationsNotified s + max 1 (s.m_NumberOfIterations - s.m_CurrentIteration) ∧
        s'.m_CurrentIteration = max (s.m_CurrentIteration + 1) s.m_NumberOfIterations ∧
        s'.m_StopCondition = StopConditionType.MaximumNumberOfIterations) ∧
    (s.m_InitialPosition.length = spaceDimension → s.m_NumberOfIterations = 0 →
      ∃ s', StandardStochasticGradientOptimizer.StartOptimization pow cf obs s
          = Outcome.returned s' ∧
        s'.evaluations = s.evaluations + 1 ∧
        iterationsNotified s' = iterationsNotified s + 1 ∧
        s'.m_CurrentIteration = 1) := by
  constructor
  · intro hp
    obtain ⟨s', hrun, -, hit, hev, hup, -, hcond, -, -, -⟩ :=
      resume_to_limit pow cf obs spaceDimension s hN hp hok hquiet hv
    exact ⟨s', hrun, hev, hup, hit, hcond⟩
  · intro hp0 hzero
    rw [StartOptimization_eq pow cf obs spaceDimension s hN]
    obtain ⟨s', hrun, -, hit, hev, hup, -, -, -, -, -⟩ :=
      resume_to_limit pow cf obs spaceDimension (startEntry s) hN hp0 hok hquiet
        (SegmentsValid_congr obs spaceDimension s _ rfl hv)
    have hmax : (startEntry s).m_NumberOfIterations = 0 := hzero
    have hcur : (startEntry s).m_CurrentIteration = 0 := rfl
    rw [hmax, hcur] at hit hev hup
    exact ⟨s', hrun, hev, hup, hit⟩

/-- C19 fails in the OpenMP and Eigen branch. For a cost function of twelve parameters and eight
threads, with a position of twelve zeros, every evaluation returning a gradient of twelve ones
and nobody calling `StopOptimization`: `ResumeOptimization` called at the iteration 0 with the
limit 5 does not return after five evaluations and updates, and `StartOptimization` with the
limit 0 does not return after one. In the first update step thread 7 asks for the segment of
length `-2` at offset 14, and the run ends in `Outcome.aborted`. -/
theorem C19_resume_aborts_in_the_openmp_eigen_branch :
    (affineOptimizer 5 : Optimizer ℝ).m_ScaledCurrentPosition.length = 12 ∧
    (affineOptimizer 5 : Optimizer ℝ).m_CurrentIteration = 0 ∧
    (affineOptimizer 5 : Optimizer ℝ).m_NumberOfIterations = 5 ∧
    ResumeOptimization (fun x y : ℝ => x ^ y)
      (constantCostFunction 12 (List.replicate 12 1)) quietObserver (affineOptimizer 5)
      = Outcome.aborted ∧
    (affineOptimizer 0 : Optimizer ℝ).m_InitialPosition.length = 12 ∧
    (affineOptimizer 0 : Optimizer ℝ).m_NumberOfIterations = 0 ∧
    StandardStochasticGradientOptimizer.StartOptimization (fun x y : ℝ => x ^ y)
      (constantCostFunction 12 (List.replicate 12 1)) quietObserver (affineOptimizer 0)
      = Outcome.aborted := by
  refine ⟨by simp [affineOptimizer], rfl, rfl, ?_, by simp [affineOptimizer], rfl, ?_⟩
  · rw [ResumeOptimization_eq _ _ _ 12 _ rfl, loopEntry_quiet _ 12 _ (fun _ => rfl)]
    exact whileLoop_affine_aborts _ 5 _ rfl rfl
  · rw [StartOptimization_eq _ _ _ 12 _ rfl, ResumeOptimization_eq _ _ _ 12 _ rfl,
      loopEntry_quiet _ 12 _ (fun _ => rfl)]
    exact whileLoop_affine_aborts _ 0 _ rfl rfl

/-- C13, as the code has it: the stop flag is not terminal. `ResumeOptimization` clears it and
runs the loop again, so called after a run that ended at the iteration limit
(`m_CurrentIteration ≥ m_NumberOfIterations`), with every evaluation succeeding and nobody
calling `StopOptimization`, it makes exactly one more evaluation and one more update, adds one
to `m_CurrentIteration` and to `m_CurrentTime`, and assigns `MaximumNumberOfIterations`. The
cost function is set, the position and the gradients have as many entries as the cost function
has parameters, and in the OpenMP and Eigen branch every segment is valid. -/
theorem C13_resume_after_the_limit_runs_one_more_pass (pow : K → K → K)
    (cf : CostFunction ε K) (obs : Observer K) (spaceDimension : Nat) (s : Optimizer K)
    (hdone : s.m_NumberOfIterations ≤ s.m_CurrentIteration)
    (hN : cf.GetNumberOfParameters = Except.ok spaceDimension)
    (hp : s.m_ScaledCurrentPosition.length = spaceDimension)
    (hok : ∀ i p, ∃ value gradient,
      cf.GetValueAndDerivative i p = Except.ok (value, gradient) ∧
      gradient.length = spaceDimension)
    (hquiet : ∀ x, obs.onStartEvent x = false ∧ obs.onIterationEvent x = false ∧
      obs.duringEvaluation x = false)
    (hv : SegmentsValid obs spaceDimension s) :
    ∃ s', ResumeOptimization pow cf obs s = Outcome.returned s' ∧
      s'.evaluations = s.evaluations + 1 ∧
      iterationsNotified s' = iterationsNotified s + 1 ∧
      s'.m_CurrentIteration = s.m_CurrentIteration + 1 ∧
      s'.m_CurrentTime = s.m_CurrentTime + 1 ∧
      s'.m_StopCondition = StopConditionType.MaximumNumberOfIterations := by
  obtain ⟨s', hrun, -, hit, hev, hup, htime, hcond, -, -, -⟩ :=
    resume_to_limit pow cf obs spaceDimension s hN hp hok hquiet hv
  have hone : max 1 (s.m_NumberOfIterations - s.m_CurrentIteration) = 1 := by omega
  rw [hone] at hev hup htime
  refine ⟨s', hrun, hev, hup, ?_, ?_, hcond⟩
  · rw [hit]
    omega
  · rw [htime, Nat.cast_one]

/-- A run of `StartOptimization` to the iteration limit, followed by `ResumeOptimization`, in
the scenario of the specification with the iteration limit `n ≥ 1`. -/
theorem start_then_resume (n : Nat) (hn : 1 ≤ n) :
    ∃ s₁ s₂ : Optimizer ℝ,
      StandardStochasticGradientOptimizer.StartOptimization (fun x y : ℝ => x ^ y)
        (constantCostFunction 3 [1, 1, 1]) quietObserver (scenarioOptimizer n)
        = Outcome.returned s₁ ∧
      ResumeOptimization (fun x y : ℝ => x ^ y) (constantCostFunction 3 [1, 1, 1])
        quietObserver s₁ = Outcome.returned s₂ ∧
      s₁.m_NumberOfIterations = n ∧
      s₁.m_StopCondition = StopConditionType.MaximumNumberOfIterations ∧ s₁.m_Stop = true ∧
      s₁.m_CurrentIteration = n ∧ s₂.m_CurrentIteration = n + 1 ∧
      s₁.evaluations = n ∧ s₂.evaluations = n + 1 ∧
      s₂.m_CurrentTime = s₁.m_CurrentTime + 1 ∧
      s₁.m_ScaledCurrentPosition.length = 3 ∧
      SegmentsValid quietObserver 3 s₁ := by
  have hok : ∀ (i : Nat) (p : List ℝ), ∃ value gradient,
      (constantCostFunction 3 [1, 1, 1] : CostFunction String ℝ).GetValueAndDerivative i p
        = Except.ok (value, gradient) ∧ gradient.length = 3 := fun _ _ => ⟨_, _, rfl, rfl⟩
  have hquiet : ∀ x : Optimizer ℝ, (quietObserver : Observer ℝ).onStartEvent x = false ∧
      (quietObserver : Observer ℝ).onIterationEvent x = false ∧
      (quietObserver : Observer ℝ).duringEvaluation x = false := fun _ => ⟨rfl, rfl, rfl⟩
  obtain ⟨s₁, hrun₁, hcfg₁, hit₁, hev₁, -, -, hcond₁, hstop₁, -, hlen₁⟩ :=
    resume_to_limit (fun x y : ℝ => x ^ y) (constantCostFunction 3 [1, 1, 1]) quietObserver 3
      (startEntry (scenarioOptimizer n)) rfl rfl hok hquiet (fun h => by cases h)
  have hmax₁ : s₁.m_NumberOfIterations = n := by
    have := hcfg₁
    simp only [configuration, Prod.mk.injEq] at this
    exact this.1
  have hmt₁ : s₁.m_UseMultiThread = false := by
    have := hcfg₁
    simp only [configuration, Prod.mk.injEq] at this
    exact this.2.2.1
  have hit₁' : s₁.m_CurrentIteration = n := by
    rw [hit₁]
    show max (0 + 1) n = n
    omega
  have hev₁' : s₁.evaluations = n := by
    rw [hev₁]
    show 0 + max 1 (n - 0) = n
    omega
  have hv₁ : SegmentsValid quietObserver 3 s₁ := fun h => by rw [hmt₁] at h; cases h
  obtain ⟨s₂, hrun₂, -, hit₂, hev₂, -, htime₂, -, -, -, -⟩ :=
    resume_to_limit (fun x y : ℝ => x ^ y) (constantCostFunction 3 [1, 1, 1]) quietObserver 3
      s₁ rfl hlen₁ hok hquiet hv₁
  have hone : max 1 (s₁.m_NumberOfIterations - s₁.m_CurrentIteration) = 1 := by
    rw [hmax₁, hit₁']
    omega
  rw [hone] at hev₂ htime₂
  refine ⟨s₁, s₂, ?_, hrun₂, hmax₁, hcond₁, hstop₁, hit₁', ?_, hev₁', ?_, ?_, hlen₁, hv₁⟩
  · rw [StartOptimization_eq (fun x y : ℝ => x ^ y) (constantCostFunction 3 [1, 1, 1])
      quietObserver 3 _ rfl]
    exact hrun₁
  · rw [hit₂, hmax₁, hit₁']
    omega
  · rw [hev₂, hev₁']
  · rw [htime₂, Nat.cast_one]

/-- C13 for the optimizer that a run of five iterations leaves, in the scenario of the
specification (position of three entries, cost function of three parameters): the run has
ended by `MaximumNumberOfIterations` with the stop flag set, and resuming it makes a sixth
pass. -/
theorem C13_resume_after_the_limit_runs_one_more_pass_witness :
    ∃ s₁ : Optimizer ℝ,
      StandardStochasticGradientOptimizer.StartOptimization (fun x y : ℝ => x ^ y)
        (constantCostFunction 3 [1, 1, 1]) quietObserver (scenarioOptimizer 5)
        = Outcome.returned s₁ ∧
      s₁.m_Stop = true ∧
      s₁.m_StopCondition = StopConditionType.MaximumNumberOfIterations ∧
      s₁.m_NumberOfIterations ≤ s₁.m_CurrentIteration ∧
      s₁.m_ScaledCurrentPosition.length = 3 ∧
      SegmentsValid quietObserver 3 s₁ ∧
      ∃ s', ResumeOptimization (fun x y : ℝ => x ^ y) (constantCostFunction 3 [1, 1, 1])
          quietObserver s₁ = Outcome.returned s' ∧
        s'.evaluations = s₁.evaluations + 1 ∧
        iterationsNotified s' = iterationsNotified s₁ + 1 ∧
        s'.m_CurrentIteration = s₁.m_CurrentIteration + 1 ∧
        s'.m_CurrentTime = s₁.m_CurrentTime + 1 ∧
        s'.m_StopCondition = StopConditionType.MaximumNumberOfIterations := by
  obtain ⟨s₁, -, h1, -, hmax, hcond, hstop, hit, -, -, -, -, hlen, hv⟩ :=
    start_then_resume 5 (by decide)
  have hdone : s₁.m_NumberOfIterations ≤ s₁.m_CurrentIteration := by
    rw [hmax, hit]
  exact ⟨s₁, h1, hstop, hcond, hdone, hlen, hv,
    C13_resume_after_the_limit_runs_one_more_pass (fun x y : ℝ => x ^ y)
      (constantCostFunction 3 [1, 1, 1]) quietObserver 3 s₁ hdone rfl hlen
      (fun _ _ => ⟨_, _, rfl, rfl⟩) (fun _ => ⟨rfl, rfl, rfl⟩) hv⟩

/-- C13 as stated fails: after a run of five iterations that ended by
`MaximumNumberOfIterations`, a further `ResumeOptimization` makes a sixth evaluation and a
sixth update: the iteration goes from 5 to 6, the number of evaluations from 5 to 6, and the
time advances by one. -/
theorem C13_counterexample :
    ∃ s₁ s₂ : Optimizer ℝ,
      StandardStochasticGradientOptimizer.StartOptimization (fun x y : ℝ => x ^ y)
        (constantCostFunction 3 [1, 1, 1]) quietObserver (scenarioOptimizer 5)
        = Outcome.returned s₁ ∧
      ResumeOptimization (fun x y : ℝ => x ^ y) (constantCostFunction 3 [1, 1, 1])
        quietObserver s₁ = Outcome.returned s₂ ∧
      s₁.m_StopCondition = StopConditionType.MaximumNumberOfIterations ∧ s₁.m_Stop = true ∧
      s₁.m_CurrentIteration = 5 ∧ s₂.m_CurrentIteration = 6 ∧
      s₂.m_CurrentIteration ≠ s₁.m_CurrentIteration ∧
      s₁.evaluations = 5 ∧ s₂.evaluations = 6 ∧
      s₂.m_CurrentTime = s₁.m_CurrentTime + 1 ∧ s₂.m_CurrentTime ≠ s₁.m_CurrentTime := by
  obtain ⟨s₁, s₂, h1, h2, -, h4, h5, h6, h7, h8, h9, h10, -, -⟩ :=
    start_then_resume 5 (by decide)
  refine ⟨s₁, s₂, h1, h2, h4, h5, h6, h7, ?_, h8, h9, h10, ?_⟩
  · rw [h6, h7]
    decide
  · rw [h10]
    intro h
    linarith

/-- C16: `StartOptimization` on an optimizer without cost function throws, to its caller, the
exception with which the request for the number of parameters fails, and goes no further: no
event is delivered, no evaluation and no update is made, the position and the gradient are as
they were. -/
theorem C16_start_without_cost_function (pow : K → K → K) (cf : CostFunction ε K)
    (obs : Observer K) (s : Optimizer K) (err : Thrown ε)
    (hunset : cf.GetNumberOfParameters = Except.error err) :
    ∃ s', StandardStochasticGradientOptimizer.StartOptimization pow cf obs s
        = Outcome.thrown err s' ∧
      s'.events = s.events ∧ s'.evaluations = s.evaluations ∧
      iterationsNotified s' = iterationsNotified s ∧
      s'.m_ScaledCurrentPosition = s.m_ScaledCurrentPosition ∧
      s'.m_Gradient = s.m_Gradient ∧ s'.stopRequests = s.stopRequests := by
  refine ⟨{ s with m_CurrentTime := s.m_InitialTime, m_CurrentIteration := 0 }, ?_,
    rfl, rfl, rfl, rfl, rfl, rfl⟩
  unfold StandardStochasticGradientOptimizer.StartOptimization
    GradientDescentOptimizer2.StartOptimization
  dsimp only
  rw [hunset]

/-- C16 for a fresh optimizer to which no cost function has been set. -/
theorem C16_start_without_cost_function_witness :
    (unsetCostFunction (Thrown.ExceptionObject false "no cost function")
      : CostFunction String ℝ).GetNumberOfParameters
      = Except.error (Thrown.ExceptionObject false "no cost function") ∧
    ∃ s', StandardStochasticGradientOptimizer.StartOptimization (fun x y : ℝ => x ^ y)
        (unsetCostFunction (Thrown.ExceptionObject false "no cost function")) quietObserver
        (scenarioOptimizer 5)
        = Outcome.thrown (Thrown.ExceptionObject false "no cost function") s' ∧
      s'.events = [] ∧ s'.evaluations = 0 ∧ iterationsNotified s' = 0 ∧
      s'.m_ScaledCurrentPosition = [] ∧ s'.m_Gradient = [] ∧ s'.stopRequests = 0 :=
  ⟨rfl, C16_start_without_cost_function (fun x y : ℝ => x ^ y)
    (unsetCostFunction (Thrown.ExceptionObject false "no cost function")) quietObserver
    (scenarioOptimizer 5) (Thrown.ExceptionObject false "no cost function") rfl⟩

end ResumeClaims

/-! ## Claims on every run, whatever the surroundings do -/

section AnyRunClaims

variable {ε K : Type} [Field K]

/-- The shape of every run of `StartOptimization` with a cost function set: either an observer
of `StartEvent` calls `StopOptimization` and the loop is not entered, or the loop is entered
with the stop flag clear, some steps are completed, and one last pass leaves the loop. -/
theorem start_decompose (pow : K → K → K) (cf : CostFunction ε K) (obs : Observer K)
    (spaceDimension : Nat) (s : Optimizer K)
    (hN : cf.GetNumberOfParameters = Except.ok spaceDimension) :
    (loopEntry obs spaceDimension (startEntry s)
        = { RequestStop { startEntry s with
              m_Stop := false
              events := s.events ++ [Event.StartEvent] } with
            m_Gradient := List.replicate spaceDimension 0 } ∧
      StandardStochasticGradientOptimizer.StartOptimization pow cf obs s
        = Outcome.returned (loopEntry obs spaceDimension (startEntry s))) ∨
    (loopEntry obs spaceDimension (startEntry s)
        = { startEntry s with
            m_Stop := false
            events := s.events ++ [Event.StartEvent]
            m_Gradient := List.replicate spaceDimension 0 } ∧
      ∃ k x o, completedSteps pow cf obs spaceDimension k
          (loopEntry obs spaceDimension (startEntry s)) = some x ∧
        Advanced k (loopEntry obs spaceDimension (startEntry s)) x ∧
        whileBody pow cf obs spaceDimension x = LoopStep.leave o ∧
        StandardStochasticGradientOptimizer.StartOptimization pow cf obs s = o) := by
  rw [StartOptimization_eq pow cf obs spaceDimension s hN,
    ResumeOptimization_eq pow cf obs spaceDimension _ hN]
  cases hstart : obs.onStartEvent
    { startEntry s with m_Stop := false, events := s.events ++ [Event.StartEvent] } with
  | true =>
    have hentry : loopEntry obs spaceDimension (startEntry s)
        = { RequestStop { startEntry s with
              m_Stop := false
              events := s.events ++ [Event.StartEvent] } with
            m_Gradient := List.replicate spaceDimension 0 } := by
      unfold loopEntry InvokeStartEvent
      dsimp only
      rw [show (startEntry s).events = s.events from rfl, hstart]
      rfl
    refine Or.inl ⟨hentry, ?_⟩
    rw [whileLoop_of_stop pow cf obs spaceDimension _ (by rw [hentry]; rfl)]
  | false =>
    have hentry : loopEntry obs spaceDimension (startEntry s)
        = { startEntry s with
            m_Stop := false
            events := s.events ++ [Event.StartEvent]
            m_Gradient := List.replicate spaceDimension 0 } := by
      unfold loopEntry InvokeStartEvent
      dsimp only
      rw [show (startEntry s).events = s.events from rfl, hstart]
      rfl
    refine Or.inr ⟨hentry, ?_⟩
    exact whileLoop_decompose pow cf obs spaceDimension _ _ rfl (by rw [hentry])

/-- C14, as the code has it: in every run of `StartOptimization` with a cost function set that
returns or throws a metric error, the events delivered are, in this order, one `StartEvent`,
one `IterationEvent` for each of the `u` update steps made (the time has advanced `u` times),
and then `EndEvent`: once when the run returns, once when it throws and no outside call of
`StopOptimization` was made, and twice when it throws after such a call was made during the
evaluation that failed (once by that call, once by `MetricErrorResponse`). At most one outside
call is made in a run. A metric error is an `itk::ExceptionObject`; an exception of another
type is not caught, and the run that it ends delivers no `EndEvent` of its own: none when no
outside call of `StopOptimization` was made, the one of that call when it was made during the
evaluation that failed. -/
theorem C14_events_of_a_run (pow : K → K → K) (cf : CostFunction ε K) (obs : Observer K)
    (spaceDimension : Nat) (s : Optimizer K)
    (hN : cf.GetNumberOfParameters = Except.ok spaceDimension) :
    (∀ s', StandardStochasticGradientOptimizer.StartOptimization pow cf obs s
        = Outcome.returned s' →
      ∃ u : Nat, s'.m_CurrentTime = s.m_InitialTime + (u : K) ∧
        s'.events = s.events ++ [Event.StartEvent]
          ++ List.replicate u Event.IterationEvent ++ [Event.EndEvent] ∧
        s'.stopRequests ≤ s.stopRequests + 1) ∧
    (∀ derived what s', StandardStochasticGradientOptimizer.StartOptimization pow cf obs s
        = Outcome.thrown (Thrown.ExceptionObject derived what) s' →
      ∃ u : Nat, s'.m_CurrentTime = s.m_InitialTime + (u : K) ∧
        ((s'.stopRequests = s.stopRequests ∧
          s'.events = s.events ++ [Event.StartEvent]
            ++ List.replicate u Event.IterationEvent ++ [Event.EndEvent]) ∨
        (s'.stopRequests = s.stopRequests + 1 ∧
          s'.events = s.events ++ [Event.StartEvent]
            ++ List.replicate u Event.IterationEvent
            ++ [Event.EndEvent, Event.EndEvent]))) ∧
    (∀ what s', StandardStochasticGradientOptimizer.StartOptimization pow cf obs s
        = Outcome.thrown (Thrown.other what) s' →
      ∃ u : Nat, s'.m_CurrentTime = s.m_InitialTime + (u : K) ∧
        ((s'.stopRequests = s.stopRequests ∧
          s'.events = s.events ++ [Event.StartEvent]
            ++ List.replicate u Event.IterationEvent) ∨
        (s'.stopRequests = s.stopRequests + 1 ∧
          s'.events = s.events ++ [Event.StartEvent]
            ++ List.replicate u Event.IterationEvent ++ [Event.EndEvent]))) := by
  rcases start_decompose pow cf obs spaceDimension s hN with
    ⟨hentry, hrun⟩ | ⟨hentry, k, x, o, -, hadv, hleave, hrun⟩
  · rw [hrun, hentry]
    refine ⟨fun s' hs' => ?_, fun _ _ s' hs' => (by cases hs'),
      fun _ s' hs' => (by cases hs')⟩
    cases hs'
    refine ⟨0, ?_, ?_, le_refl _⟩
    · show s.m_InitialTime = _
      rw [Nat.cast_zero, add_zero]
    · show s.events ++ [Event.StartEvent] ++ [Event.EndEvent] = _
      rw [List.replicate_zero, List.append_nil]
  · rw [hentry] at hadv
    have hxe : x.events
        = s.events ++ [Event.StartEvent] ++ List.replicate k Event.IterationEvent :=
      hadv.2.2.2.2.1
    have hxt : x.m_CurrentTime = s.m_InitialTime + (k : K) := hadv.2.2.1
    have hxr : x.stopRequests = s.stopRequests := hadv.2.2.2.2.2.2.2
    have hsucc : s.events ++ [Event.StartEvent] ++ List.replicate k Event.IterationEvent
        ++ [Event.IterationEvent]
        = s.events ++ [Event.StartEvent] ++ List.replicate (k + 1) Event.IterationEvent := by
      rw [List.replicate_succ', ← List.append_assoc]
    have htime : s.m_InitialTime + (k : K) + 1 = s.m_InitialTime + ((k + 1 : Nat) : K) := by
      rw [Nat.cast_add_one, add_assoc]
    rw [hrun]
    rcases whileBody_cases pow cf obs spaceDimension x hadv.2.2.2.2.2.1 with
      ⟨derived, what, _, _, hb⟩ | ⟨derived, what, _, _, hb⟩ |
      ⟨what, _, _, hb⟩ | ⟨what, _, _, hb⟩ |
      ⟨value, gradient, _, _, hb⟩ | ⟨_, _, _, _, _, hb⟩ |
      ⟨value, gradient, position, _, _, _, _, hb⟩ |
      ⟨value, gradient, position, _, _, _, _, _, hb⟩ | ⟨_, _, _, _, _, _, _, _, hb⟩
    all_goals rw [hb] at hleave
    · cases hleave
      refine ⟨fun s' hs' => (by cases hs'), fun _ _ s' hs' => ?_,
        fun _ s' hs' => (by cases hs')⟩
      cases hs'
      refine ⟨k, hxt, Or.inl ⟨hxr, ?_⟩⟩
      show x.events ++ [Event.EndEvent] = _
      rw [hxe]
    · cases hleave
      refine ⟨fun s' hs' => (by cases hs'), fun _ _ s' hs' => ?_,
        fun _ s' hs' => (by cases hs')⟩
      cases hs'
      refine ⟨k, hxt, Or.inr ⟨?_, ?_⟩⟩
      · show x.stopRequests + 1 = _
        rw [hxr]
      · show x.events ++ [Event.EndEvent] ++ [Event.EndEvent] = _
        rw [hxe, List.append_assoc _ [Event.EndEvent] [Event.EndEvent]]
        rfl
    · cases hleave
      refine ⟨fun s' hs' => (by cases hs'), fun _ _ s' hs' => (by cases hs'),
        fun _ s' hs' => ?_⟩
      cases hs'
      exact ⟨k, hxt, Or.inl ⟨hxr, hxe⟩⟩
    · cases hleave
      refine ⟨fun s' hs' => (by cases hs'), fun _ _ s' hs' => (by cases hs'),
        fun _ s' hs' => ?_⟩
      cases hs'
      refine ⟨k, hxt, Or.inr ⟨?_, ?_⟩⟩
      · show x.stopRequests + 1 = _
        rw [hxr]
      · show x.events ++ [Event.EndEvent] = _
        rw [hxe]
    · cases hleave
      refine ⟨fun s' hs' => ?_, fun _ _ s' hs' => (by cases hs'),
        fun _ s' hs' => (by cases hs')⟩
      cases hs'
      refine ⟨k, hxt, ?_, ?_⟩
      · show x.events ++ [Event.EndEvent] = _
        rw [hxe]
      · show x.stopRequests + 1 ≤ _
        rw [hxr]
    · cases hleave
      exact ⟨fun s' hs' => (by cases hs'), fun _ _ s' hs' => (by cases hs'),
        fun _ s' hs' => (by cases hs')⟩
    · cases hleave
      refine ⟨fun s' hs' => ?_, fun _ _ s' hs' => (by cases hs'),
        fun _ s' hs' => (by cases hs')⟩
      cases hs'
      refine ⟨k + 1, ?_, ?_, ?_⟩
      · show x.m_CurrentTime + 1 = _
        rw [hxt, htime]
      · show x.events ++ [Event.IterationEvent] ++ [Event.EndEvent] = _
        rw [hxe, hsucc]
      · show x.stopRequests + 1 ≤ _
        rw [hxr]
    · cases hleave
      refine ⟨fun s' hs' => ?_, fun _ _ s' hs' => (by cases hs'),
        fun _ s' hs' => (by cases hs')⟩
      cases hs'
      refine ⟨k + 1, ?_, ?_, ?_⟩
      · show x.m_CurrentTime + 1 = _
        rw [hxt, htime]
      · show x.events ++ [Event.IterationEvent] ++ [Event.EndEvent] = _
        rw [hxe, hsucc]
      · show x.stopRequests ≤ _
        rw [hxr]
        omega
    · cases hleave

/-- C14 as the code has it, for a fresh optimizer with the iteration limit 2 and three
parameters, whatever the run does. -/
theorem C14_events_of_a_run_witness :
    (constantCostFunction 3 [1, 1, 1] : CostFunction String ℝ).GetNumberOfParameters
      = Except.ok 3 ∧
    (∀ s', StandardStochasticGradientOptimizer.StartOptimization (fun x y : ℝ => x ^ y)
        (constantCostFunction 3 [1, 1, 1]) quietObserver (scenarioOptimizer 2)
        = Outcome.returned s' →
      ∃ u : Nat, s'.m_CurrentTime = 0 + (u : ℝ) ∧
        s'.events = [] ++ [Event.StartEvent]
          ++ List.replicate u Event.IterationEvent ++ [Event.EndEvent] ∧
        s'.stopRequests ≤ 0 + 1) ∧
    (∀ derived what s',
      StandardStochasticGradientOptimizer.StartOptimization (fun x y : ℝ => x ^ y)
        (constantCostFunction 3 [1, 1, 1]) quietObserver (scenarioOptimizer 2)
        = Outcome.thrown (Thrown.ExceptionObject derived what) s' →
      ∃ u : Nat, s'.m_CurrentTime = 0 + (u : ℝ) ∧
        ((s'.stopRequests = 0 ∧
          s'.events = [] ++ [Event.StartEvent]
            ++ List.replicate u Event.IterationEvent ++ [Event.EndEvent]) ∨
        (s'.stopRequests = 0 + 1 ∧
          s'.events = [] ++ [Event.StartEvent]
            ++ List.replicate u Event.IterationEvent
            ++ [Event.EndEvent, Event.EndEvent]))) ∧
    (∀ what s', StandardStochasticGradientOptimizer.StartOptimization (fun x y : ℝ => x ^ y)
        (constantCostFunction 3 [1, 1, 1]) quietObserver (scenarioOptimizer 2)
        = Outcome.thrown (Thrown.other what) s' →
      ∃ u : Nat, s'.m_CurrentTime = 0 + (u : ℝ) ∧
        ((s'.stopRequests = 0 ∧
          s'.events = [] ++ [Event.StartEvent]
            ++ List.replicate u Event.IterationEvent) ∨
        (s'.stopRequests = 0 + 1 ∧
          s'.events = [] ++ [Event.StartEvent]
            ++ List.replicate u Event.IterationEvent ++ [Event.EndEvent]))) :=
  ⟨rfl, C14_events_of_a_run (fun x y : ℝ => x ^ y) (constantCostFunction 3 [1, 1, 1])
    quietObserver 3 (scenarioOptimizer 2) rfl⟩

/-- C14 as stated fails: when `StopOptimization` is called once from outside during the first
evaluation and that evaluation throws, the run re-raises the metric error after delivering
`StartEvent`, `EndEvent`, `EndEvent`: the end is notified twice, once by the outside call and
once by `MetricErrorResponse`. -/
theorem C14_counterexample :
    ∃ s' : Optimizer ℝ,
      StandardStochasticGradientOptimizer.StartOptimization (fun x y : ℝ => x ^ y)
        (failingCostFunction 3 [1, 1, 1] 0 (Thrown.ExceptionObject false "metric failed"))
        stopDuringEvaluation (scenarioOptimizer 5)
        = Outcome.thrown (Thrown.ExceptionObject false "metric failed") s' ∧
      s'.stopRequests = 1 ∧ iterationsNotified s' = 0 ∧
      s'.events = [Event.StartEvent, Event.EndEvent, Event.EndEvent] ∧
      s'.events ≠ [Event.StartEvent, Event.EndEvent] := by
  have h1 := whileLoop_of_leave (fun x y : ℝ => x ^ y)
    (failingCostFunction 3 [1, 1, 1] 0 (Thrown.ExceptionObject false "metric failed"))
    stopDuringEvaluation 3
    (loopEntry stopDuringEvaluation 3 (startEntry (scenarioOptimizer 5))) _ rfl
    (whileBody_of_error_stopped _ _ _ _ _ false "metric failed" rfl rfl)
  rw [← ResumeOptimization_eq _ _ _ 3 _ rfl, ← StartOptimization_eq _ _ _ 3 _ rfl] at h1
  exact ⟨_, h1, rfl, rfl, rfl, fun h => (by cases h)⟩

/-- The update step advances the time by one. -/
theorem AdvanceOneStep_time (pow : K → K → K) (obs : Observer K) (spaceDimension : Nat)
    (s s3 : Optimizer K)
    (h : StandardStochasticGradientOptimizer.AdvanceOneStep pow obs spaceDimension s = some s3) :
    s3.m_CurrentTime = s.m_CurrentTime + 1 := by
  unfold StandardStochasticGradientOptimizer.AdvanceOneStep
    GradientDescentOptimizer2.AdvanceOneStep at h
  simp only [Option.map_map, Option.map_eq_some'] at h
  obtain ⟨p, -, rfl⟩ := h
  dsimp only [Function.comp, UpdateCurrentTime, InvokeIterationEvent, SetLearningRate]
  split <;> rfl

/-- The update step in which an observer of `IterationEvent` calls `StopOptimization`. -/
theorem AdvanceOneStep_of_stop_in_callback (pow : K → K → K) (obs : Observer K)
    (spaceDimension : Nat) (s : Optimizer K) (value : K) (gradient position : List K)
    (hadv : advancePosition obs spaceDimension (evaluated pow s value gradient)
      = some position)
    (hit : obs.onIterationEvent (notified pow s value gradient position) = true) :
    StandardStochasticGradientOptimizer.AdvanceOneStep pow obs spaceDimension
      { s with evaluations := s.evaluations + 1, m_Value := value, m_Gradient := gradient }
      = some (UpdateCurrentTime (RequestStop (notified pow s value gradient position))) := by
  have hinv : InvokeIterationEvent obs
      { evaluated pow s value gradient with m_ScaledCurrentPosition := position }
      = RequestStop (notified pow s value gradient position) := by
    show (if obs.onIterationEvent (notified pow s value gradient position) = true then
      RequestStop (notified pow s value gradient position)
      else notified pow s value gradient position) = _
    rw [if_pos hit]
  unfold StandardStochasticGradientOptimizer.AdvanceOneStep
    GradientDescentOptimizer2.AdvanceOneStep
  show Option.map UpdateCurrentTime (Option.map _
    (advancePosition obs spaceDimension (evaluated pow s value gradient))) = _
  rw [hadv]
  show some (UpdateCurrentTime (InvokeIterationEvent obs
    { evaluated pow s value gradient with m_ScaledCurrentPosition := position })) = _
  rw [hinv]

/-- No pass is completed from a loop entry with the stop flag set. -/
theorem completedSteps_of_stop_flag (pow : K → K → K) (cf : CostFunction ε K)
    (obs : Observer K) (spaceDimension : Nat) (k : Nat) (s x : Optimizer K)
    (hstop : s.m_Stop = true)
    (hx : completedSteps pow cf obs spaceDimension k s = some x) : k = 0 ∧ x = s := by
  cases k with
  | zero =>
    simp only [completedSteps, Option.some.injEq] at hx
    exact ⟨rfl, hx.symm⟩
  | succ k =>
    obtain ⟨o, ho⟩ := whileBody_of_stop_flag pow cf obs spaceDimension s hstop
    rw [completedSteps, ho] at hx
    cases hx

/-- At every test of the loop condition of a run of `StartOptimization` the time is the initial
time plus the iteration counter. -/
theorem start_time_at_each_pass (pow : K → K → K) (cf : CostFunction ε K) (obs : Observer K)
    (spaceDimension : Nat) (s : Optimizer K)
    (hN : cf.GetNumberOfParameters = Except.ok spaceDimension) (k : Nat) (x : Optimizer K)
    (hx : completedSteps pow cf obs spaceDimension k
      (loopEntry obs spaceDimension (startEntry s)) = some x) :
    x.m_CurrentIteration = k ∧ x.m_CurrentTime = s.m_InitialTime + (k : K) := by
  rcases start_decompose pow cf obs spaceDimension s hN with
    ⟨hentry, -⟩ | ⟨hentry, -⟩
  · rw [hentry] at hx
    obtain ⟨rfl, rfl⟩ := completedSteps_of_stop_flag pow cf obs spaceDimension k _ x rfl hx
    refine ⟨rfl, ?_⟩
    show s.m_InitialTime = _
    rw [Nat.cast_zero, add_zero]
  · rw [hentry] at hx
    have hadv := completedSteps_Advanced pow cf obs spaceDimension k _ x rfl hx
    refine ⟨?_, hadv.2.2.1⟩
    rw [hadv.2.1]
    show 0 + k = k
    omega

/-- A run that a call made during the update step has ended is one step ahead in time. -/
theorem StoppedInUpdateStep_time (pow : K → K → K) (cf : CostFunction ε K) (obs : Observer K)
    (spaceDimension : Nat) (s s' : Optimizer K)
    (hN : cf.GetNumberOfParameters = Except.ok spaceDimension)
    (h : StoppedInUpdateStep pow cf obs spaceDimension
      (loopEntry obs spaceDimension (startEntry s)) s') :
    s'.m_CurrentTime = s.m_InitialTime + (s'.m_CurrentIteration : K) + 1 := by
  obtain ⟨k, x, value, gradient, hx, -, -, -, hadv, -⟩ := h
  obtain ⟨hxi, hxt⟩ := start_time_at_each_pass pow cf obs spaceDimension s hN k x hx
  have hi := (AdvanceOneStep_counters pow obs spaceDimension _ s' hadv).1
  have ht := AdvanceOneStep_time pow obs spaceDimension _ s' hadv
  have hi' : s'.m_CurrentIteration = k := hi.trans hxi
  have ht' : s'.m_CurrentTime = x.m_CurrentTime + 1 := ht
  rw [ht', hxt, hi']

/-- Where a run of `StartOptimization` ends: either a call of `StopOptimization` made during
the update step of the last pass has ended it, or the time is the initial time plus the
iteration counter. -/
theorem start_end_time (pow : K → K → K) (cf : CostFunction ε K) (obs : Observer K)
    (spaceDimension : Nat) (s s' : Optimizer K)
    (hN : cf.GetNumberOfParameters = Except.ok spaceDimension)
    (hrun : StandardStochasticGradientOptimizer.StartOptimization pow cf obs s
        = Outcome.returned s' ∨
      ∃ err, StandardStochasticGradientOptimizer.StartOptimization pow cf obs s
        = Outcome.thrown err s') :
    StoppedInUpdateStep pow cf obs spaceDimension
        (loopEntry obs spaceDimension (startEntry s)) s' ∨
      s'.m_CurrentTime = s.m_InitialTime + (s'.m_CurrentIteration : K) := by
  have hterm : ∀ o : Outcome ε K,
      (o = Outcome.returned s' ∨ ∃ err, o = Outcome.thrown err s') →
      ∀ y : Optimizer K, (o = Outcome.returned y ∨ ∃ err, o = Outcome.thrown err y) →
        y = s' := by
    intro o ho y hy
    rcases ho with ho | ⟨e₁, ho⟩ <;> rcases hy with hy | ⟨e₂, hy⟩ <;> rw [ho] at hy <;>
      cases hy <;> rfl
  rcases start_decompose pow cf obs spaceDimension s hN with
    ⟨hentry, hstart⟩ | ⟨hentry, k, x, o, hx, hadv, hleave, hstart⟩
  · rw [hstart, hentry] at hrun
    have hs' := hterm _ hrun _ (Or.inl rfl)
    rw [← hs']
    refine Or.inr ?_
    show s.m_InitialTime = s.m_InitialTime + ((0 : Nat) : K)
    rw [Nat.cast_zero, add_zero]
  · obtain ⟨hxi, hxt⟩ := start_time_at_each_pass pow cf obs spaceDimension s hN k x hx
    have hxs : x.m_Stop = false := hadv.2.2.2.2.2.1
    have htime : s.m_InitialTime + (k : K) + 1 = s.m_InitialTime + ((k + 1 : Nat) : K) := by
      rw [Nat.cast_add_one, add_assoc]
    rw [hstart] at hrun
    rcases whileBody_cases pow cf obs spaceDimension x hxs with
      ⟨derived, what, _, _, hb⟩ | ⟨derived, what, _, _, hb⟩ |
      ⟨what, _, _, hb⟩ | ⟨what, _, _, hb⟩ |
      ⟨value, gradient, _, _, hb⟩ | ⟨_, _, _, _, _, hb⟩ |
      ⟨value, gradient, position, hev, hde, hpos, hit, hb⟩ |
      ⟨value, gradient, position, _, _, _, _, _, hb⟩ | ⟨_, _, _, _, _, _, _, _, hb⟩
    all_goals rw [hb] at hleave
    · cases hleave
      have hs' := hterm _ hrun _ (Or.inr ⟨_, rfl⟩)
      rw [← hs']
      refine Or.inr ?_
      show x.m_CurrentTime = s.m_InitialTime + (x.m_CurrentIteration : K)
      rw [hxt, hxi]
    · cases hleave
      have hs' := hterm _ hrun _ (Or.inr ⟨_, rfl⟩)
      rw [← hs']
      refine Or.inr ?_
      show x.m_CurrentTime = s.m_InitialTime + (x.m_CurrentIteration : K)
      rw [hxt, hxi]
    · cases hleave
      have hs' := hterm _ hrun _ (Or.inr ⟨_, rfl⟩)
      rw [← hs']
      refine Or.inr ?_
      show x.m_CurrentTime = s.m_InitialTime + (x.m_CurrentIteration : K)
      rw [hxt, hxi]
    · cases hleave
      have hs' := hterm _ hrun _ (Or.inr ⟨_, rfl⟩)
      rw [← hs']
      refine Or.inr ?_
      show x.m_CurrentTime = s.m_InitialTime + (x.m_CurrentIteration : K)
      rw [hxt, hxi]
    · cases hleave
      have hs' := hterm _ hrun _ (Or.inl rfl)
      rw [← hs']
      refine Or.inr ?_
      show x.m_CurrentTime = s.m_InitialTime + (x.m_CurrentIteration : K)
      rw [hxt, hxi]
    · cases hleave
      rcases hrun with hrun | ⟨_, hrun⟩ <;> cases hrun
    · cases hleave
      have hs' := hterm _ hrun _ (Or.inl rfl)
      rw [← hs']
      exact Or.inl ⟨k, x, value, gradient, hx, hxs, hev, hde,
        AdvanceOneStep_of_stop_in_callback pow obs spaceDimension x value gradient position
          hpos hit, rfl⟩
    · cases hleave
      have hs' := hterm _ hrun _ (Or.inl rfl)
      rw [← hs']
      refine Or.inr ?_
      show x.m_CurrentTime + 1 = s.m_InitialTime + ((x.m_CurrentIteration + 1 : Nat) : K)
      rw [hxt, hxi, htime]
    · cases hleave

/-- C20: in every run of `StartOptimization` with a cost function set, at each test of the loop
condition, hence at each evaluation of the cost function, `m_CurrentTime` is
`m_InitialTime + m_CurrentIteration`; and where the run returns or throws, `m_CurrentTime` is
`m_InitialTime + m_CurrentIteration + 1` exactly when a call of `StopOptimization` made during
the update step of the last pass has ended the run, and `m_InitialTime + m_CurrentIteration`
exactly when not. -/
theorem C20_time_is_initial_time_plus_iteration (pow : K → K → K) (cf : CostFunction ε K)
    (obs : Observer K) (spaceDimension : Nat) (s : Optimizer K)
    (hN : cf.GetNumberOfParameters = Except.ok spaceDimension) :
    (∀ (k : Nat) (x : Optimizer K),
      completedSteps pow cf obs spaceDimension k
        (loopEntry obs spaceDimension (startEntry s)) = some x →
      x.m_CurrentTime = s.m_InitialTime + (x.m_CurrentIteration : K)) ∧
    (∀ s' : Optimizer K,
      (StandardStochasticGradientOptimizer.StartOptimization pow cf obs s
          = Outcome.returned s' ∨
        ∃ err, StandardStochasticGradientOptimizer.StartOptimization pow cf obs s
          = Outcome.thrown err s') →
      (s'.m_CurrentTime = s.m_InitialTime + (s'.m_CurrentIteration : K) + 1 ↔
        StoppedInUpdateStep pow cf obs spaceDimension
          (loopEntry obs spaceDimension (startEntry s)) s') ∧
      (s'.m_CurrentTime = s.m_InitialTime + (s'.m_CurrentIteration : K) ↔
        ¬ StoppedInUpdateStep pow cf obs spaceDimension
          (loopEntry obs spaceDimension (startEntry s)) s')) := by
  have hne : ∀ a b : K, a = b → a = b + 1 → False := by
    intro a b h₁ h₂
    have h : (1 : K) = 0 := by linear_combination h₁ - h₂
    exact one_ne_zero h
  refine ⟨fun k x hx => ?_, fun s' hrun => ?_⟩
  · obtain ⟨hxi, hxt⟩ := start_time_at_each_pass pow cf obs spaceDimension s hN k x hx
    rw [hxt, hxi]
  · rcases start_end_time pow cf obs spaceDimension s s' hN hrun with hS | hT
    · have hA := StoppedInUpdateStep_time pow cf obs spaceDimension s s' hN hS
      exact ⟨⟨fun _ => hS, fun _ => hA⟩,
        ⟨fun h _ => hne _ _ h hA, fun hn => absurd hS hn⟩⟩
    · exact ⟨⟨fun h => absurd h (fun h => hne _ _ hT h),
          fun hS => StoppedInUpdateStep_time pow cf obs spaceDimension s s' hN hS⟩,
        ⟨fun _ hS => hne _ _ hT
          (StoppedInUpdateStep_time pow cf obs spaceDimension s s' hN hS), fun _ => hT⟩⟩

/-- C20 for a fresh optimizer with the iteration limit 10 and three parameters whose observer
calls `StopOptimization` in the callback of the first update. -/
theorem C20_time_is_initial_time_plus_iteration_witness :
    (constantCostFunction 3 [1, 1, 1] : CostFunction String ℝ).GetNumberOfParameters
      = Except.ok 3 ∧
    (∀ (k : Nat) (x : Optimizer ℝ),
      completedSteps (fun x y : ℝ => x ^ y) (constantCostFunction 3 [1, 1, 1])
        (stopAtIteration 1) 3 k
        (loopEntry (stopAtIteration 1) 3 (startEntry (scenarioOptimizer 10))) = some x →
      x.m_CurrentTime = 0 + (x.m_CurrentIteration : ℝ)) ∧
    (∀ s' : Optimizer ℝ,
      (StandardStochasticGradientOptimizer.StartOptimization (fun x y : ℝ => x ^ y)
          (constantCostFunction 3 [1, 1, 1]) (stopAtIteration 1) (scenarioOptimizer 10)
          = Outcome.returned s' ∨
        ∃ err, StandardStochasticGradientOptimizer.StartOptimization (fun x y : ℝ => x ^ y)
          (constantCostFunction 3 [1, 1, 1]) (stopAtIteration 1) (scenarioOptimizer 10)
          = Outcome.thrown err s') →
      (s'.m_CurrentTime = 0 + (s'.m_CurrentIteration : ℝ) + 1 ↔
        StoppedInUpdateStep (fun x y : ℝ => x ^ y) (constantCostFunction 3 [1, 1, 1])
          (stopAtIteration 1) 3
          (loopEntry (stopAtIteration 1) 3 (startEntry (scenarioOptimizer 10))) s') ∧
      (s'.m_CurrentTime = 0 + (s'.m_CurrentIteration : ℝ) ↔
        ¬ StoppedInUpdateStep (fun x y : ℝ => x ^ y) (constantCostFunction 3 [1, 1, 1])
          (stopAtIteration 1) 3
          (loopEntry (stopAtIteration 1) 3 (startEntry (scenarioOptimizer 10))) s')) :=
  ⟨rfl, C20_time_is_initial_time_plus_iteration (fun x y : ℝ => x ^ y)
    (constantCostFunction 3 [1, 1, 1]) (stopAtIteration 1) 3 (scenarioOptimizer 10) rfl⟩

end AnyRunClaims
/-! ## Runs from different histories -/

section ResetClaims

variable {ε K : Type} [Field K]

end ResetClaims

end itk
